import Mathlib

/-!
# Time-domain proportional-fair scheduler and NR broadcast signalling

A shallow embedding of `srsenb/src/stack/mac/schedulers/sched_time_pf.cc` and of
`srsgnb/src/stack/mac/sched_nr_signalling.cc`.

Conventions of the embedding

* `float` values are rationals (`ℚ`); `std::numeric_limits<float>::max()` is the rational
  `FLT_MAX`.  The definitions named after the source compute in exact arithmetic, without
  rounding, overflow or NaN; `float_round` and the definitions ending in `_float` round every
  operation to single precision.
* Pointers to HARQ processes are `Option Nat` (`none` is `nullptr`); whatever is read through
  such a pointer is read from the external world at the time of the read.
* Pointers to contexts stored in the priority queues are the `rnti` keys of the history map;
  dereferencing a key that is no longer in the map is undefined behaviour and yields `none`.
* Everything owned by collaborators (the `sf_sched` grid, the `sched_ue` database, the helper
  functions of `sched_base`) is an abstract world `W` together with a record `Env W` of the
  operations the two files call on it.
-/

namespace srsenb

/-! ## Per-terminal context (`sched_time_pf::ue_ctxt`) -/

/-- Largest finite single-precision value, `std::numeric_limits<float>::max()`,
that is `2^128 - 2^104`. -/
def FLT_MAX : ℚ := 340282346638528859811704183484516925440

/-- The fields of `sched_time_pf::ue_ctxt` that `sched_time_pf.cc` reads or writes. -/
structure ue_ctxt where
  rnti : Nat
  fairness_coeff : ℚ
  ue_cc_idx : Int
  dl_prio : ℚ
  ul_prio : ℚ
  dl_retx_h : Option Nat
  dl_newtx_h : Option Nat
  ul_h : Option Nat
  dl_avg_rate_ : ℚ
  ul_avg_rate_ : ℚ
  dl_nof_samples : Nat
  ul_nof_samples : Nat
deriving DecidableEq

/-- Modelled from the spec: the constructor `ue_ctxt{rnti, fairness_coeff}` and the in-class
initialisers live in `sched_time_pf.h`, which is not among the sources.  A new context has
average rates 0, sample counts 0, no opportunity, and the scheduler's fairness coefficient. -/
def ue_ctxt.init (rnti : Nat) (fairness_coeff : ℚ) : ue_ctxt :=
  { rnti := rnti, fairness_coeff := fairness_coeff, ue_cc_idx := 0, dl_prio := 0, ul_prio := 0,
    dl_retx_h := none, dl_newtx_h := none, ul_h := none,
    dl_avg_rate_ := 0, ul_avg_rate_ := 0, dl_nof_samples := 0, ul_nof_samples := 0 }

/-- Modelled from the spec: the accessor `dl_avg_rate()` is declared in `sched_time_pf.h`;
it reads the stored average `R = dl_avg_rate`. -/
def ue_ctxt.dl_avg_rate (c : ue_ctxt) : ℚ := c.dl_avg_rate_

/-- Modelled from the spec: the accessor `ul_avg_rate()`, as `dl_avg_rate()`. -/
def ue_ctxt.ul_avg_rate (c : ue_ctxt) : ℚ := c.ul_avg_rate_

/-- `sched_time_pf::ue_ctxt::save_dl_alloc`, in exact arithmetic (`save_dl_alloc_float` below
rounds as the machine does).  The sample counter is an unbounded natural number (its width is
declared in the header). -/
def ue_ctxt.save_dl_alloc (c : ue_ctxt) (alloc_bytes : Nat) (exp_avg_alpha : ℚ) : ue_ctxt :=
  if (c.dl_nof_samples : ℚ) < 1 / exp_avg_alpha then
    -- fast start
    { c with
      dl_avg_rate_ :=
        c.dl_avg_rate_ + ((alloc_bytes : ℚ) - c.dl_avg_rate_) / ((c.dl_nof_samples : ℚ) + 1)
      dl_nof_samples := c.dl_nof_samples + 1 }
  else
    { c with
      dl_avg_rate_ := (1 - exp_avg_alpha) * c.dl_avg_rate_ + exp_avg_alpha * (alloc_bytes : ℚ)
      dl_nof_samples := c.dl_nof_samples + 1 }

/-- `sched_time_pf::ue_ctxt::save_ul_alloc`, in exact arithmetic. -/
def ue_ctxt.save_ul_alloc (c : ue_ctxt) (alloc_bytes : Nat) (exp_avg_alpha : ℚ) : ue_ctxt :=
  if (c.ul_nof_samples : ℚ) < 1 / exp_avg_alpha then
    -- fast start
    { c with
      ul_avg_rate_ :=
        c.ul_avg_rate_ + ((alloc_bytes : ℚ) - c.ul_avg_rate_) / ((c.ul_nof_samples : ℚ) + 1)
      ul_nof_samples := c.ul_nof_samples + 1 }
  else
    { c with
      ul_avg_rate_ := (1 - exp_avg_alpha) * c.ul_avg_rate_ + exp_avg_alpha * (alloc_bytes : ℚ)
      ul_nof_samples := c.ul_nof_samples + 1 }

/-- The smoothing factor both entry points pass to `save_dl_alloc` / `save_ul_alloc`. -/
def exp_avg_alpha : ℚ := 1 / 100

/-- The context after the samples `xs` were passed, in order, to `save_dl_alloc`. -/
def save_dl_allocs (c : ue_ctxt) (xs : List Nat) : ue_ctxt :=
  xs.foldl (fun c x => c.save_dl_alloc x exp_avg_alpha) c

/-- The context after the samples `xs` were passed, in order, to `save_ul_alloc`. -/
def save_ul_allocs (c : ue_ctxt) (xs : List Nat) : ue_ctxt :=
  xs.foldl (fun c x => c.save_ul_alloc x exp_avg_alpha) c

/-! ## Collaborators -/

/-- Result codes of the grid (`alloc_outcome_t`).  The enumeration is declared in
`sched_grid.h`; `sched_time_pf.cc` names `SUCCESS`, `DCI_COLLISION` and `ERROR`, and
`RB_COLLISION` stands for the remaining failure ("resource unavailable"). -/
inductive alloc_outcome_t
  | SUCCESS
  | DCI_COLLISION
  | RB_COLLISION
  | ERROR
deriving DecidableEq

/-- Bitmask over resource block groups (`rbgmask_t`). -/
abbrev rbgmask_t := List Bool

/-- Bitmask over physical resource blocks (`prbmask_t`). -/
abbrev prbmask_t := List Bool

/-- `rbgmask_t::count()`: the number of set bits. -/
def mask_count (m : List Bool) : Nat := m.count true

/-- Half-open interval `[start, stop)` (`rbg_interval`, `prb_interval`). -/
structure interval where
  start : Nat
  stop : Nat
deriving DecidableEq

/-- Modelled from the spec: `interval::empty()` is declared in `interval.h`, which is not
among the sources; an interval in which nothing was found has no block, `stop == start`. -/
def interval.empty (i : interval) : Bool := i.stop == i.start

/-- What the two entry points do that a caller or a collaborator can observe, in order. -/
inductive sched_event
  | new_tti (tti_rx : Nat)
  | dl_queue_push (rnti : Nat)
  | ul_queue_push (rnti : Nat)
  | try_dl_alloc (ue : ue_ctxt)
  | try_ul_alloc (ue : ue_ctxt)
  | try_dl_retx_alloc (rnti h : Nat)
  | alloc_dl_user (rnti : Nat) (mask : rbgmask_t) (pid : Nat)
  | try_ul_retx_alloc (rnti h : Nat)
  | alloc_ul_user (rnti : Nat) (alloc : interval)
  | log_dl_dci_collision (rnti : Nat)
  | log_ul_dci_collision (rnti : Nat)
deriving DecidableEq

/-- The operations `sched_time_pf.cc` calls on objects it does not own.  `W` is the state of
the world outside the scheduler during one call: the `sf_sched` grid of the slot, the `sched_ue`
database and its HARQ processes.  Terminals are named by their rnti, HARQ processes by the
value of the pointer. -/
structure Env (W : Type) where
  /-- The value `tti_point{tti_sched->get_tti_rx()}`. -/
  get_tti_rx : W → Nat
  get_tti_tx_ul : W → Nat
  get_dl_mask : W → rbgmask_t
  get_ul_mask : W → prbmask_t
  /-- The call `tti_sched->alloc_dl_user(&ue, mask, pid)`. -/
  alloc_dl_user : W → Nat → rbgmask_t → Nat → alloc_outcome_t × W
  /-- The call `tti_sched->alloc_ul_user(&ue, alloc)`. -/
  alloc_ul_user : W → Nat → interval → alloc_outcome_t × W
  /-- The call `try_dl_retx_alloc(*tti_sched, ue, h)`. -/
  try_dl_retx_alloc : W → Nat → Nat → alloc_outcome_t × W
  /-- The call `try_ul_retx_alloc(*tti_sched, ue, h)`. -/
  try_ul_retx_alloc : W → Nat → Nat → alloc_outcome_t × W
  find_available_dl_rbgs : Nat → rbgmask_t → rbgmask_t
  find_contiguous_ul_prbs : Nat → prbmask_t → interval
  get_dl_retx_harq : W → Nat → Option Nat
  get_dl_newtx_harq : W → Nat → Option Nat
  get_ul_retx_harq : W → Nat → Option Nat
  get_ul_newtx_harq : W → Nat → Option Nat
  /-- The keys of `ue_db`, in iteration order. -/
  ue_db : W → List Nat
  /-- The value `ue.enb_to_ue_cc_idx(cell.enb_cc_idx)` for the scheduler's cell. -/
  enb_to_ue_cc_idx : W → Nat → Int
  get_expected_dl_bitrate : W → Nat → Int → Nat
  get_expected_ul_bitrate : W → Nat → Int → Nat
  get_required_dl_rbgs : W → Nat → Int → interval
  get_pending_ul_new_data : W → Nat → Nat → Int → Nat
  get_required_prb_ul : W → Nat → Int → Nat → Nat
  /-- The call `h->get_tbs(tb)` on a downlink HARQ process of a terminal. -/
  dl_get_tbs : W → Nat → Nat → Nat → Nat
  /-- The call `h->get_id()`. -/
  dl_get_id : W → Nat → Nat → Nat
  /-- The call `h->has_pending_retx()` on an uplink HARQ process. -/
  ul_has_pending_retx : W → Nat → Nat → Bool
  /-- The call `h->get_pending_data()`. -/
  ul_get_pending_data : W → Nat → Nat → Nat
  /-- The library function `pow` on single-precision values. -/
  pow : ℚ → ℚ → ℚ

/-- Modelled from the spec: `try_dl_retx_alloc` is defined in `sched_base.cc`, which is not
among the sources.  "Only Success mutates the grid": a retransmission attempt that does not
return `SUCCESS` leaves the downlink mask of the grid as it found it. -/
def failed_retx_keeps_dl_mask {W : Type} (env : Env W) : Prop :=
  ∀ (w : W) (rnti h : Nat),
    (env.try_dl_retx_alloc w rnti h).1 ≠ alloc_outcome_t.SUCCESS →
      env.get_dl_mask (env.try_dl_retx_alloc w rnti h).2 = env.get_dl_mask w

/-! ## Context refresh -/

/-- `sched_time_pf::ue_ctxt::new_tti`, with the two priorities in exact arithmetic
(`new_tti_float` below rounds as the machine does). -/
def ue_ctxt.new_tti {W : Type} (env : Env W) (c : ue_ctxt) (w : W) : ue_ctxt :=
  let c : ue_ctxt :=
    { c with
      dl_retx_h := none, dl_newtx_h := none, ul_h := none, dl_prio := 0,
      ue_cc_idx := env.enb_to_ue_cc_idx w c.rnti }
  if c.ue_cc_idx < 0 then
    -- not active
    c
  else
    -- Calculate DL priority
    let c : ue_ctxt :=
      { c with
        dl_retx_h := env.get_dl_retx_harq w c.rnti, dl_newtx_h := env.get_dl_newtx_harq w c.rnti }
    let c : ue_ctxt :=
      if c.dl_retx_h ≠ none ∨ c.dl_newtx_h ≠ none then
        let r : ℚ := ((env.get_expected_dl_bitrate w c.rnti c.ue_cc_idx / 8 : Nat) : ℚ)
        let R : ℚ := c.dl_avg_rate
        { c with
          dl_prio :=
            if R ≠ 0 then env.pow r c.fairness_coeff / R else if r = 0 then 0 else FLT_MAX }
      else c
    -- Calculate UL priority
    let c : ue_ctxt := { c with ul_h := env.get_ul_retx_harq w c.rnti }
    let c : ue_ctxt :=
      if c.ul_h = none then { c with ul_h := env.get_ul_newtx_harq w c.rnti } else c
    if c.ul_h ≠ none then
      let r : ℚ := ((env.get_expected_ul_bitrate w c.rnti c.ue_cc_idx / 8 : Nat) : ℚ)
      let R : ℚ := c.ul_avg_rate
      { c with ul_prio := if R ≠ 0 then r / R else if r = 0 then 0 else FLT_MAX }
    else c

/-! ## Comparators and priority queues -/

/-- `sched_time_pf::ue_dl_prio_compare::operator()`. -/
def ue_dl_prio_compare (lhs rhs : ue_ctxt) : Bool :=
  let is_retx1 : Bool := lhs.dl_retx_h ≠ none
  let is_retx2 : Bool := rhs.dl_retx_h ≠ none
  (!is_retx1 && is_retx2) || (is_retx1 == is_retx2 && decide (lhs.dl_prio < rhs.dl_prio))

/-- `sched_time_pf::ue_ul_prio_compare::operator()`, given the pending-retransmission flags
read through the two `ul_h` pointers. -/
def ue_ul_prio_compare (is_retx1 is_retx2 : Bool) (lhs rhs : ue_ctxt) : Bool :=
  (!is_retx1 && is_retx2) || (is_retx1 == is_retx2 && decide (lhs.ul_prio < rhs.ul_prio))

/-- `std::priority_queue::top`, by its contract: an element that `comp` ranks below no other
element of the queue.  The queue is the list of its elements; among elements that `comp` does
not order, the scan keeps the earlier one (the claims do not depend on that choice).  The
contract holds for a queue whose keys are what they were when its elements were pushed; for a
queue that holds entries of an earlier slot see `push_heap` below. -/
def pq_top {α : Type} (comp : α → α → Bool) : List α → Option α
  | [] => none
  | x :: xs => some (xs.foldl (fun best y => if comp best y then y else best) x)

/-! ## Allocation attempts -/

/-- The end of `try_dl_alloc` (lines 97 to 100): log a control-channel collision, return 0. -/
def try_dl_alloc_end {W : Type} (rnti : Nat) (code : alloc_outcome_t) (w : W)
    (tr : List sched_event) : Nat × W × List sched_event :=
  if code = alloc_outcome_t.DCI_COLLISION then
    (0, w, tr ++ [sched_event.log_dl_dci_collision rnti])
  else (0, w, tr)

/-- The second half of `try_dl_alloc` (lines 81 to 100): what runs when the retransmission
block has not returned, from the `code`, the world and the calls that block left. -/
def try_dl_alloc_newtx {W : Type} (env : Env W) (ue_ctxt : ue_ctxt) (code : alloc_outcome_t)
    (w : W) (tr : List sched_event) : Nat × W × List sched_event :=
  let rnti := ue_ctxt.rnti
  match ue_ctxt.dl_newtx_h with
  | some h =>
    if code ≠ alloc_outcome_t.DCI_COLLISION then
      let req_rbgs := env.get_required_dl_rbgs w rnti ue_ctxt.ue_cc_idx
      -- Check if there is an empty harq for the newtx
      if req_rbgs.stop = 0 then (0, w, tr)
      else
        -- Allocate resources based on pending data
        let newtx_mask := env.find_available_dl_rbgs req_rbgs.stop (env.get_dl_mask w)
        if mask_count newtx_mask ≥ req_rbgs.start then
          -- empty RBGs were found
          let pid := env.dl_get_id w rnti h
          let r := env.alloc_dl_user w rnti newtx_mask pid
          let tr2 := tr ++ [sched_event.alloc_dl_user rnti newtx_mask pid]
          if r.1 = alloc_outcome_t.SUCCESS then
            ((env.dl_get_tbs r.2 rnti h 0 + env.dl_get_tbs r.2 rnti h 1) % 2 ^ 32, r.2, tr2)
          else try_dl_alloc_end rnti r.1 r.2 tr2
        else try_dl_alloc_end rnti code w tr
    else try_dl_alloc_end rnti code w tr
  | none => try_dl_alloc_end rnti code w tr

/-- `sched_time_pf::try_dl_alloc`: the returned byte count, the world after the call, and the
calls made on the grid, in order. -/
def try_dl_alloc {W : Type} (env : Env W) (ue_ctxt : ue_ctxt) (w : W) :
    Nat × W × List sched_event :=
  let rnti := ue_ctxt.rnti
  match ue_ctxt.dl_retx_h with
  | some h =>
    let r := env.try_dl_retx_alloc w rnti h
    if r.1 = alloc_outcome_t.SUCCESS then
      ((env.dl_get_tbs r.2 rnti h 0 + env.dl_get_tbs r.2 rnti h 1) % 2 ^ 32, r.2,
        [sched_event.try_dl_retx_alloc rnti h])
    else try_dl_alloc_newtx env ue_ctxt r.1 r.2 [sched_event.try_dl_retx_alloc rnti h]
  | none => try_dl_alloc_newtx env ue_ctxt alloc_outcome_t.ERROR w []

/-- `sched_time_pf::try_ul_alloc`. -/
def try_ul_alloc {W : Type} (env : Env W) (ue_ctxt : ue_ctxt) (w : W) :
    Nat × W × List sched_event :=
  let rnti := ue_ctxt.rnti
  match ue_ctxt.ul_h with
  | none => (0, w, [])
  | some h =>
    let attempt : Option (alloc_outcome_t × W × List sched_event) :=
      if env.ul_has_pending_retx w rnti h then
        let r := env.try_ul_retx_alloc w rnti h
        some (r.1, r.2, [sched_event.try_ul_retx_alloc rnti h])
      else
        let pending_data := env.get_pending_ul_new_data w rnti (env.get_tti_tx_ul w) ue_ctxt.ue_cc_idx
        -- Check if there is a empty harq, and data to transmit
        if pending_data = 0 then none
        else
          let pending_rb := env.get_required_prb_ul w rnti ue_ctxt.ue_cc_idx pending_data
          let alloc := env.find_contiguous_ul_prbs pending_rb (env.get_ul_mask w)
          if alloc.empty then none
          else
            let r := env.alloc_ul_user w rnti alloc
            some (r.1, r.2, [sched_event.alloc_ul_user rnti alloc])
    match attempt with
    | none => (0, w, [])
    | some (code, w1, tr) =>
      let tr1 :=
        if code = alloc_outcome_t.DCI_COLLISION then tr ++ [sched_event.log_ul_dci_collision rnti]
        else tr
      (if code = alloc_outcome_t.SUCCESS then env.ul_get_pending_data w1 rnti h else 0, w1, tr1)

/-! ## The scheduler -/

/-- The members of `sched_time_pf` that `sched_time_pf.cc` reads or writes.  The history map is
a finite map from rnti to context; the queues hold pointers into it, that is, rnti keys. -/
structure sched_time_pf where
  fairness_coeff : ℚ
  /-- The slot of the last refresh; `none` is the default-constructed `tti_point`. -/
  current_tti_rx : Option Nat
  ue_history_db : Nat → Option ue_ctxt
  dl_queue : List Nat
  ul_queue : List Nat

/-- One iteration of the second loop of `sched_time_pf::new_tti`, for the terminal `u`. -/
def new_tti_ue {W : Type} (env : Env W) (w : W) (acc : sched_time_pf × List sched_event)
    (u : Nat) : sched_time_pf × List sched_event :=
  let s := acc.1
  let it : ue_ctxt :=
    match s.ue_history_db u with
    | some c => c
    | none => ue_ctxt.init u s.fairness_coeff
  let c := it.new_tti env w
  let dl : Bool := c.dl_newtx_h ≠ none ∨ c.dl_retx_h ≠ none
  let ul : Bool := c.ul_h ≠ none
  ({ s with
      ue_history_db := Function.update s.ue_history_db u (some c)
      dl_queue := if dl then s.dl_queue ++ [u] else s.dl_queue
      ul_queue := if ul then s.ul_queue ++ [u] else s.ul_queue },
    acc.2 ++ (if dl then [sched_event.dl_queue_push u] else [])
      ++ (if ul then [sched_event.ul_queue_push u] else []))

/-- `sched_time_pf::new_tti`. -/
def sched_time_pf.new_tti {W : Type} (env : Env W) (s : sched_time_pf) (w : W) :
    sched_time_pf × List sched_event :=
  let s : sched_time_pf := { s with current_tti_rx := some (env.get_tti_rx w) }
  -- remove deleted users from history
  let s : sched_time_pf :=
    { s with ue_history_db := fun k => if k ∈ env.ue_db w then s.ue_history_db k else none }
  -- add new users to history db, and update priority queues
  (env.ue_db w).foldl (new_tti_ue env w) (s, [sched_event.new_tti (env.get_tti_rx w)])

/-- The first statement of both entry points: refresh when the slot has changed. -/
def sched_time_pf.enter {W : Type} (env : Env W) (s : sched_time_pf) (w : W) :
    sched_time_pf × List sched_event :=
  if s.current_tti_rx ≠ some (env.get_tti_rx w) then s.new_tti env w else (s, [])

/-- Dereference every pointer of a queue, keeping the pointer next to the context it points
to; `none` when one of them is stale. -/
def deref_queue (db : Nat → Option ue_ctxt) : List Nat → Option (List (Nat × ue_ctxt))
  | [] => some []
  | p :: q =>
    match db p, deref_queue db q with
    | some c, some cs => some ((p, c) :: cs)
    | _, _ => none

/-- The `while` loop of `sched_dl_users`, at most `fuel` iterations, with the queue taken by
its contract (`pq_top`).  `none` when a queued pointer is stale, or when the fuel ends before
the queue is empty. -/
def sched_dl_loop {W : Type} (env : Env W) :
    Nat → sched_time_pf → W → Option (sched_time_pf × W × List sched_event)
  | 0, s, w => if s.dl_queue = [] then some (s, w, []) else none
  | fuel + 1, s, w =>
    if s.dl_queue = [] then some (s, w, [])
    else
      match (deref_queue s.ue_history_db s.dl_queue).bind
          (pq_top (fun a b => ue_dl_prio_compare a.2 b.2)) with
      | none => none
      | some top =>
        let ue := top.2
        let r := try_dl_alloc env ue w
        let s1 : sched_time_pf :=
          { s with
            ue_history_db :=
              Function.update s.ue_history_db top.1 (some (ue.save_dl_alloc r.1 exp_avg_alpha))
            dl_queue := s.dl_queue.erase top.1 }
        (sched_dl_loop env fuel s1 r.2.1).map
          (fun out => (out.1, out.2.1, sched_event.try_dl_alloc ue :: (r.2.2 ++ out.2.2)))

/-- The pending-retransmission flag the uplink comparator reads through `ul_h`; `none` when
`ul_h` is null. -/
def ul_is_retx {W : Type} (env : Env W) (w : W) (c : ue_ctxt) : Option Bool :=
  c.ul_h.map (env.ul_has_pending_retx w c.rnti)

/-- Every queued context next to its pending-retransmission flag; `none` when the `ul_h` of
one of them is null. -/
def ul_keyed {W : Type} (env : Env W) (w : W) :
    List (Nat × ue_ctxt) → Option (List (Bool × Nat × ue_ctxt))
  | [] => some []
  | pc :: cs =>
    match ul_is_retx env w pc.2, ul_keyed env w cs with
    | some b, some ks => some ((b, pc) :: ks)
    | _, _ => none

/-- The queued contexts next to the flags the uplink comparator reads.  A queue of one entry
is pushed and popped without a comparison, so no flag is read (it is put as `false`); with
more entries the library may compare any two of them, and the result is `none` when the
`ul_h` of one of them is null. -/
def ul_queue_keyed {W : Type} (env : Env W) (w : W) (cs : List (Nat × ue_ctxt)) :
    Option (List (Bool × Nat × ue_ctxt)) :=
  match cs with
  | [pc] => some [(false, pc)]
  | _ => ul_keyed env w cs

/-- The `while` loop of `sched_ul_users`, at most `fuel` iterations.  `none` when a queued
pointer is stale, when the queue has several entries and one of them points to a context
without uplink opportunity (the comparator reads through `ul_h`), or when the fuel ends before
the queue is empty. -/
def sched_ul_loop {W : Type} (env : Env W) :
    Nat → sched_time_pf → W → Option (sched_time_pf × W × List sched_event)
  | 0, s, w => if s.ul_queue = [] then some (s, w, []) else none
  | fuel + 1, s, w =>
    if s.ul_queue = [] then some (s, w, [])
    else
      let keyed : Option (List (Bool × Nat × ue_ctxt)) :=
        (deref_queue s.ue_history_db s.ul_queue).bind (ul_queue_keyed env w)
      match keyed.bind (pq_top (fun a b => ue_ul_prio_compare a.1 b.1 a.2.2 b.2.2)) with
      | none => none
      | some top =>
        let ue := top.2.2
        let r := try_ul_alloc env ue w
        let s1 : sched_time_pf :=
          { s with
            ue_history_db :=
              Function.update s.ue_history_db top.2.1 (some (ue.save_ul_alloc r.1 exp_avg_alpha))
            ul_queue := s.ul_queue.erase top.2.1 }
        (sched_ul_loop env fuel s1 r.2.1).map
          (fun out => (out.1, out.2.1, sched_event.try_ul_alloc ue :: (r.2.2 ++ out.2.2)))

/-- `sched_time_pf::sched_dl_users`.  Every iteration pops one pointer, so the length of the
queue is fuel enough. -/
def sched_time_pf.sched_dl_users {W : Type} (env : Env W) (s : sched_time_pf) (w : W) :
    Option (sched_time_pf × W × List sched_event) :=
  let e := s.enter env w
  (sched_dl_loop env e.1.dl_queue.length e.1 w).map
    (fun out => (out.1, out.2.1, e.2 ++ out.2.2))

/-- `sched_time_pf::sched_ul_users`. -/
def sched_time_pf.sched_ul_users {W : Type} (env : Env W) (s : sched_time_pf) (w : W) :
    Option (sched_time_pf × W × List sched_event) :=
  let e := s.enter env w
  (sched_ul_loop env e.1.ul_queue.length e.1 w).map
    (fun out => (out.1, out.2.1, e.2 ++ out.2.2))

/-! ## System information scheduling (`si_sched`) -/

namespace sched_nr_impl

/-- The constant `MAX_SIB_TX`. -/
def MAX_SIB_TX : Nat := 8

/-- Result codes of the NR grant allocator (`alloc_result`).  The enumeration is declared in
a header that is not among the sources; `run_slot` names `success` and `invalid_coderate`. -/
inductive alloc_result
  | success
  | sch_collision
  | no_cch_space
  | no_sch_space
  | invalid_coderate
  | other_cause
deriving DecidableEq

/-- The fields of `si_msg_ctxt_t` that `run_slot` reads or writes, over a type `S` of slot
points.  `win_start = none` is the invalid (cleared) slot point: no window is open. -/
structure si_msg_ctxt_t (S : Type) where
  n : Nat
  len_bytes : Nat
  period_frames : Nat
  win_len_slots : Nat
  win_start : Option S
  n_tx : Nat
  result : alloc_result

/-- The fields of `srsran_mib_nr_t` that `sched_ssb_basic` sets; `rest` stands for the
remaining parameters of the MIB, which it copies. -/
structure srsran_mib_nr_t where
  sfn : Nat
  ssb_idx : Nat
  hrf : Bool
  rest : Nat
deriving DecidableEq

/-- The packed PBCH message (`srsran_pbch_msg_nr_t`), as a bit string. -/
abbrev srsran_pbch_msg_nr_t := List Bool

/-- A synchronization burst of a slot (`ssb_t`). -/
structure ssb_t where
  pbch_msg : srsran_pbch_msg_nr_t
deriving DecidableEq

/-- The periodicity of a reference signal (`srsran_csi_rs_period_and_offset_t`). -/
structure srsran_csi_rs_period_and_offset_t where
  period : Nat
  offset : Nat
deriving DecidableEq

/-- The fields of `srsran_csi_rs_nzp_resource_t` that `sched_nzp_csi_rs` reads; `id` stands
for the rest of the resource. -/
structure srsran_csi_rs_nzp_resource_t where
  id : Nat
  periodicity : srsran_csi_rs_period_and_offset_t
deriving DecidableEq

/-- One call of `bwp_alloc.alloc_si`, with its arguments. -/
structure si_alloc_call where
  aggr_lvl : Nat
  si_idx : Nat
  si_ntx : Nat
  prbs : interval
deriving DecidableEq

/-- What `sched_nr_signalling.cc` uses and does not own: the operations of `slot_point`
(declared in `slot_point.h`, not among the sources), of the slot allocator `bwp_alloc` with
grid `G`, and of the PHY library. -/
structure NrEnv (G S : Type) where
  /-- The call `sl.sfn()`. -/
  sfn : S → Nat
  /-- The call `sl.slot_idx()`. -/
  slot_idx : S → Nat
  /-- The operator `sl + jump`. -/
  add : S → Nat → S
  /-- The operator `a >= b`. -/
  ge : S → S → Bool
  /-- The value `bwp_alloc.cfg.cfg.pdcch.coreset_present[0]`. -/
  coreset0_present : G → Bool
  /-- The call `bwp_alloc.get_pdcch_tti()`. -/
  get_pdcch_tti : G → S
  /-- The bitmap `bwp_alloc.res_grid()[sl_pdcch].dl_prbs.prbs()`. -/
  dl_prbs : G → List Bool
  find_empty_interval_of_length : List Bool → Nat → Nat → interval
  /-- The call `bwp_alloc.alloc_si(aggr_lvl, si_idx, si_ntx, prbs, softbuffer)`. -/
  alloc_si : G → Nat → Nat → Nat → interval → alloc_result × G
  /-- The call `sl.to_uint()`. -/
  to_uint : S → Nat
  /-- The call `sl.nof_slots_per_subframe()`. -/
  nof_slots_per_subframe : S → Nat
  /-- The value of the macro `SRSRAN_NSLOTS_PER_FRAME_NR(srsran_subcarrier_spacing_15kHz)`. -/
  nslots_per_frame_15kHz : Nat
  /-- The call `srsran_pbch_msg_nr_mib_pack(&mib_msg, &ssb_msg.pbch_msg)`: the return code and
  the packed message. -/
  pbch_msg_nr_mib_pack : srsran_mib_nr_t → Int × srsran_pbch_msg_nr_t
  /-- The call `srsran_csi_rs_send(&periodicity, &slot_cfg)`, the slot configuration being its
  index `slot_cfg.idx`. -/
  csi_rs_send : srsran_csi_rs_period_and_offset_t → Nat → Bool

/-- The members of `si_sched` that `run_slot` reads or writes: `slots` holds the `is_dl` flag
of every entry of `bwp_cfg->slots`. -/
structure si_sched (S : Type) where
  slots : List Bool
  pending_sis : List (si_msg_ctxt_t S)

/-- The 32-bit value `x = (si.n - 1) * si.win_len_slots` of `run_slot`. -/
def si_x {S : Type} (si : si_msg_ctxt_t S) : Nat :=
  ((si.n + 2 ^ 32 - 1) % 2 ^ 32 * si.win_len_slots) % 2 ^ 32

/-- The body of the first loop of `run_slot` ("Update SI windows") for one message; `N` is
`bwp_cfg->slots.size()`.  `none` when the code divides by zero. -/
def update_si_window {G S : Type} (env : NrEnv G S) (N : Nat) (sl_pdcch : S)
    (si : si_msg_ctxt_t S) : Option (si_msg_ctxt_t S) :=
  let x := si_x si
  match si.win_start with
  | none =>
    let start_window : Option Bool :=
      if si.n = 0 then
        -- SIB1 (slot index zero of even frames)
        some (env.slot_idx sl_pdcch == 0 && env.sfn sl_pdcch % 2 == 0)
      else if si.period_frames = 0 ∨ N = 0 then none
      else
        -- 5.2.2.3.2 - Acquisition of SI message
        some (env.sfn sl_pdcch % si.period_frames == x / N && env.slot_idx sl_pdcch == x % N)
    start_window.map (fun b =>
      if b then
        -- If start of SI message window
        { si with win_start := some sl_pdcch, n_tx := 0 }
      else si)
  | some win_start =>
    if env.ge (env.add win_start si.win_len_slots) sl_pdcch then
      -- If end of SI message window
      some { si with win_start := none }
    else some si

/-- The first loop of `run_slot`. -/
def update_si_windows {G S : Type} (env : NrEnv G S) (N : Nat) (sl_pdcch : S) :
    List (si_msg_ctxt_t S) → Option (List (si_msg_ctxt_t S))
  | [] => some []
  | si :: sis =>
    match update_si_window env N sl_pdcch si, update_si_windows env N sl_pdcch sis with
    | some si', some sis' => some (si' :: sis')
    | _, _ => none

/-- The body of the second loop of `run_slot` ("Schedule pending SIBs") for one message: the
message, the grid, and the calls of `alloc_si` it made. -/
def sched_pending_si {G S : Type} (env : NrEnv G S) (g : G) (si : si_msg_ctxt_t S) :
    si_msg_ctxt_t S × G × List si_alloc_call :=
  if si.win_start.isNone ∨ si.n_tx ≥ MAX_SIB_TX then (si, g, [])
  else
    -- Attempt grants with increasing number of PRBs
    let si_aggr_level := 2
    let nprbs := 8
    let grant := env.find_empty_interval_of_length (env.dl_prbs g) nprbs 0
    if grant.stop - grant.start ≥ nprbs then
      let r := env.alloc_si g si_aggr_level si.n si.n_tx grant
      let call : si_alloc_call :=
        { aggr_lvl := si_aggr_level, si_idx := si.n, si_ntx := si.n_tx, prbs := grant }
      if r.1 = alloc_result.success then
        -- SIB scheduled successfully
        ({ si with result := r.1, win_start := none, n_tx := si.n_tx + 1 }, r.2, [call])
      else ({ si with result := r.1 }, r.2, [call])
    else ({ si with result := alloc_result.invalid_coderate }, g, [])

/-- The second loop of `run_slot`. -/
def sched_pending_sis {G S : Type} (env : NrEnv G S) :
    G → List (si_msg_ctxt_t S) → List (si_msg_ctxt_t S) × G × List si_alloc_call
  | g, [] => ([], g, [])
  | g, si :: sis =>
    let r := sched_pending_si env g si
    let rest := sched_pending_sis env r.2.1 sis
    (r.1 :: rest.1, rest.2.1, r.2.2 ++ rest.2.2)

/-- `si_sched::run_slot`: the scheduler, the grid, and the calls of `alloc_si` made.  `none`
is undefined behaviour: a division by zero in the window update, or a slot index outside
`bwp_cfg->slots`. -/
def si_sched.run_slot {G S : Type} (env : NrEnv G S) (s : si_sched S) (g : G) :
    Option (si_sched S × G × List si_alloc_call) :=
  if ¬ env.coreset0_present g then
    -- CORESET#0 must be present, otherwise SIs are not allocated
    some (s, g, [])
  else
    let sl_pdcch := env.get_pdcch_tti g
    -- Update SI windows
    let N := s.slots.length
    match update_si_windows env N sl_pdcch s.pending_sis with
    | none => none
    | some sis =>
      -- Schedule pending SIBs
      match s.slots[env.slot_idx sl_pdcch]? with
      | none => none
      | some is_dl =>
        if ¬ is_dl then some ({ s with pending_sis := sis }, g, [])
        else
          let r := sched_pending_sis env g sis
          some ({ s with pending_sis := r.1 }, r.2.1, r.2.2)

/-- The configuration of one system information message (an entry of `cell_cfg.sibs`). -/
structure sib_cfg where
  len : Nat
  period_rf : Nat
  si_window_slots : Nat
deriving DecidableEq

/-- The loop of the constructor `si_sched::si_sched`, from message index `i` on.  Modelled
from the spec for the members the constructor does not set, whose initialisers are in the
header: the transmission count is 0 and no window is open. -/
def si_sched_contexts {S : Type} : Nat → List sib_cfg → List (si_msg_ctxt_t S)
  | _, [] => []
  | i, c :: cs =>
    { n := i, len_bytes := c.len, period_frames := c.period_rf,
      win_len_slots := c.si_window_slots, win_start := none, n_tx := 0,
      result := alloc_result.invalid_coderate } :: si_sched_contexts (i + 1) cs

/-- The constructor `si_sched::si_sched`, for the `is_dl` flags of `bwp_cfg->slots` and the
messages of `cell_cfg.sibs`. -/
def si_sched.init {S : Type} (slots : List Bool) (sibs : List sib_cfg) : si_sched S :=
  { slots := slots, pending_sis := si_sched_contexts 0 sibs }

/-- A sequence of calls of `run_slot`, one per grid, with the calls of `alloc_si` made. -/
def run_slots {G S : Type} (env : NrEnv G S) :
    si_sched S → List G → Option (si_sched S × List si_alloc_call)
  | s, [] => some (s, [])
  | s, g :: gs =>
    match s.run_slot env g with
    | none => none
    | some out => (run_slots env out.1 gs).map (fun r => (r.1, out.2.2 ++ r.2))

/-! ## Periodic occasions -/

/-- The constant `DEFAULT_SSB_PERIODICITY`. -/
def DEFAULT_SSB_PERIODICITY : Nat := 5

/-- The return code `SRSRAN_SUCCESS`. -/
def SRSRAN_SUCCESS : Int := 0

/-- The call `full()` on a vector of fixed capacity (`srsran::bounded_vector`), whose size
never exceeds its capacity. -/
def bounded_full {α : Type} (capacity : Nat) (l : List α) : Bool := l.length ≥ capacity

/-- The call `push_back` on a vector of fixed capacity; `none` on a full vector. -/
def bounded_push_back {α : Type} (capacity : Nat) (l : List α) (x : α) : Option (List α) :=
  if l.length < capacity then some (l ++ [x]) else none

/-- The inner loop of `sched_nzp_csi_rs`, over the resources `data[i..count)` of a set: the
list, and whether the function has returned.  `none` is a `push_back` on a full list. -/
def sched_nzp_csi_rs_set {G S : Type} (env : NrEnv G S) (capacity : Nat) (slot_cfg : Nat) :
    List srsran_csi_rs_nzp_resource_t → List srsran_csi_rs_nzp_resource_t →
      Option (List srsran_csi_rs_nzp_resource_t × Bool)
  | [], csi_rs_list => some (csi_rs_list, false)
  | nzp_csi_resource :: rest, csi_rs_list =>
    -- Check if the resource is scheduled for this slot
    if env.csi_rs_send nzp_csi_resource.periodicity slot_cfg then
      if bounded_full capacity csi_rs_list then
        -- log the error and return
        some (csi_rs_list, true)
      else
        match bounded_push_back capacity csi_rs_list nzp_csi_resource with
        | none => none
        | some l => sched_nzp_csi_rs_set env capacity slot_cfg rest l
    else sched_nzp_csi_rs_set env capacity slot_cfg rest csi_rs_list

/-- `sched_nzp_csi_rs`, for a list of fixed capacity; a set is the list of its resources
`data[0..count)`. -/
def sched_nzp_csi_rs {G S : Type} (env : NrEnv G S) (capacity : Nat) (slot_cfg : Nat) :
    List (List srsran_csi_rs_nzp_resource_t) → List srsran_csi_rs_nzp_resource_t →
      Option (List srsran_csi_rs_nzp_resource_t)
  | [], csi_rs_list => some csi_rs_list
  | set :: sets, csi_rs_list =>
    match sched_nzp_csi_rs_set env capacity slot_cfg set csi_rs_list with
    | none => none
    | some (l, true) => some l
    | some (l, false) => sched_nzp_csi_rs env capacity slot_cfg sets l

/-- `sched_ssb_basic`, for a list of fixed capacity.  `none` is a modulo by zero (the 32-bit
product of periodicity and slots per subframe is 0) or the failure of the assertion that the
packing succeeded. -/
def sched_ssb_basic {G S : Type} (env : NrEnv G S) (capacity : Nat) (sl_point : S)
    (ssb_periodicity : Nat) (mib : srsran_mib_nr_t) (ssb_list : List ssb_t) :
    Option (List ssb_t) :=
  if bounded_full capacity ssb_list then
    -- log the error and return
    some ssb_list
  else
    -- If the periodicity is 0, we use default value of 5ms
    let ssb_periodicity :=
      if ssb_periodicity = 0 then DEFAULT_SSB_PERIODICITY else ssb_periodicity
    let sl_cnt := env.to_uint sl_point
    let period_slots := (ssb_periodicity * env.nof_slots_per_subframe sl_point) % 2 ^ 32
    if period_slots = 0 then none
    else
      let sl_point_mod := sl_cnt % period_slots
      if sl_point_mod = 0 then
        let mib_msg : srsran_mib_nr_t :=
          { mib with
            sfn := env.sfn sl_point
            hrf := decide (env.slot_idx sl_point % env.nslots_per_frame_15kHz ≥
              env.nslots_per_frame_15kHz / 2)
            ssb_idx := 0 }
        -- Pack mib message to be sent to PHY
        let packed := env.pbch_msg_nr_mib_pack mib_msg
        if packed.1 = SRSRAN_SUCCESS then
          bounded_push_back capacity ssb_list { pbch_msg := packed.2 }
        else none
      else some ssb_list

end sched_nr_impl

/-! ## Example worlds -/

/-- What an example world says about one terminal in one slot. -/
structure example_ue where
  rnti : Nat
  cc_idx : Int
  dl_retx : Option Nat
  dl_newtx : Option Nat
  ul_retx : Option Nat
  ul_newtx : Option Nat
  dl_bitrate : Nat
  ul_bitrate : Nat

/-- The entry of a terminal in a list of example terminals. -/
def example_find (ues : List example_ue) (rnti : Nat) : Option example_ue :=
  ues.find? (fun u => u.rnti == rnti)

/-- An example environment.  The world is the number of the receive slot, `ues w` lists the
terminals of slot `w`, the grid has four free resource block groups and never changes, every
retransmission attempt returns `retx_code` and every new-transmission attempt `newtx_code`;
`pow` is exact for the exponents 1 and 2. -/
def example_env (ues : Nat → List example_ue) (retx_code newtx_code : alloc_outcome_t) :
    Env Nat where
  get_tti_rx := fun w => w
  get_tti_tx_ul := fun w => w + 8
  get_dl_mask := fun _ => [false, false, false, false]
  get_ul_mask := fun _ => [false, false, false, false]
  alloc_dl_user := fun w _ _ _ => (newtx_code, w)
  alloc_ul_user := fun w _ _ => (newtx_code, w)
  try_dl_retx_alloc := fun w _ _ => (retx_code, w)
  try_ul_retx_alloc := fun w _ _ => (retx_code, w)
  find_available_dl_rbgs := fun n _ => List.replicate (min n 4) true
  find_contiguous_ul_prbs := fun n _ => { start := 0, stop := min n 4 }
  get_dl_retx_harq := fun w rnti => (example_find (ues w) rnti).bind (fun u => u.dl_retx)
  get_dl_newtx_harq := fun w rnti => (example_find (ues w) rnti).bind (fun u => u.dl_newtx)
  get_ul_retx_harq := fun w rnti => (example_find (ues w) rnti).bind (fun u => u.ul_retx)
  get_ul_newtx_harq := fun w rnti => (example_find (ues w) rnti).bind (fun u => u.ul_newtx)
  ue_db := fun w => (ues w).map (fun u => u.rnti)
  enb_to_ue_cc_idx := fun w rnti =>
    match example_find (ues w) rnti with
    | some u => u.cc_idx
    | none => -1
  get_expected_dl_bitrate := fun w rnti _ =>
    match example_find (ues w) rnti with
    | some u => u.dl_bitrate
    | none => 0
  get_expected_ul_bitrate := fun w rnti _ =>
    match example_find (ues w) rnti with
    | some u => u.ul_bitrate
    | none => 0
  get_required_dl_rbgs := fun _ _ _ => { start := 1, stop := 2 }
  get_pending_ul_new_data := fun _ _ _ _ => 100
  get_required_prb_ul := fun _ _ _ _ => 2
  dl_get_tbs := fun _ _ _ tb => if tb = 0 then 300 else 0
  dl_get_id := fun _ _ h => h
  ul_has_pending_retx := fun w rnti h =>
    (example_find (ues w) rnti).bind (fun u => u.ul_retx) == some h
  ul_get_pending_data := fun _ _ _ => 100
  pow := fun x y => if y = 2 then x * x else x

/-- A terminal with a new-transmission opportunity in both directions. -/
def example_newtx_ue (rnti dl_bitrate : Nat) : example_ue :=
  { rnti := rnti, cc_idx := 0, dl_retx := none, dl_newtx := some 0, ul_retx := none,
    ul_newtx := some 0, dl_bitrate := dl_bitrate, ul_bitrate := 0 }

/-- A terminal with a pending downlink retransmission (and a new-transmission opportunity). -/
def example_retx_ue (rnti dl_bitrate : Nat) : example_ue :=
  { rnti := rnti, cc_idx := 0, dl_retx := some 1, dl_newtx := some 0, ul_retx := none,
    ul_newtx := some 0, dl_bitrate := dl_bitrate, ul_bitrate := 0 }

/-- A terminal that is not active on the cell. -/
def example_inactive_ue (rnti : Nat) : example_ue :=
  { rnti := rnti, cc_idx := -1, dl_retx := none, dl_newtx := none, ul_retx := none,
    ul_newtx := none, dl_bitrate := 0, ul_bitrate := 0 }

/-- A context with a rate history: `n` samples, downlink and uplink average `avg`. -/
def example_ctxt (rnti : Nat) (fc avg : ℚ) (n : Nat) : ue_ctxt :=
  { ue_ctxt.init rnti fc with
    dl_avg_rate_ := avg, ul_avg_rate_ := avg, dl_nof_samples := n, ul_nof_samples := n }

namespace sched_nr_impl

/-- An example environment for `run_slot`.  A slot point is the pair (frame number, slot
index) with ten slots per frame and is compared without wrap-around; the grid is its slot, all
52 resource blocks are free, every call of `alloc_si` returns `code`, and the packing of a
MIB succeeds. -/
def example_nr_env (code : alloc_result) : NrEnv (Nat × Nat) (Nat × Nat) where
  sfn := fun sl => sl.1
  slot_idx := fun sl => sl.2
  add := fun sl jump => ((sl.1 * 10 + sl.2 + jump) / 10, (sl.1 * 10 + sl.2 + jump) % 10)
  ge := fun a b => decide (b.1 * 10 + b.2 ≤ a.1 * 10 + a.2)
  coreset0_present := fun _ => true
  get_pdcch_tti := fun g => g
  dl_prbs := fun _ => List.replicate 52 false
  find_empty_interval_of_length := fun _ n _ => { start := 0, stop := n }
  alloc_si := fun g _ _ _ _ => (code, g)
  to_uint := fun sl => sl.1 * 10 + sl.2
  nof_slots_per_subframe := fun _ => 1
  nslots_per_frame_15kHz := 10
  pbch_msg_nr_mib_pack := fun mib => (0, [mib.hrf, mib.sfn % 2 == 1])
  csi_rs_send := fun p idx => p.period != 0 && (idx + p.period - p.offset) % p.period == 0

/-- An example message context: index `n`, period 8 frames, window of 5 slots. -/
def example_si (n : Nat) (win_start : Option (Nat × Nat)) (n_tx : Nat) :
    si_msg_ctxt_t (Nat × Nat) :=
  { n := n, len_bytes := 20, period_frames := 8, win_len_slots := 5, win_start := win_start,
    n_tx := n_tx, result := alloc_result.success }

end sched_nr_impl

/-! ## Observations on traces and call sequences -/

/-- The contexts handed to `try_dl_alloc`, in order. -/
def dl_attempts : List sched_event → List ue_ctxt
  | [] => []
  | sched_event.try_dl_alloc ue :: tr => ue :: dl_attempts tr
  | _ :: tr => dl_attempts tr

/-- What the downlink comparator reads of a context, next to the rnti that names it. -/
def dl_key (c : ue_ctxt) : Nat × Bool × ℚ :=
  (c.rnti, decide (c.dl_retx_h ≠ none), c.dl_prio)

/-- A run of `sched_time_pf::new_tti`. -/
def sched_event.is_refresh : sched_event → Bool
  | sched_event.new_tti _ => true
  | _ => false

/-- The number of times the refresh ran. -/
def refresh_count (tr : List sched_event) : Nat := tr.countP sched_event.is_refresh

/-- Modelled from the spec: the in-class initialisers of `sched_time_pf` are in the header,
which is not among the sources.  The scheduler as constructed, with fairness coefficient `fc`:
no slot seen, no history, empty queues. -/
def sched_time_pf.init (fc : ℚ) : sched_time_pf :=
  { fairness_coeff := fc, current_tti_rx := none, ue_history_db := fun _ => none,
    dl_queue := [], ul_queue := [] }

/-- A call on the grid or a log line: the events `try_dl_alloc` and `try_ul_alloc` produce. -/
def sched_event.is_grid_call : sched_event → Bool
  | sched_event.try_dl_retx_alloc _ _ => true
  | sched_event.alloc_dl_user _ _ _ => true
  | sched_event.try_ul_retx_alloc _ _ => true
  | sched_event.alloc_ul_user _ _ => true
  | sched_event.log_dl_dci_collision _ => true
  | sched_event.log_ul_dci_collision _ => true
  | _ => false

/-- The context of terminal `u` as the refresh leaves it: the context of the history map, or
a new one when the map has none, after `ue_ctxt::new_tti`. -/
def refreshed_ctxt {W : Type} (env : Env W) (w : W) (s : sched_time_pf) (u : Nat) : ue_ctxt :=
  (match s.ue_history_db u with
    | some c => c
    | none => ue_ctxt.init u s.fairness_coeff).new_tti env w

/-- The context has a downlink opportunity. -/
def ue_ctxt.has_dl (c : ue_ctxt) : Bool := c.dl_newtx_h ≠ none ∨ c.dl_retx_h ≠ none

/-- The context has an uplink opportunity. -/
def ue_ctxt.has_ul (c : ue_ctxt) : Bool := c.ul_h ≠ none

/-- An example context as a refresh leaves it: the given downlink opportunities and
priority. -/
def example_queued (rnti : Nat) (dl_retx_h dl_newtx_h : Option Nat) (dl_prio : ℚ) : ue_ctxt :=
  { example_ctxt rnti 1 2 5 with
    dl_retx_h := dl_retx_h, dl_newtx_h := dl_newtx_h, dl_prio := dl_prio }

end srsenb

namespace srsenb

/-! ## Construction of the scheduler -/

/-- The constructor `sched_time_pf::sched_time_pf`, given the library function `std::stof`
(`none` when it throws: no conversion could be performed, or the value is out of range).
`none` is an exception that leaves the constructor.  Modelled from the spec for the default
of `fairness_coeff`, whose initialiser is in the header: 1.0. -/
def sched_time_pf.ctor (stof : String → Option ℚ) (sched_policy_args : String) :
    Option sched_time_pf :=
  if ¬ sched_policy_args.isEmpty then
    match stof sched_policy_args with
    | some v => some (sched_time_pf.init v)
    | none => none
  else some (sched_time_pf.init 1)

/-- The value of a string of decimal digits. -/
def example_digits (cs : List Char) : Nat :=
  cs.foldl (fun n c => 10 * n + (c.toNat - 48)) 0

/-- An example of `std::stof` on the strings it is used on here: a non-empty string of decimal
digits converts to its value, and a string that does not start with a digit, a sign, a point
or white space is not converted. -/
def example_stof (s : String) : Option ℚ :=
  if s.data ≠ [] ∧ s.data.all Char.isDigit then some ((example_digits s.data : Nat) : ℚ)
  else none

end srsenb

namespace srsenb

namespace sched_nr_impl

/-- The window update of `run_slot` opens a window for the message. -/
def si_window_opens {G S : Type} (env : NrEnv G S) (N : Nat) (sl_pdcch : S)
    (si : si_msg_ctxt_t S) : Bool :=
  si.win_start.isNone &&
    match update_si_window env N sl_pdcch si with
    | some si' => si'.win_start.isSome
    | none => false

/-- An example grid for `run_slot`: ten downlink slots per frame and the messages 0 and 1,
each with a window of 5 slots, message 1 with a period of 8 frames. -/
def example_si_sched : si_sched (Nat × Nat) :=
  si_sched.init (List.replicate 10 true)
    [{ len := 20, period_rf := 2, si_window_slots := 5 },
     { len := 30, period_rf := 8, si_window_slots := 5 }]

/-- An example resource with period 4 and the given offset. -/
def example_csi_rs (id offset : Nat) : srsran_csi_rs_nzp_resource_t :=
  { id := id, periodicity := { period := 4, offset := offset } }

end sched_nr_impl

end srsenb

namespace srsenb

namespace sched_nr_impl

/-- How one call of `run_slot` may change the transmission count of a message: when the call
opens a window for the message the count restarts (0, or 1 after a grant in the same slot);
otherwise the count stays, or grows by one on a successful grant. -/
def n_tx_step {G S : Type} (env : NrEnv G S) (N : Nat) (sl_pdcch : S) (coreset0 : Bool)
    (si si' : si_msg_ctxt_t S) : Prop :=
  if coreset0 = true ∧ si_window_opens env N sl_pdcch si = true then
    si'.n_tx = 0 ∨ (si'.n_tx = 1 ∧ si'.result = alloc_result.success)
  else si'.n_tx = si.n_tx ∨ (si'.n_tx = si.n_tx + 1 ∧ si'.result = alloc_result.success)

/-- The example environment in which `alloc_si` succeeds in the frames before `frame` and
finds no space in the control channel from then on. -/
def example_nr_env_until (frame : Nat) : NrEnv (Nat × Nat) (Nat × Nat) :=
  { example_nr_env alloc_result.success with
    alloc_si := fun g _ _ _ _ =>
      (if g.1 < frame then alloc_result.success else alloc_result.no_cch_space, g) }

end sched_nr_impl

end srsenb

namespace srsenb

namespace sched_nr_impl

/-- The window of the message is open when the scheduling pass of `run_slot` reaches the
message, that is, after the window update. -/
def si_window_open_after {G S : Type} (env : NrEnv G S) (N : Nat) (sl_pdcch : S)
    (si : si_msg_ctxt_t S) : Bool :=
  match update_si_window env N sl_pdcch si with
  | some si' => si'.win_start.isSome
  | none => false

/-- The transmission counts after one call of `run_slot` as the amended claim C13 words them,
message by message and in order, from the grid `g` the call starts on (`is_dl` tells whether
the slot is a downlink slot).  The count restarts at 0 when the call opens a window for the
message and is the count of before otherwise; it then grows by one exactly when a grant is
attempted for the message (downlink slot, window open, count below the maximum, eight free
resource blocks found) and `alloc_si` returns success.  An attempt hands the grid it leaves
to the next message. -/
def n_tx_after {G S : Type} (env : NrEnv G S) (N : Nat) (sl_pdcch : S) (is_dl : Bool) :
    G → List (si_msg_ctxt_t S) → List Nat
  | _, [] => []
  | g, si :: sis =>
    let base := if si_window_opens env N sl_pdcch si = true then 0 else si.n_tx
    let grant := env.find_empty_interval_of_length (env.dl_prbs g) 8 0
    if is_dl = true ∧ si_window_open_after env N sl_pdcch si = true ∧ base < MAX_SIB_TX ∧
        grant.stop - grant.start ≥ 8 then
      (if (env.alloc_si g 2 si.n base grant).1 = alloc_result.success then base + 1 else base) ::
        n_tx_after env N sl_pdcch is_dl (env.alloc_si g 2 si.n base grant).2 sis
    else base :: n_tx_after env N sl_pdcch is_dl g sis

end sched_nr_impl

end srsenb

namespace srsenb

/-! ## Single precision

The definitions above named after the source compute in exact arithmetic.  The definitions
of this section round every operation on `float` to single precision, as the machine does;
they tell where the two differ. -/

/-- The integer nearest to `P / D` (for `D > 0`), a tie going to the even one. -/
def round_half_even (P D : Nat) : Nat :=
  if 2 * (P % D) < D then P / D
  else if D < 2 * (P % D) then P / D + 1
  else if (P / D) % 2 = 0 then P / D else P / D + 1

/-- The position of the leading binary digit of `n`, `⌊log₂ n⌋` (0 for `n = 0`); the first
argument bounds the recursion. -/
def log2_floor : Nat → Nat → Nat
  | 0, _ => 0
  | fuel + 1, n => if n < 2 then 0 else log2_floor fuel (n / 2) + 1

/-- The binary exponent of the positive rational `p / d`: the `e` with
`2^e ≤ p / d < 2^(e+1)`. -/
def float_exponent (p d : Nat) : Int :=
  let e : Int := (log2_floor p p : Int) - (log2_floor d d : Int)
  -- 2^(e-1) < p / d < 2^(e+1)
  if d * 2 ^ e.toNat ≤ p * 2 ^ (-e).toNat then e else e - 1

/-- The value of type `float` (IEEE 754 binary32) nearest to the rational `q`, a tie going to
the value with the even significand: what a single-precision operation whose exact result is
`q` returns, and what the conversion of an integer `q` to `float` returns.  `none` when that
is no finite value (the operation overflows to an infinity).  A `float` has 24 significant
bits and an exponent of at least -126, so its last place is worth `2^k` below. -/
def float_round (q : ℚ) : Option ℚ :=
  if q = 0 then some 0
  else
    let p := q.num.natAbs
    let d := q.den
    let k : Int := max (float_exponent p d) (-126) - 23
    let n := round_half_even (p * 2 ^ (-k).toNat) (d * 2 ^ k.toNat)
    let a : ℚ := ((n * 2 ^ k.toNat : Nat) : ℚ) / ((2 ^ (-k).toNat : Nat) : ℚ)
    if a ≤ FLT_MAX then some (if q < 0 then -a else a) else none

/-- `sched_time_pf::ue_ctxt::save_dl_alloc` in single precision: the counter and the byte
count are converted to `float` and every operation is rounded.  `exp_avg_alpha` is the value
of the `float` parameter; `none` when an operation has no finite result (a division by zero,
an overflow).  `ue_ctxt.save_dl_alloc` is the same function in exact arithmetic. -/
def ue_ctxt.save_dl_alloc_float (c : ue_ctxt) (alloc_bytes : Nat) (exp_avg_alpha : ℚ) :
    Option ue_ctxt :=
  if exp_avg_alpha = 0 then none
  else
    (float_round (1 / exp_avg_alpha)).bind fun limit =>
    (float_round (c.dl_nof_samples : ℚ)).bind fun nof_samples =>
    (float_round (alloc_bytes : ℚ)).bind fun bytes =>
    if nof_samples < limit then
      -- fast start
      (float_round (bytes - c.dl_avg_rate_)).bind fun diff =>
      (float_round ((c.dl_nof_samples + 1 : Nat) : ℚ)).bind fun count =>
      (float_round (diff / count)).bind fun step =>
      (float_round (c.dl_avg_rate_ + step)).map fun avg =>
        { c with dl_avg_rate_ := avg, dl_nof_samples := c.dl_nof_samples + 1 }
    else
      (float_round (1 - exp_avg_alpha)).bind fun keep =>
      (float_round (keep * c.dl_avg_rate_)).bind fun old =>
      (float_round (exp_avg_alpha * bytes)).bind fun new =>
      (float_round (old + new)).map fun avg =>
        { c with dl_avg_rate_ := avg, dl_nof_samples := c.dl_nof_samples + 1 }

/-- The context after the samples `xs` were passed, in order, to `save_dl_alloc` in single
precision, with the smoothing factor the entry points pass: the literal `0.01` converted to
`float`. -/
def save_dl_allocs_float : ue_ctxt → List Nat → Option ue_ctxt
  | c, [] => some c
  | c, x :: xs =>
    ((float_round exp_avg_alpha).bind (c.save_dl_alloc_float x)).bind
      (fun c1 => save_dl_allocs_float c1 xs)

/-- `sched_time_pf::ue_ctxt::new_tti` in single precision: the expected rates are converted
to `float` and the quotients are rounded; `pow` is taken on `float` values.  `none` when a
priority is no finite value.  `ue_ctxt.new_tti` is the same function in exact arithmetic. -/
def ue_ctxt.new_tti_float {W : Type} (env : Env W) (c : ue_ctxt) (w : W) : Option ue_ctxt :=
  let c : ue_ctxt :=
    { c with
      dl_retx_h := none, dl_newtx_h := none, ul_h := none, dl_prio := 0,
      ue_cc_idx := env.enb_to_ue_cc_idx w c.rnti }
  if c.ue_cc_idx < 0 then
    -- not active
    some c
  else
    -- Calculate DL priority
    let c : ue_ctxt :=
      { c with
        dl_retx_h := env.get_dl_retx_harq w c.rnti, dl_newtx_h := env.get_dl_newtx_harq w c.rnti }
    let dl : Option ue_ctxt :=
      if c.dl_retx_h ≠ none ∨ c.dl_newtx_h ≠ none then
        (float_round ((env.get_expected_dl_bitrate w c.rnti c.ue_cc_idx / 8 : Nat) : ℚ)).bind
          fun r =>
            let R : ℚ := c.dl_avg_rate
            (if R ≠ 0 then
                (float_round (env.pow r c.fairness_coeff)).bind fun p => float_round (p / R)
              else if r = 0 then some 0 else some FLT_MAX).map
              fun prio => { c with dl_prio := prio }
      else some c
    -- Calculate UL priority
    dl.bind fun c =>
      let c : ue_ctxt := { c with ul_h := env.get_ul_retx_harq w c.rnti }
      let c : ue_ctxt :=
        if c.ul_h = none then { c with ul_h := env.get_ul_newtx_harq w c.rnti } else c
      if c.ul_h ≠ none then
        (float_round ((env.get_expected_ul_bitrate w c.rnti c.ue_cc_idx / 8 : Nat) : ℚ)).bind
          fun r =>
            let R : ℚ := c.ul_avg_rate
            (if R ≠ 0 then float_round (r / R)
              else if r = 0 then some 0 else some FLT_MAX).map
              fun prio => { c with ul_prio := prio }
      else some c

end srsenb

namespace srsenb

/-! ## The vector under the priority queue

`pq_top` gives `std::priority_queue` by its contract, which holds as long as the keys of the
queued contexts are what they were when the contexts were pushed.  `sched_time_pf::new_tti`
rewrites the keys of contexts that an earlier slot left in a queue; what the queue does then
is decided by the heap in its vector, which the definitions of this section follow. -/

/-- The loop of `std::push_heap`: `value`, the element that `push_back` appended, moves up from
position `hole` while `comp` ranks the parent of the hole below it.  `comp` is partial, `none`
being undefined behaviour in the comparator; the loop runs at most `fuel` times. -/
def push_heap {α : Type} (comp : α → α → Option Bool) (value : α) :
    Nat → List α → Nat → Option (List α)
  | 0, v, hole => some (v.set hole value)
  | fuel + 1, v, hole =>
    if hole = 0 then some (v.set hole value)
    else
      let parent := (hole - 1) / 2
      match v[parent]? with
      | none => none
      | some p =>
        match comp p value with
        | none => none
        | some true => push_heap comp value fuel (v.set hole p) parent
        | some false => some (v.set hole value)

/-- `std::priority_queue::push` on the vector `v`: `push_back`, then `std::push_heap`. -/
def pq_push {α : Type} (comp : α → α → Option Bool) (v : List α) (x : α) : Option (List α) :=
  push_heap comp x (v.length + 1) (v ++ [x]) v.length

/-- The downlink comparator on two queued pointers, each read through the history map; `none`
when one of them is stale. -/
def dl_queue_compare (db : Nat → Option ue_ctxt) (p q : Nat) : Option Bool :=
  match db p, db q with
  | some lhs, some rhs => some (ue_dl_prio_compare lhs rhs)
  | _, _ => none

/-- One iteration of the second loop of `sched_time_pf::new_tti` for the terminal `u`, with
`dl_queue` read as the vector under the downlink queue: the context is refreshed as in
`new_tti_ue`, and a context with a downlink opportunity is pushed with `pq_push`, the
comparator reading the history map as it is at that moment.  (The uplink queue is left as
`new_tti_ue` has it.) -/
def new_tti_ue_heap {W : Type} (env : Env W) (w : W) (s : sched_time_pf) (u : Nat) :
    Option sched_time_pf :=
  let s1 := (new_tti_ue env w (s, []) u).1
  match s1.ue_history_db u with
  | none => none
  | some c =>
    if c.dl_newtx_h ≠ none ∨ c.dl_retx_h ≠ none then
      (pq_push (dl_queue_compare s1.ue_history_db) s.dl_queue u).map
        (fun v => { s1 with dl_queue := v })
    else some s1

/-- The second loop of `sched_time_pf::new_tti` over the terminals `us`, with `dl_queue` read
as the vector under the downlink queue. -/
def new_tti_heap_loop {W : Type} (env : Env W) (w : W) :
    sched_time_pf → List Nat → Option sched_time_pf
  | s, [] => some s
  | s, u :: us => (new_tti_ue_heap env w s u).bind (fun s1 => new_tti_heap_loop env w s1 us)

/-- `sched_time_pf::new_tti` with `dl_queue` read as the vector under the downlink queue. -/
def sched_time_pf.new_tti_heap {W : Type} (env : Env W) (s : sched_time_pf) (w : W) :
    Option sched_time_pf :=
  let s : sched_time_pf := { s with current_tti_rx := some (env.get_tti_rx w) }
  -- remove deleted users from history
  let s : sched_time_pf :=
    { s with ue_history_db := fun k => if k ∈ env.ue_db w then s.ue_history_db k else none }
  -- add new users to history db, and update priority queues
  new_tti_heap_loop env w s (env.ue_db w)

/-- The context that the first iteration of the loop of `sched_dl_users` hands to
`try_dl_alloc`: `*dl_queue.top()`, the front of the vector. -/
def dl_queue_front (s : sched_time_pf) : Option ue_ctxt :=
  s.dl_queue.head?.bind s.ue_history_db

/-- An example world for two slots: the terminals 70 and 71 have a downlink and an uplink
opportunity in both; the expected downlink bitrate of 70 is 32 in slot 1 and 0 from slot 2 on,
that of 71 is 32 throughout. -/
def example_two_slots : Env Nat :=
  example_env (fun w => if w = 1 then [example_newtx_ue 70 32, example_newtx_ue 71 32]
    else [example_newtx_ue 70 0, example_newtx_ue 71 32]) .SUCCESS .SUCCESS

end srsenb

namespace srsenb

/-- The first loop of `std::__adjust_heap`, as in the GNU C++ library: while the hole has two
children it moves down to the right child, or to the left one when `comp` ranks the right
child below it.  `len` is the length of the heap; the result is the vector and the position
of the hole. -/
def adjust_heap_down {α : Type} (comp : α → α → Option Bool) (len : Nat) :
    Nat → List α → Nat → Option (List α × Nat)
  | 0, v, hole => some (v, hole)
  | fuel + 1, v, hole =>
    if hole < (len - 1) / 2 then
      let right := 2 * (hole + 1)
      match v[right]?, v[right - 1]? with
      | some r, some l =>
        match comp r l with
        | none => none
        | some below =>
          let child := if below then right - 1 else right
          adjust_heap_down comp len fuel (v.set hole (if below then l else r)) child
      | _, _ => none
    else some (v, hole)

/-- `std::__adjust_heap` from the root of a heap of length `len`: the hole moves down to the
bottom (a last parent with a single child hands it to that child without a comparison), then
`value` moves up from there as in `std::push_heap`. -/
def adjust_heap {α : Type} (comp : α → α → Option Bool) (value : α) (v : List α) (len : Nat) :
    Option (List α) :=
  match adjust_heap_down comp len len v 0 with
  | none => none
  | some (v1, hole) =>
    if len % 2 = 0 ∧ hole = (len - 2) / 2 then
      match v1[2 * (hole + 1) - 1]? with
      | none => none
      | some child => push_heap comp value len (v1.set hole child) (2 * (hole + 1) - 1)
    else push_heap comp value len v1 hole

/-- `std::priority_queue::pop` on the vector `v`: `std::pop_heap` (for more than one element:
the last element is taken out, the first one is overwritten through `std::__adjust_heap`), then
`pop_back`.  `none` on an empty vector. -/
def pq_pop {α : Type} (comp : α → α → Option Bool) (v : List α) : Option (List α) :=
  match v.getLast? with
  | none => none
  | some value =>
    if v.length > 1 then adjust_heap comp value v.dropLast (v.length - 1) else some []

end srsenb

namespace srsenb

/-- The `while` loop of `sched_dl_users` on the vector under the downlink queue, at most `fuel`
iterations: `dl_queue.top()` is the front of the vector, `dl_queue.pop()` is `pq_pop`.  The
result is the list of the contexts handed to `try_dl_alloc`, in order; `none` when a stale
pointer is read, or when the fuel ends before the queue is empty. -/
def sched_dl_loop_heap {W : Type} (env : Env W) :
    Nat → sched_time_pf → W → Option (List ue_ctxt)
  | 0, s, _ => if s.dl_queue = [] then some [] else none
  | fuel + 1, s, w =>
    match s.dl_queue with
    | [] => some []
    | top :: _ =>
      match s.ue_history_db top with
      | none => none
      | some ue =>
        let r := try_dl_alloc env ue w
        let db := Function.update s.ue_history_db top (some (ue.save_dl_alloc r.1 exp_avg_alpha))
        match pq_pop (dl_queue_compare db) s.dl_queue with
        | none => none
        | some v =>
          (sched_dl_loop_heap env fuel { s with ue_history_db := db, dl_queue := v } r.2.1).map
            (fun attempts => ue :: attempts)

/-- `sched_time_pf::sched_dl_users` on the vector under the downlink queue: the contexts
handed to `try_dl_alloc`, in order. -/
def sched_time_pf.sched_dl_users_heap {W : Type} (env : Env W) (s : sched_time_pf) (w : W) :
    Option (List ue_ctxt) :=
  if s.current_tti_rx ≠ some (env.get_tti_rx w) then
    (s.new_tti_heap env w).bind (fun s1 => sched_dl_loop_heap env s1.dl_queue.length s1 w)
  else sched_dl_loop_heap env s.dl_queue.length s w

end srsenb

/-! # Theorems -/

namespace srsenb

/-! ## Rolling rate estimator -/

theorem save_dl_allocs_cons (c : ue_ctxt) (x : Nat) (xs : List Nat) :
    save_dl_allocs c (x :: xs) = save_dl_allocs (c.save_dl_alloc x exp_avg_alpha) xs := rfl

theorem save_ul_allocs_cons (c : ue_ctxt) (x : Nat) (xs : List Nat) :
    save_ul_allocs c (x :: xs) = save_ul_allocs (c.save_ul_alloc x exp_avg_alpha) xs := rfl

theorem save_dl_alloc_fixed (c : ue_ctxt) (v : Nat) (h : c.dl_avg_rate_ = v) :
    (c.save_dl_alloc v exp_avg_alpha).dl_avg_rate_ = v := by
  unfold ue_ctxt.save_dl_alloc exp_avg_alpha
  split
  · simp [h]
  · simp only [h]; ring

theorem save_ul_alloc_fixed (c : ue_ctxt) (v : Nat) (h : c.ul_avg_rate_ = v) :
    (c.save_ul_alloc v exp_avg_alpha).ul_avg_rate_ = v := by
  unfold ue_ctxt.save_ul_alloc exp_avg_alpha
  split
  · simp [h]
  · simp only [h]; ring

theorem save_dl_allocs_fixed (v : Nat) (k : Nat) :
    ∀ c : ue_ctxt, c.dl_avg_rate_ = v →
      (save_dl_allocs c (List.replicate k v)).dl_avg_rate_ = v := by
  induction k with
  | zero => intro c h; simpa [save_dl_allocs] using h
  | succ k ih =>
    intro c h
    rw [List.replicate_succ, save_dl_allocs_cons]
    exact ih _ (save_dl_alloc_fixed c v h)

theorem save_ul_allocs_fixed (v : Nat) (k : Nat) :
    ∀ c : ue_ctxt, c.ul_avg_rate_ = v →
      (save_ul_allocs c (List.replicate k v)).ul_avg_rate_ = v := by
  induction k with
  | zero => intro c h; simpa [save_ul_allocs] using h
  | succ k ih =>
    intro c h
    rw [List.replicate_succ, save_ul_allocs_cons]
    exact ih _ (save_ul_alloc_fixed c v h)

theorem save_dl_alloc_first (rnti : Nat) (fc : ℚ) (v : Nat) :
    ((ue_ctxt.init rnti fc).save_dl_alloc v exp_avg_alpha).dl_avg_rate_ = v := by
  norm_num [ue_ctxt.save_dl_alloc, exp_avg_alpha, ue_ctxt.init]

theorem save_ul_alloc_first (rnti : Nat) (fc : ℚ) (v : Nat) :
    ((ue_ctxt.init rnti fc).save_ul_alloc v exp_avg_alpha).ul_avg_rate_ = v := by
  norm_num [ue_ctxt.save_ul_alloc, exp_avg_alpha, ue_ctxt.init]

/-- C5: from a fresh context and with alpha = 0.01, after `k ≥ 1` consecutive calls of
`save_dl_alloc` (resp. `save_ul_alloc`) with the same value `v` the average rate equals `v`
exactly, for every `k` (below and above `1/alpha = 100`). -/
theorem identical_allocs_average (rnti : Nat) (fc : ℚ) (v k : Nat) (hk : 1 ≤ k) :
    (save_dl_allocs (ue_ctxt.init rnti fc) (List.replicate k v)).dl_avg_rate_ = v ∧
    (save_ul_allocs (ue_ctxt.init rnti fc) (List.replicate k v)).ul_avg_rate_ = v := by
  obtain ⟨j, rfl⟩ : ∃ j, k = j + 1 := ⟨k - 1, by omega⟩
  rw [List.replicate_succ, save_dl_allocs_cons, save_ul_allocs_cons]
  exact ⟨save_dl_allocs_fixed v j _ (save_dl_alloc_first rnti fc v),
    save_ul_allocs_fixed v j _ (save_ul_alloc_first rnti fc v)⟩

theorem identical_allocs_average_witness :
    1 ≤ 150 ∧
    (save_dl_allocs (ue_ctxt.init 70 1) (List.replicate 150 1000)).dl_avg_rate_ = (1000 : Nat) ∧
    (save_ul_allocs (ue_ctxt.init 70 1) (List.replicate 150 1000)).ul_avg_rate_ = (1000 : Nat) :=
  ⟨by decide, identical_allocs_average 70 1 1000 150 (by decide)⟩

theorem save_dl_alloc_nof_samples (c : ue_ctxt) (x : Nat) (a : ℚ) :
    (c.save_dl_alloc x a).dl_nof_samples = c.dl_nof_samples + 1 := by
  unfold ue_ctxt.save_dl_alloc
  split <;> rfl

theorem save_dl_allocs_nof_samples (xs : List Nat) :
    ∀ c : ue_ctxt, (save_dl_allocs c xs).dl_nof_samples = c.dl_nof_samples + xs.length := by
  induction xs with
  | nil => intro c; rfl
  | cons x xs ih =>
    intro c
    rw [save_dl_allocs_cons, ih, save_dl_alloc_nof_samples, List.length_cons]
    omega

/-- Fast start keeps the running sum: `avg * count` grows by the sample. -/
theorem save_dl_alloc_fast_start (c : ue_ctxt) (x : Nat) (h : c.dl_nof_samples < 100) :
    (c.save_dl_alloc x exp_avg_alpha).dl_avg_rate_ * ((c.dl_nof_samples : ℚ) + 1) =
      c.dl_avg_rate_ * (c.dl_nof_samples : ℚ) + (x : ℚ) := by
  have h1 : (c.dl_nof_samples : ℚ) < 1 / exp_avg_alpha := by
    have : (c.dl_nof_samples : ℚ) < 100 := by exact_mod_cast h
    simpa [exp_avg_alpha] using this
  have h2 : ((c.dl_nof_samples : ℚ) + 1) ≠ 0 := by positivity
  unfold ue_ctxt.save_dl_alloc
  rw [if_pos h1]
  simp only
  field_simp
  ring

theorem save_dl_allocs_sum (xs : List Nat) :
    ∀ c : ue_ctxt, c.dl_nof_samples + xs.length ≤ 100 →
      (save_dl_allocs c xs).dl_avg_rate_ * ((c.dl_nof_samples : ℚ) + (xs.length : ℚ)) =
        c.dl_avg_rate_ * (c.dl_nof_samples : ℚ) + ((xs.sum : Nat) : ℚ) := by
  induction xs with
  | nil => intro c _; simp [save_dl_allocs]
  | cons x xs ih =>
    intro c h
    rw [List.length_cons] at h
    have hlt : c.dl_nof_samples < 100 := by omega
    have hstep := save_dl_alloc_fast_start c x hlt
    have hn := save_dl_alloc_nof_samples c x exp_avg_alpha
    have := ih (c.save_dl_alloc x exp_avg_alpha) (by rw [hn]; omega)
    rw [hn] at this
    rw [save_dl_allocs_cons, List.length_cons, List.sum_cons]
    push_cast at this ⊢
    rw [show (c.dl_nof_samples : ℚ) + ((xs.length : ℚ) + 1) =
      (c.dl_nof_samples : ℚ) + 1 + (xs.length : ℚ) by ring, this, hstep]
    ring

/-- C6 as stated fails on `float`: from a fresh context the samples 1, 0, 0 leave the count 3
and the average `0x1.555554p-2 = 5592405 / 16777216`, which is not the arithmetic mean 1/3;
and after 100 samples of value 1 (count 100, average 1) a call with the sample 0 leaves
`4152361 / 4194304`, the `float` nearest to 0.99, which is not `0.99 * 1 + 0.01 * 0`. -/
theorem estimator_regimes_rounded :
    (save_dl_allocs_float (ue_ctxt.init 70 1) [1, 0, 0]).map
      (fun c => (c.dl_nof_samples, c.dl_avg_rate_)) = some (3, 5592405 / 16777216) ∧
    (5592405 / 16777216 : ℚ) ≠ ((([1, 0, 0] : List Nat).sum : Nat) : ℚ) / 3 ∧
    (save_dl_allocs_float (ue_ctxt.init 70 1) (List.replicate 100 1)).map
      (fun c => (c.dl_nof_samples, c.dl_avg_rate_)) = some (100, 1) ∧
    (save_dl_allocs_float (ue_ctxt.init 70 1) (List.replicate 100 1 ++ [0])).map
      (fun c => (c.dl_nof_samples, c.dl_avg_rate_)) = some (101, 4152361 / 4194304) ∧
    (4152361 / 4194304 : ℚ) ≠ (99 / 100 : ℚ) * 1 + (1 / 100 : ℚ) * ((0 : Nat) : ℚ) := by
  refine ⟨by decide!, by norm_num, by decide!, by decide!, by norm_num⟩

/-- C6, amended: in exact arithmetic (no rounding, the sample counter not wrapping around),
from a fresh context and with alpha = 0.01, after the samples `xs` the sample count is the
number of samples (zero samples count too); for at most 100 samples the average is their
arithmetic mean; and a call made when the count is already at least 100 yields
`0.99 * old average + 0.01 * sample`. -/
theorem estimator_regimes (rnti : Nat) (fc : ℚ) (xs : List Nat) :
    (save_dl_allocs (ue_ctxt.init rnti fc) xs).dl_nof_samples = xs.length ∧
    (1 ≤ xs.length → xs.length ≤ 100 →
      (save_dl_allocs (ue_ctxt.init rnti fc) xs).dl_avg_rate_ =
        ((xs.sum : Nat) : ℚ) / (xs.length : ℚ)) ∧
    (∀ (c : ue_ctxt) (x : Nat), 100 ≤ c.dl_nof_samples →
      (c.save_dl_alloc x exp_avg_alpha).dl_avg_rate_ =
          (99 / 100 : ℚ) * c.dl_avg_rate_ + (1 / 100 : ℚ) * (x : ℚ) ∧
        (c.save_dl_alloc x exp_avg_alpha).dl_nof_samples = c.dl_nof_samples + 1) := by
  refine ⟨?_, ?_, ?_⟩
  · rw [save_dl_allocs_nof_samples]; simp [ue_ctxt.init]
  · intro h1 h100
    have h := save_dl_allocs_sum xs (ue_ctxt.init rnti fc) (by simpa [ue_ctxt.init] using h100)
    have hne : (xs.length : ℚ) ≠ 0 := by
      have : 0 < xs.length := h1
      positivity
    simp only [ue_ctxt.init, Nat.cast_zero, zero_add, mul_zero] at h
    rw [eq_div_iff hne]
    simpa [ue_ctxt.init] using h
  · intro c x hc
    refine ⟨?_, save_dl_alloc_nof_samples c x _⟩
    have h1 : ¬ (c.dl_nof_samples : ℚ) < 1 / exp_avg_alpha := by
      have : (100 : ℚ) ≤ (c.dl_nof_samples : ℚ) := by exact_mod_cast hc
      simpa [exp_avg_alpha] using this
    unfold ue_ctxt.save_dl_alloc
    rw [if_neg h1]
    simp only [exp_avg_alpha]
    ring

theorem estimator_regimes_witness :
    (save_dl_allocs (ue_ctxt.init 70 1) [100, 0, 50]).dl_nof_samples = 3 ∧
    (save_dl_allocs (ue_ctxt.init 70 1) [100, 0, 50]).dl_avg_rate_ = ((150 : Nat) : ℚ) / (3 : Nat) ∧
    ((save_dl_allocs (ue_ctxt.init 70 1) (List.replicate 100 7)).save_dl_alloc 107
        exp_avg_alpha).dl_avg_rate_ =
      (99 / 100 : ℚ) * (save_dl_allocs (ue_ctxt.init 70 1) (List.replicate 100 7)).dl_avg_rate_ +
        (1 / 100 : ℚ) * ((107 : Nat) : ℚ) :=
  ⟨(estimator_regimes 70 1 [100, 0, 50]).1,
    (estimator_regimes 70 1 [100, 0, 50]).2.1 (by decide) (by decide),
    ((estimator_regimes 70 1 []).2.2 _ 107
      (by rw [save_dl_allocs_nof_samples]; simp [ue_ctxt.init])).1⟩

/-! ## Context refresh -/

theorem new_tti_inactive {W : Type} (env : Env W) (c : ue_ctxt) (w : W)
    (h : env.enb_to_ue_cc_idx w c.rnti < 0) :
    c.new_tti env w =
      { c with
        dl_retx_h := none, dl_newtx_h := none, ul_h := none, dl_prio := 0,
        ue_cc_idx := env.enb_to_ue_cc_idx w c.rnti } := by
  simp [ue_ctxt.new_tti, h]

theorem new_tti_dl_fields {W : Type} (env : Env W) (c : ue_ctxt) (w : W)
    (h : ¬ env.enb_to_ue_cc_idx w c.rnti < 0) :
    (c.new_tti env w).dl_retx_h = env.get_dl_retx_harq w c.rnti ∧
    (c.new_tti env w).dl_newtx_h = env.get_dl_newtx_harq w c.rnti ∧
    (c.new_tti env w).ue_cc_idx = env.enb_to_ue_cc_idx w c.rnti ∧
    (c.new_tti env w).dl_prio =
      if env.get_dl_retx_harq w c.rnti ≠ none ∨ env.get_dl_newtx_harq w c.rnti ≠ none then
        (if c.dl_avg_rate ≠ 0 then
          env.pow
              ((env.get_expected_dl_bitrate w c.rnti (env.enb_to_ue_cc_idx w c.rnti) / 8 : Nat) : ℚ)
              c.fairness_coeff / c.dl_avg_rate
        else if
            ((env.get_expected_dl_bitrate w c.rnti (env.enb_to_ue_cc_idx w c.rnti) / 8 : Nat) : ℚ)
              = 0
          then 0 else FLT_MAX)
      else 0 := by
  simp only [ue_ctxt.new_tti, if_neg h]
  split_ifs <;> simp_all [ue_ctxt.dl_avg_rate]

/-- C3 as stated fails on `float`: terminal 70 is active with a downlink opportunity, its
expected bitrate is 8 (`r = 1`), its fairness coefficient 1 and its average rate `R = 3`.  The
`dl_prio` that `ue_ctxt::new_tti` computes in single precision is the `float` nearest to 1/3,
`0x1.555556p-2 = 11184811 / 33554432`, and not `r^1 / R = 1/3`. -/
theorem new_tti_dl_prio_rounded :
    ((example_ctxt 70 1 3 1).new_tti_float
        (example_env (fun _ => [example_newtx_ue 70 8]) .ERROR .SUCCESS) 1).map
      (fun c => (c.ue_cc_idx, c.dl_newtx_h, c.fairness_coeff, c.dl_avg_rate, c.dl_prio))
      = some (0, some 0, 1, 3, 11184811 / 33554432) ∧
    (example_env (fun _ => [example_newtx_ue 70 8]) .ERROR .SUCCESS).get_expected_dl_bitrate
      1 70 0 / 8 = 1 ∧
    (example_env (fun _ => [example_newtx_ue 70 8]) .ERROR .SUCCESS).pow 1 1 / 3 = 1 / 3 ∧
    (11184811 / 33554432 : ℚ) ≠ 1 / 3 := by
  refine ⟨by decide!, by decide, by decide!, by norm_num⟩

/-- C3, amended: in exact arithmetic (the operations on `float` taken without rounding or
overflow), for a terminal that has a downlink opportunity after `ue_ctxt::new_tti` (such a
terminal is active on the cell), with `r = expected_dl_bitrate / 8` and `R = dl_avg_rate`, the
computed `dl_prio` is `r^fairness_coeff / R` when `R ≠ 0`, `0` when `R = 0` and `r = 0`, and
`FLT_MAX` when `R = 0` and `r > 0`; with `r = 4`, `R = 2` it is `8` for coefficient 2 and `2`
for coefficient 1. -/
theorem new_tti_dl_prio {W : Type} (env : Env W) (c : ue_ctxt) (w : W)
    (hopp : (c.new_tti env w).dl_retx_h ≠ none ∨ (c.new_tti env w).dl_newtx_h ≠ none) :
    0 ≤ (c.new_tti env w).ue_cc_idx ∧
    (c.dl_avg_rate ≠ 0 →
      (c.new_tti env w).dl_prio =
        env.pow ((env.get_expected_dl_bitrate w c.rnti (c.new_tti env w).ue_cc_idx / 8 : Nat) : ℚ)
          c.fairness_coeff / c.dl_avg_rate) ∧
    (c.dl_avg_rate = 0 →
      ((env.get_expected_dl_bitrate w c.rnti (c.new_tti env w).ue_cc_idx / 8 : Nat) : ℚ) = 0 →
      (c.new_tti env w).dl_prio = 0) ∧
    (c.dl_avg_rate = 0 →
      0 < ((env.get_expected_dl_bitrate w c.rnti (c.new_tti env w).ue_cc_idx / 8 : Nat) : ℚ) →
      (c.new_tti env w).dl_prio = FLT_MAX) ∧
    (((env.get_expected_dl_bitrate w c.rnti (c.new_tti env w).ue_cc_idx / 8 : Nat) : ℚ) = 4 →
      c.dl_avg_rate = 2 →
      (c.fairness_coeff = 2 → env.pow 4 2 = 16 → (c.new_tti env w).dl_prio = 8) ∧
      (c.fairness_coeff = 1 → env.pow 4 1 = 4 → (c.new_tti env w).dl_prio = 2)) := by
  by_cases h : env.enb_to_ue_cc_idx w c.rnti < 0
  · rw [new_tti_inactive env c w h] at hopp
    simp at hopp
  · obtain ⟨h1, h2, h3, h4⟩ := new_tti_dl_fields env c w h
    rw [h1, h2] at hopp
    rw [h3, h4, if_pos hopp]
    refine ⟨not_lt.mp h, ?_, ?_, ?_, ?_⟩
    · intro hR; rw [if_pos hR]
    · intro hR hr; rw [if_neg (not_not.mpr hR), if_pos hr]
    · intro hR hr; rw [if_neg (not_not.mpr hR), if_neg (ne_of_gt hr)]
    · intro hr hR
      have hR0 : c.dl_avg_rate ≠ 0 := by rw [hR]; norm_num
      rw [if_pos hR0, hr, hR]
      constructor
      · intro hf hp; rw [hf, hp]; norm_num
      · intro hf hp; rw [hf, hp]; norm_num

theorem new_tti_dl_prio_witness :
    (((example_ctxt 70 2 2 5).new_tti
        (example_env (fun _ => [example_newtx_ue 70 32]) .ERROR .SUCCESS) 1).dl_prio = 8) ∧
    (((example_ctxt 70 1 2 5).new_tti
        (example_env (fun _ => [example_newtx_ue 70 32]) .ERROR .SUCCESS) 1).dl_prio = 2) ∧
    (((example_ctxt 70 1 0 0).new_tti
        (example_env (fun _ => [example_newtx_ue 70 1000]) .ERROR .SUCCESS) 1).dl_prio
      = FLT_MAX) :=
  ⟨((new_tti_dl_prio (example_env (fun _ => [example_newtx_ue 70 32]) .ERROR .SUCCESS)
      (example_ctxt 70 2 2 5) 1 (Or.inr (by decide))).2.2.2.2 (by rfl) (by rfl)).1 (by rfl)
      (by norm_num [example_env]),
   ((new_tti_dl_prio (example_env (fun _ => [example_newtx_ue 70 32]) .ERROR .SUCCESS)
      (example_ctxt 70 1 2 5) 1 (Or.inr (by decide))).2.2.2.2 (by rfl) (by rfl)).2 (by rfl)
      (by norm_num [example_env]),
   (new_tti_dl_prio (example_env (fun _ => [example_newtx_ue 70 1000]) .ERROR .SUCCESS)
      (example_ctxt 70 1 0 0) 1 (Or.inr (by decide))).2.2.2.1 (by rfl) (by decide)⟩

/-- Without a downlink opportunity after the refresh the downlink priority is zero. -/
theorem new_tti_dl_prio_cleared {W : Type} (env : Env W) (c : ue_ctxt) (w : W)
    (h : (c.new_tti env w).dl_retx_h = none ∧ (c.new_tti env w).dl_newtx_h = none) :
    (c.new_tti env w).dl_prio = 0 := by
  by_cases ha : env.enb_to_ue_cc_idx w c.rnti < 0
  · rw [new_tti_inactive env c w ha]
  · obtain ⟨h1, h2, _, h4⟩ := new_tti_dl_fields env c w ha
    rw [h1, h2] at h
    rw [h4, if_neg (by simp [h.1, h.2])]

/-- The refresh of a terminal that is not active on the cell does not touch `ul_prio`. -/
theorem new_tti_inactive_ul_prio {W : Type} (env : Env W) (c : ue_ctxt) (w : W)
    (h : env.enb_to_ue_cc_idx w c.rnti < 0) :
    (c.new_tti env w).ul_h = none ∧ (c.new_tti env w).ul_prio = c.ul_prio := by
  rw [new_tti_inactive env c w h]
  exact ⟨rfl, rfl⟩

/-- C7 (what the code does): a terminal with uplink average 2 gets `ul_prio = 5` in slot 1,
where it has an uplink opportunity with expected bitrate 80; in slot 2 it is not active on the
cell, and after `ue_ctxt::new_tti` it has no uplink opportunity (`ul_h` is null), `dl_prio` is
cleared, but `ul_prio` is still 5. -/
theorem new_tti_stale_ul_prio :
    (((example_ctxt 70 1 2 5).new_tti
        (example_env (fun w => if w = 1 then
            [{ example_newtx_ue 70 0 with ul_bitrate := 80 }] else [example_inactive_ue 70])
          .ERROR .SUCCESS) 1).ul_prio = 5) ∧
    ((((example_ctxt 70 1 2 5).new_tti
        (example_env (fun w => if w = 1 then
            [{ example_newtx_ue 70 0 with ul_bitrate := 80 }] else [example_inactive_ue 70])
          .ERROR .SUCCESS) 1).new_tti
        (example_env (fun w => if w = 1 then
            [{ example_newtx_ue 70 0 with ul_bitrate := 80 }] else [example_inactive_ue 70])
          .ERROR .SUCCESS) 2).ul_h = none) ∧
    ((((example_ctxt 70 1 2 5).new_tti
        (example_env (fun w => if w = 1 then
            [{ example_newtx_ue 70 0 with ul_bitrate := 80 }] else [example_inactive_ue 70])
          .ERROR .SUCCESS) 1).new_tti
        (example_env (fun w => if w = 1 then
            [{ example_newtx_ue 70 0 with ul_bitrate := 80 }] else [example_inactive_ue 70])
          .ERROR .SUCCESS) 2).dl_prio = 0) ∧
    ((((example_ctxt 70 1 2 5).new_tti
        (example_env (fun w => if w = 1 then
            [{ example_newtx_ue 70 0 with ul_bitrate := 80 }] else [example_inactive_ue 70])
          .ERROR .SUCCESS) 1).new_tti
        (example_env (fun w => if w = 1 then
            [{ example_newtx_ue 70 0 with ul_bitrate := 80 }] else [example_inactive_ue 70])
          .ERROR .SUCCESS) 2).ul_prio = 5) := by
  have h1 : ((example_ctxt 70 1 2 5).new_tti
        (example_env (fun w => if w = 1 then
            [{ example_newtx_ue 70 0 with ul_bitrate := 80 }] else [example_inactive_ue 70])
          .ERROR .SUCCESS) 1).ul_prio = 5 := by
    simp [ue_ctxt.new_tti, example_env, example_find, example_newtx_ue, example_ctxt,
      ue_ctxt.init, ue_ctxt.ul_avg_rate, ue_ctxt.dl_avg_rate]
    norm_num
  refine ⟨h1, ?_, ?_, ?_⟩
  · exact (new_tti_inactive_ul_prio _ _ 2 (by decide)).1
  · exact new_tti_dl_prio_cleared _ _ 2
      ⟨by rw [new_tti_inactive _ _ 2 (by decide)], by rw [new_tti_inactive _ _ 2 (by decide)]⟩
  · rw [(new_tti_inactive_ul_prio _ _ 2 (by decide)).2, h1]

/-! ## Downlink allocation attempt -/

/-- C2: when the context has a downlink retransmission opportunity and the retransmission
attempt returns `DCI_COLLISION`, `try_dl_alloc` returns 0, makes no call of `alloc_dl_user`
(its only calls are the retransmission attempt and the log line), leaves the world as the
retransmission attempt left it, and so, a failed attempt keeping the mask, the downlink mask
is the same after the call as before. -/
theorem try_dl_alloc_dci_collision {W : Type} (env : Env W) (c : ue_ctxt) (w : W) (h : Nat)
    (hretx : c.dl_retx_h = some h)
    (hcode : (env.try_dl_retx_alloc w c.rnti h).1 = alloc_outcome_t.DCI_COLLISION) :
    (try_dl_alloc env c w).1 = 0 ∧
    (try_dl_alloc env c w).2.2 =
      [sched_event.try_dl_retx_alloc c.rnti h, sched_event.log_dl_dci_collision c.rnti] ∧
    (∀ rnti mask pid, sched_event.alloc_dl_user rnti mask pid ∉ (try_dl_alloc env c w).2.2) ∧
    (try_dl_alloc env c w).2.1 = (env.try_dl_retx_alloc w c.rnti h).2 ∧
    (failed_retx_keeps_dl_mask env →
      env.get_dl_mask (try_dl_alloc env c w).2.1 = env.get_dl_mask w) := by
  have hne : (env.try_dl_retx_alloc w c.rnti h).1 ≠ alloc_outcome_t.SUCCESS := by
    rw [hcode]; decide
  have key : try_dl_alloc env c w =
      (0, (env.try_dl_retx_alloc w c.rnti h).2,
        [sched_event.try_dl_retx_alloc c.rnti h, sched_event.log_dl_dci_collision c.rnti]) := by
    unfold try_dl_alloc
    simp only [hretx, if_neg hne, hcode]
    unfold try_dl_alloc_newtx try_dl_alloc_end
    cases c.dl_newtx_h <;> simp
  rw [key]
  refine ⟨rfl, rfl, ?_, rfl, fun hk => hk w c.rnti h hne⟩
  intro rnti mask pid
  simp

theorem try_dl_alloc_dci_collision_witness :
    (try_dl_alloc (example_env (fun _ => [example_retx_ue 70 32]) .DCI_COLLISION .SUCCESS)
        { example_ctxt 70 1 2 5 with dl_retx_h := some 1, dl_newtx_h := some 0 } 1).1 = 0 ∧
    (∀ rnti mask pid, sched_event.alloc_dl_user rnti mask pid ∉
      (try_dl_alloc (example_env (fun _ => [example_retx_ue 70 32]) .DCI_COLLISION .SUCCESS)
        { example_ctxt 70 1 2 5 with dl_retx_h := some 1, dl_newtx_h := some 0 } 1).2.2) ∧
    (example_env (fun _ => [example_retx_ue 70 32]) .DCI_COLLISION .SUCCESS).get_dl_mask
      (try_dl_alloc (example_env (fun _ => [example_retx_ue 70 32]) .DCI_COLLISION .SUCCESS)
        { example_ctxt 70 1 2 5 with dl_retx_h := some 1, dl_newtx_h := some 0 } 1).2.1 =
      (example_env (fun _ => [example_retx_ue 70 32]) .DCI_COLLISION .SUCCESS).get_dl_mask 1 :=
  ⟨(try_dl_alloc_dci_collision _ _ 1 1 rfl rfl).1,
    (try_dl_alloc_dci_collision _ _ 1 1 rfl rfl).2.2.1,
    (try_dl_alloc_dci_collision _ _ 1 1 rfl rfl).2.2.2.2 (fun _ _ _ _ => rfl)⟩

namespace sched_nr_impl

/-! ## Opening of system information windows -/

theorem si_x_eq {S : Type} (si : si_msg_ctxt_t S) (h0 : 0 < si.n) (hn : si.n < 2 ^ 32)
    (hx : (si.n - 1) * si.win_len_slots < 2 ^ 32) :
    si_x si = (si.n - 1) * si.win_len_slots := by
  unfold si_x
  have h1 : (si.n + 2 ^ 32 - 1) % 2 ^ 32 = si.n - 1 := by omega
  rw [h1, Nat.mod_eq_of_lt hx]

/-- C10: in the window update of `run_slot` a message without open window opens one
(`win_start` becomes the current slot, otherwise it stays invalid) exactly when: for index 0,
the slot index is 0 and the frame number is even; for index `n > 0`, with `x` the 32-bit value
`(n - 1) * win_len_slots` (the exact product when it fits 32 bits) and `N` the number of
configured slots, the frame number modulo `period_frames` is `x / N` and the slot index is
`x mod N`.  A message whose window is open keeps `win_start` or has it cleared; it is never
set to a new start. -/
theorem si_window_opening {G S : Type} (env : NrEnv G S) (N : Nat) (sl_pdcch : S)
    (si : si_msg_ctxt_t S) :
    (si.win_start = none → si.n = 0 →
      ∃ si', update_si_window env N sl_pdcch si = some si' ∧
        (si'.win_start = some sl_pdcch ↔
          (env.slot_idx sl_pdcch = 0 ∧ env.sfn sl_pdcch % 2 = 0)) ∧
        (si'.win_start = none ↔ ¬ (env.slot_idx sl_pdcch = 0 ∧ env.sfn sl_pdcch % 2 = 0))) ∧
    (si.win_start = none → 0 < si.n → 0 < si.period_frames → 0 < N →
      ∃ si', update_si_window env N sl_pdcch si = some si' ∧
        (si'.win_start = some sl_pdcch ↔
          (env.sfn sl_pdcch % si.period_frames = si_x si / N ∧
            env.slot_idx sl_pdcch = si_x si % N)) ∧
        (si'.win_start = none ↔
          ¬ (env.sfn sl_pdcch % si.period_frames = si_x si / N ∧
            env.slot_idx sl_pdcch = si_x si % N))) ∧
    (0 < si.n → si.n < 2 ^ 32 → (si.n - 1) * si.win_len_slots < 2 ^ 32 →
      si_x si = (si.n - 1) * si.win_len_slots) ∧
    (∀ win_start, si.win_start = some win_start →
      ∃ si', update_si_window env N sl_pdcch si = some si' ∧
        (si'.win_start = some win_start ∨ si'.win_start = none) ∧ si'.n_tx = si.n_tx) := by
  refine ⟨?_, ?_, si_x_eq si, ?_⟩
  · intro hw hn
    by_cases hc : env.slot_idx sl_pdcch = 0 ∧ env.sfn sl_pdcch % 2 = 0
    · refine ⟨{ si with win_start := some sl_pdcch, n_tx := 0 }, ?_, ?_, ?_⟩
      · simp [update_si_window, hw, hn, hc.1, hc.2]
      · simp [hc]
      · simp [hc]
    · refine ⟨si, ?_, ?_, ?_⟩
      · have hb : (env.slot_idx sl_pdcch == 0 && env.sfn sl_pdcch % 2 == 0) = false := by
          simpa using hc
        simp only [update_si_window, hw, hn, if_true, hb, Option.map_some']
        simp
      · simp [hw, hc]
      · simp [hw, hc]
  · intro hw hn hp hN
    have hn0 : si.n ≠ 0 := by omega
    have hz : ¬ (si.period_frames = 0 ∨ N = 0) := by omega
    by_cases hc : env.sfn sl_pdcch % si.period_frames = si_x si / N ∧
        env.slot_idx sl_pdcch = si_x si % N
    · refine ⟨{ si with win_start := some sl_pdcch, n_tx := 0 }, ?_, ?_, ?_⟩
      · simp [update_si_window, hw, hn0, hz, hc.1, hc.2]
      · simp [hc]
      · simp [hc]
    · refine ⟨si, ?_, ?_, ?_⟩
      · have hb : (env.sfn sl_pdcch % si.period_frames == si_x si / N &&
            env.slot_idx sl_pdcch == si_x si % N) = false := by
          simpa using hc
        simp only [update_si_window, hw, if_neg hn0, if_neg hz, hb, Option.map_some']
        simp
      · simp [hw, hc]
      · simp [hw, hc]
  · intro ws hw
    by_cases hge : env.ge (env.add ws si.win_len_slots) sl_pdcch = true
    · exact ⟨{ si with win_start := none }, by simp [update_si_window, hw, hge],
        Or.inr rfl, rfl⟩
    · exact ⟨si, by simp [update_si_window, hw, hge], Or.inl hw, rfl⟩

theorem si_window_opening_witness :
    -- message 0: frame 10, slot 0 opens and frame 11, slot 0 does not
    (∃ si', update_si_window (example_nr_env .success) 10 (10, 0) (example_si 0 none 0)
        = some si' ∧ si'.win_start = some (10, 0)) ∧
    (∃ si', update_si_window (example_nr_env .success) 10 (11, 0) (example_si 0 none 0)
        = some si' ∧ si'.win_start = none) ∧
    -- message 3: x = 2 * 5 = 10, so it opens in slot 0 of the frames 1, 9, 17, ...
    (∃ si', update_si_window (example_nr_env .success) 10 (9, 0) (example_si 3 none 0)
        = some si' ∧ si'.win_start = some (9, 0)) ∧
    si_x (example_si 3 none 0) = 10 ∧
    -- an open window is not restarted
    (∃ si', update_si_window (example_nr_env .success) 10 (10, 0) (example_si 0 (some (8, 0)) 1)
        = some si' ∧ (si'.win_start = some (8, 0) ∨ si'.win_start = none)) := by
  obtain ⟨a, ha, ha1, _⟩ :=
    (si_window_opening (example_nr_env .success) 10 (10, 0) (example_si 0 none 0)).1 rfl rfl
  obtain ⟨b, hb, _, hb2⟩ :=
    (si_window_opening (example_nr_env .success) 10 (11, 0) (example_si 0 none 0)).1 rfl rfl
  obtain ⟨c, hc, hc1, _⟩ :=
    (si_window_opening (example_nr_env .success) 10 (9, 0) (example_si 3 none 0)).2.1 rfl
      (by decide) (by decide) (by decide)
  obtain ⟨d, hd, hd1, _⟩ :=
    (si_window_opening (example_nr_env .success) 10 (10, 0)
      (example_si 0 (some (8, 0)) 1)).2.2.2 (8, 0) rfl
  exact ⟨⟨a, ha, ha1.mpr (by decide)⟩, ⟨b, hb, hb2.mpr (by decide)⟩,
    ⟨c, hc, hc1.mpr (by decide)⟩,
    (si_window_opening (example_nr_env .success) 10 (9, 0) (example_si 3 none 0)).2.2.1
      (by decide) (by decide) (by decide),
    ⟨d, hd, hd1⟩⟩

end sched_nr_impl

/-! ## Priority queue -/

theorem pq_top_foldl_mem {α : Type} (comp : α → α → Bool) :
    ∀ (xs : List α) (x : α),
      xs.foldl (fun best y => if comp best y then y else best) x ∈ x :: xs := by
  intro xs
  induction xs with
  | nil => intro x; simp
  | cons y ys ih =>
    intro x
    rw [List.foldl_cons]
    have h := ih (if comp x y = true then y else x)
    by_cases hc : comp x y = true
    · rw [if_pos hc] at h ⊢
      exact List.mem_cons_of_mem _ h
    · rw [if_neg hc] at h ⊢
      rcases List.mem_cons.mp h with h | h
      · rw [h]; exact List.mem_cons_self _ _
      · exact List.mem_cons_of_mem _ (List.mem_cons_of_mem _ h)

theorem pq_top_mem {α : Type} (comp : α → α → Bool) (l : List α) (m : α)
    (h : pq_top comp l = some m) : m ∈ l := by
  cases l with
  | nil => simp [pq_top] at h
  | cons x xs =>
    simp only [pq_top, Option.some.injEq] at h
    rw [← h]
    exact pq_top_foldl_mem comp xs x

theorem pq_top_ne_nil {α : Type} (comp : α → α → Bool) (l : List α) (h : l ≠ []) :
    ∃ m, pq_top comp l = some m := by
  cases l with
  | nil => exact absurd rfl h
  | cons x xs => exact ⟨_, rfl⟩

theorem pq_top_foldl_max {α : Type} (comp : α → α → Bool)
    (hirr : ∀ a, comp a a = false)
    (htrans : ∀ a b c, comp a b = true → comp b c = true → comp a c = true) :
    ∀ (xs : List α) (x : α),
      (∀ z, comp x z = false →
        comp (xs.foldl (fun best y => if comp best y then y else best) x) z = false) ∧
      (∀ z ∈ xs,
        comp (xs.foldl (fun best y => if comp best y then y else best) x) z = false) := by
  intro xs
  induction xs with
  | nil => intro x; simp
  | cons y ys ih =>
    intro x
    rw [List.foldl_cons]
    obtain ⟨h1, h2⟩ := ih (if comp x y = true then y else x)
    by_cases hc : comp x y = true
    · rw [if_pos hc] at h1 h2 ⊢
      refine ⟨fun z hz => h1 z ?_, fun z hz => ?_⟩
      · by_contra hyz
        have := htrans x y z hc (by simpa using hyz)
        rw [hz] at this
        exact Bool.false_ne_true this
      · rcases List.mem_cons.mp hz with rfl | hz
        · exact h1 _ (hirr _)
        · exact h2 z hz
    · rw [if_neg hc] at h1 h2 ⊢
      refine ⟨h1, fun z hz => ?_⟩
      rcases List.mem_cons.mp hz with rfl | hz
      · exact h1 _ (by simpa using hc)
      · exact h2 z hz

/-- The element `pq_top` returns is ranked below no element of the queue, for a comparator
that is irreflexive and transitive. -/
theorem pq_top_max {α : Type} (comp : α → α → Bool)
    (hirr : ∀ a, comp a a = false)
    (htrans : ∀ a b c, comp a b = true → comp b c = true → comp a c = true)
    (l : List α) (m : α) (h : pq_top comp l = some m) :
    ∀ z ∈ l, comp m z = false := by
  cases l with
  | nil => simp [pq_top] at h
  | cons x xs =>
    simp only [pq_top, Option.some.injEq] at h
    obtain ⟨h1, h2⟩ := pq_top_foldl_max comp hirr htrans xs x
    rw [h] at h1 h2
    intro z hz
    rcases List.mem_cons.mp hz with rfl | hz
    · exact h1 _ (hirr _)
    · exact h2 z hz

theorem ue_dl_prio_compare_irrefl (a : ue_ctxt) : ue_dl_prio_compare a a = false := by
  simp [ue_dl_prio_compare]

theorem ue_dl_prio_compare_trans (a b c : ue_ctxt) (h1 : ue_dl_prio_compare a b = true)
    (h2 : ue_dl_prio_compare b c = true) : ue_dl_prio_compare a c = true := by
  simp only [ue_dl_prio_compare, Bool.or_eq_true, Bool.and_eq_true, Bool.not_eq_true',
    decide_eq_false_iff_not, decide_eq_true_eq, beq_iff_eq] at h1 h2 ⊢
  by_cases ha : a.dl_retx_h = none <;> by_cases hb : b.dl_retx_h = none <;>
    by_cases hc : c.dl_retx_h = none <;> simp_all <;> exact lt_trans h1 h2

theorem ue_dl_prio_compare_key (a a' b b' : ue_ctxt) (ha : dl_key a = dl_key a')
    (hb : dl_key b = dl_key b') : ue_dl_prio_compare a b = ue_dl_prio_compare a' b' := by
  simp only [dl_key, Prod.mk.injEq] at ha hb
  simp only [ue_dl_prio_compare, ha.2.1, ha.2.2, hb.2.1, hb.2.2]

theorem dl_key_save_dl_alloc (c : ue_ctxt) (x : Nat) (a : ℚ) :
    dl_key (c.save_dl_alloc x a) = dl_key c := by
  unfold ue_ctxt.save_dl_alloc
  split <;> rfl

theorem deref_queue_live (db : Nat → Option ue_ctxt) :
    ∀ q : List Nat, (∀ p ∈ q, ∃ c, db p = some c) →
      ∃ cs, deref_queue db q = some cs ∧ cs.map Prod.fst = q ∧
        ∀ pc ∈ cs, db pc.1 = some pc.2 := by
  intro q
  induction q with
  | nil => intro _; exact ⟨[], rfl, rfl, by simp⟩
  | cons p q ih =>
    intro h
    obtain ⟨c, hc⟩ := h p (List.mem_cons_self _ _)
    obtain ⟨cs, hcs, hfst, hall⟩ := ih (fun r hr => h r (List.mem_cons_of_mem _ hr))
    refine ⟨(p, c) :: cs, ?_, ?_, ?_⟩
    · simp [deref_queue, hc, hcs]
    · simp [hfst]
    · intro pc hpc
      rcases List.mem_cons.mp hpc with rfl | hpc
      · exact hc
      · exact hall pc hpc

/-! ## Traces of the allocation attempts -/

theorem try_dl_alloc_end_trace {W : Type} (rnti : Nat) (code : alloc_outcome_t) (w : W)
    (tr : List sched_event) (h : ∀ e ∈ tr, e.is_grid_call = true) :
    ∀ e ∈ (try_dl_alloc_end rnti code w tr).2.2, e.is_grid_call = true := by
  unfold try_dl_alloc_end
  split_ifs
  · intro e he
    rcases List.mem_append.mp he with he | he
    · exact h e he
    · rw [List.mem_singleton.mp he]; rfl
  · exact h

theorem try_dl_alloc_newtx_trace {W : Type} (env : Env W) (c : ue_ctxt)
    (code : alloc_outcome_t) (w : W) (tr : List sched_event)
    (h : ∀ e ∈ tr, e.is_grid_call = true) :
    ∀ e ∈ (try_dl_alloc_newtx env c code w tr).2.2, e.is_grid_call = true := by
  have happ : ∀ (rnti : Nat) (m : rbgmask_t) (pid : Nat),
      ∀ e ∈ tr ++ [sched_event.alloc_dl_user rnti m pid], e.is_grid_call = true := by
    intro rnti m pid e he
    rcases List.mem_append.mp he with he | he
    · exact h e he
    · rw [List.mem_singleton.mp he]; rfl
  unfold try_dl_alloc_newtx
  cases c.dl_newtx_h with
  | none => exact try_dl_alloc_end_trace _ _ _ _ h
  | some hq =>
    simp only []
    split_ifs
    · exact h
    · exact happ _ _ _
    · exact try_dl_alloc_end_trace _ _ _ _ (happ _ _ _)
    · exact try_dl_alloc_end_trace _ _ _ _ h
    · exact try_dl_alloc_end_trace _ _ _ _ h

theorem try_dl_alloc_trace {W : Type} (env : Env W) (c : ue_ctxt) (w : W) :
    ∀ e ∈ (try_dl_alloc env c w).2.2, e.is_grid_call = true := by
  unfold try_dl_alloc
  cases c.dl_retx_h with
  | none => exact try_dl_alloc_newtx_trace env c _ _ _ (by simp)
  | some hq =>
    simp only []
    split_ifs
    · intro e he
      rw [List.mem_singleton.mp he]; rfl
    · apply try_dl_alloc_newtx_trace
      intro e he
      rw [List.mem_singleton.mp he]; rfl

theorem dl_attempts_append (tr1 tr2 : List sched_event) :
    dl_attempts (tr1 ++ tr2) = dl_attempts tr1 ++ dl_attempts tr2 := by
  induction tr1 with
  | nil => rfl
  | cons e tr ih => cases e <;> simp [dl_attempts, ih]

theorem dl_attempts_grid_calls (tr : List sched_event)
    (h : ∀ e ∈ tr, e.is_grid_call = true) : dl_attempts tr = [] := by
  induction tr with
  | nil => rfl
  | cons e tr ih =>
    have he := h e (List.mem_cons_self _ _)
    have ht := ih (fun x hx => h x (List.mem_cons_of_mem _ hx))
    cases e <;> simp_all [dl_attempts, sched_event.is_grid_call]

theorem refresh_count_append (tr1 tr2 : List sched_event) :
    refresh_count (tr1 ++ tr2) = refresh_count tr1 + refresh_count tr2 := by
  simp [refresh_count]

theorem sched_dl_loop_nil {W : Type} (env : Env W) (fuel : Nat) (s : sched_time_pf) (w : W)
    (h : s.dl_queue = []) : sched_dl_loop env fuel s w = some (s, w, []) := by
  cases fuel <;> simp [sched_dl_loop, h]

theorem sched_dl_loop_cons {W : Type} (env : Env W) (fuel : Nat) (s : sched_time_pf) (w : W)
    (h : s.dl_queue ≠ []) (cs : List (Nat × ue_ctxt)) (top : Nat × ue_ctxt)
    (hcs : deref_queue s.ue_history_db s.dl_queue = some cs)
    (htop : pq_top (fun a b => ue_dl_prio_compare a.2 b.2) cs = some top) :
    sched_dl_loop env (fuel + 1) s w =
      (sched_dl_loop env fuel
        { s with
          ue_history_db :=
            Function.update s.ue_history_db top.1
              (some (top.2.save_dl_alloc (try_dl_alloc env top.2 w).1 exp_avg_alpha))
          dl_queue := s.dl_queue.erase top.1 }
        (try_dl_alloc env top.2 w).2.1).map
        (fun out => (out.1, out.2.1,
          sched_event.try_dl_alloc top.2 :: ((try_dl_alloc env top.2 w).2.2 ++ out.2.2))) := by
  simp [sched_dl_loop, h, hcs, htop]

/-- The loop of `sched_dl_users` on a queue without stale pointer, the queue taken by its
contract: it ends, it hands the contexts to `try_dl_alloc` in an order in which no context is
ranked below a later one, and the contexts it hands over are the queued ones. -/
theorem sched_dl_loop_sorted {W : Type} (env : Env W) :
    ∀ (fuel : Nat) (s : sched_time_pf) (w : W),
      s.dl_queue.length ≤ fuel →
      (∀ p ∈ s.dl_queue, ∃ c, s.ue_history_db p = some c) →
      ∃ out, sched_dl_loop env fuel s w = some out ∧
        (dl_attempts out.2.2).Pairwise (fun a b => ue_dl_prio_compare a b = false) ∧
        List.Perm ((dl_attempts out.2.2).map (fun c => some (dl_key c)))
          (s.dl_queue.map (fun p => (s.ue_history_db p).map dl_key)) := by
  intro fuel
  induction fuel with
  | zero =>
    intro s w hlen _
    have hq : s.dl_queue = [] := List.length_eq_zero.mp (Nat.le_zero.mp hlen)
    refine ⟨(s, w, []), sched_dl_loop_nil env 0 s w hq, ?_, ?_⟩
    · simp [dl_attempts]
    · simp [dl_attempts, hq]
  | succ fuel ih =>
    intro s w hlen hlive
    by_cases hq : s.dl_queue = []
    · refine ⟨(s, w, []), sched_dl_loop_nil env _ s w hq, ?_, ?_⟩
      · simp [dl_attempts]
      · simp [dl_attempts, hq]
    · obtain ⟨cs, hcs, hfst, hall⟩ := deref_queue_live s.ue_history_db s.dl_queue hlive
      have hcsne : cs ≠ [] := by
        intro h; rw [h] at hfst; exact hq hfst.symm
      obtain ⟨top, htop⟩ := pq_top_ne_nil (fun a b => ue_dl_prio_compare a.2 b.2) cs hcsne
      have htopmem : top ∈ cs := pq_top_mem _ cs top htop
      have htopq : top.1 ∈ s.dl_queue := by
        rw [← hfst]; exact List.mem_map_of_mem _ htopmem
      have htopdb : s.ue_history_db top.1 = some top.2 := hall top htopmem
      have hmax : ∀ z ∈ cs, ue_dl_prio_compare top.2 z.2 = false :=
        pq_top_max (fun a b => ue_dl_prio_compare a.2 b.2)
          (fun a => ue_dl_prio_compare_irrefl a.2)
          (fun a b c => ue_dl_prio_compare_trans a.2 b.2 c.2) cs top htop
      -- the keys of the history map do not change
      have hkeys : ∀ p,
          (Function.update s.ue_history_db top.1
            (some (top.2.save_dl_alloc (try_dl_alloc env top.2 w).1 exp_avg_alpha)) p).map dl_key
            = (s.ue_history_db p).map dl_key := by
        intro p
        by_cases hp : p = top.1
        · subst hp
          simp [htopdb, dl_key_save_dl_alloc]
        · simp [Function.update_noteq hp]
      obtain ⟨out1, hout1, hsorted1, hperm1⟩ :=
        ih { s with
            ue_history_db :=
              Function.update s.ue_history_db top.1
                (some (top.2.save_dl_alloc (try_dl_alloc env top.2 w).1 exp_avg_alpha))
            dl_queue := s.dl_queue.erase top.1 }
          (try_dl_alloc env top.2 w).2.1
          (by
            have := List.length_erase_of_mem htopq
            simp only [this]
            omega)
          (by
            intro p hp
            have hpq : p ∈ s.dl_queue := List.mem_of_mem_erase hp
            obtain ⟨c, hc⟩ := hlive p hpq
            by_cases hpt : p = top.1
            · subst hpt; exact ⟨_, Function.update_same _ _ _⟩
            · exact ⟨c, by simp [Function.update_noteq hpt, hc]⟩)
      simp only [hkeys] at hperm1
      rw [sched_dl_loop_cons env fuel s w hq cs top hcs htop, hout1]
      refine ⟨_, rfl, ?_, ?_⟩
      · -- sorted
        simp only [dl_attempts, dl_attempts_append,
          dl_attempts_grid_calls _ (try_dl_alloc_trace env top.2 w), List.nil_append]
        rw [List.pairwise_cons]
        refine ⟨?_, hsorted1⟩
        intro b hb
        have hbk : some (dl_key b) ∈
            (s.dl_queue.erase top.1).map (fun p => (s.ue_history_db p).map dl_key) :=
          hperm1.subset (List.mem_map_of_mem _ hb)
        obtain ⟨p, hp, hpk⟩ := List.mem_map.mp hbk
        have hpq : p ∈ s.dl_queue := List.mem_of_mem_erase hp
        obtain ⟨c, hc⟩ := hlive p hpq
        rw [hc] at hpk
        have hck : dl_key c = dl_key b := by simpa using hpk
        have hpc : (p, c) ∈ cs := by
          rw [← hfst] at hpq
          obtain ⟨pc, hpc, hpc1⟩ := List.mem_map.mp hpq
          have := hall pc hpc
          rw [hpc1, hc] at this
          have h2 : pc = (p, c) := by
            cases pc
            simp only [Option.some.injEq] at this
            simp_all
          rw [← h2]; exact hpc
        rw [← ue_dl_prio_compare_key top.2 top.2 c b rfl hck]
        exact hmax (p, c) hpc
      · -- the contexts handed over are the queued ones
        simp only [dl_attempts, dl_attempts_append,
          dl_attempts_grid_calls _ (try_dl_alloc_trace env top.2 w), List.nil_append,
          List.map_cons]
        have h1 : List.Perm s.dl_queue (top.1 :: s.dl_queue.erase top.1) :=
          List.perm_cons_erase htopq
        have h2 := h1.map (fun p => (s.ue_history_db p).map dl_key)
        rw [List.map_cons, htopdb] at h2
        exact (List.Perm.cons _ hperm1).trans h2.symm

/-! ## The refresh -/

theorem new_tti_ue_eq {W : Type} (env : Env W) (w : W)
    (acc : sched_time_pf × List sched_event) (u : Nat) :
    new_tti_ue env w acc u =
      ({ acc.1 with
          ue_history_db := Function.update acc.1.ue_history_db u (some (refreshed_ctxt env w acc.1 u))
          dl_queue :=
            if (refreshed_ctxt env w acc.1 u).has_dl then acc.1.dl_queue ++ [u]
            else acc.1.dl_queue
          ul_queue :=
            if (refreshed_ctxt env w acc.1 u).has_ul then acc.1.ul_queue ++ [u]
            else acc.1.ul_queue },
        acc.2 ++ (if (refreshed_ctxt env w acc.1 u).has_dl then [sched_event.dl_queue_push u]
            else [])
          ++ (if (refreshed_ctxt env w acc.1 u).has_ul then [sched_event.ul_queue_push u]
            else [])) := rfl

theorem refreshed_ctxt_congr {W : Type} (env : Env W) (w : W) (s s' : sched_time_pf) (u : Nat)
    (h1 : s'.ue_history_db u = s.ue_history_db u) (h2 : s'.fairness_coeff = s.fairness_coeff) :
    refreshed_ctxt env w s' u = refreshed_ctxt env w s u := by
  simp [refreshed_ctxt, h1, h2]

/-- The second loop of `sched_time_pf::new_tti` over distinct terminals `l`: every terminal of
`l` gets its refreshed context, no other entry of the history map changes, and the terminals
with an opportunity are pushed, in order, behind what the queues already hold. -/
theorem new_tti_fold_spec {W : Type} (env : Env W) (w : W) :
    ∀ (l : List Nat) (acc : sched_time_pf × List sched_event), l.Nodup →
      (l.foldl (new_tti_ue env w) acc).1.fairness_coeff = acc.1.fairness_coeff ∧
      (l.foldl (new_tti_ue env w) acc).1.current_tti_rx = acc.1.current_tti_rx ∧
      (∀ u ∈ l, (l.foldl (new_tti_ue env w) acc).1.ue_history_db u =
        some (refreshed_ctxt env w acc.1 u)) ∧
      (∀ u, u ∉ l → (l.foldl (new_tti_ue env w) acc).1.ue_history_db u =
        acc.1.ue_history_db u) ∧
      (l.foldl (new_tti_ue env w) acc).1.dl_queue =
        acc.1.dl_queue ++ l.filter (fun u => (refreshed_ctxt env w acc.1 u).has_dl) ∧
      (l.foldl (new_tti_ue env w) acc).1.ul_queue =
        acc.1.ul_queue ++ l.filter (fun u => (refreshed_ctxt env w acc.1 u).has_ul) := by
  intro l
  induction l with
  | nil => intro acc _; simp
  | cons u l ih =>
    intro acc hnd
    rw [List.nodup_cons] at hnd
    obtain ⟨hu, hl⟩ := hnd
    rw [List.foldl_cons]
    obtain ⟨h1, h2, h3, h4, h5, h6⟩ := ih (new_tti_ue env w acc u) hl
    have hcongr : ∀ v, v ≠ u →
        refreshed_ctxt env w (new_tti_ue env w acc u).1 v = refreshed_ctxt env w acc.1 v := by
      intro v hv
      apply refreshed_ctxt_congr
      · rw [new_tti_ue_eq]; exact Function.update_noteq hv _ _
      · rw [new_tti_ue_eq]
    have hfilter : ∀ (f : ue_ctxt → Bool),
        l.filter (fun v => f (refreshed_ctxt env w (new_tti_ue env w acc u).1 v)) =
          l.filter (fun v => f (refreshed_ctxt env w acc.1 v)) := by
      intro f
      apply List.filter_congr
      intro v hv
      have hne : v ≠ u := fun h => hu (h ▸ hv)
      rw [hcongr v hne]
    refine ⟨?_, ?_, ?_, ?_, ?_, ?_⟩
    · rw [h1, new_tti_ue_eq]
    · rw [h2, new_tti_ue_eq]
    · intro v hv
      rcases List.mem_cons.mp hv with rfl | hvl
      · rw [h4 v hu, new_tti_ue_eq]
        exact Function.update_same _ _ _
      · have hne : v ≠ u := fun h => hu (h ▸ hvl)
        rw [h3 v hvl, hcongr v hne]
    · intro v hv
      rw [List.mem_cons, not_or] at hv
      rw [h4 v hv.2, new_tti_ue_eq]
      exact Function.update_noteq hv.1 _ _
    · rw [h5, hfilter, new_tti_ue_eq, List.filter_cons]
      by_cases hd : (refreshed_ctxt env w acc.1 u).has_dl = true
      · simp [hd]
      · simp [hd]
    · rw [h6, hfilter, new_tti_ue_eq, List.filter_cons]
      by_cases hd : (refreshed_ctxt env w acc.1 u).has_ul = true
      · simp [hd]
      · simp [hd]

/-- The second loop of `sched_time_pf::new_tti` appends pushes to the trace, and nothing
else; it does not touch `current_tti_rx`. -/
theorem new_tti_fold_trace {W : Type} (env : Env W) (w : W) :
    ∀ (l : List Nat) (acc : sched_time_pf × List sched_event),
      (l.foldl (new_tti_ue env w) acc).1.current_tti_rx = acc.1.current_tti_rx ∧
      refresh_count (l.foldl (new_tti_ue env w) acc).2 = refresh_count acc.2 ∧
      dl_attempts (l.foldl (new_tti_ue env w) acc).2 = dl_attempts acc.2 := by
  intro l
  induction l with
  | nil => intro acc; simp
  | cons u l ih =>
    intro acc
    rw [List.foldl_cons]
    obtain ⟨h1, h2, h3⟩ := ih (new_tti_ue env w acc u)
    rw [h1, h2, h3, new_tti_ue_eq]
    refine ⟨rfl, ?_, ?_⟩
    · simp only [refresh_count_append]
      split_ifs <;> simp [refresh_count, sched_event.is_refresh]
    · simp only [dl_attempts_append]
      split_ifs <;> simp [dl_attempts]

theorem new_tti_trace {W : Type} (env : Env W) (s : sched_time_pf) (w : W) :
    (s.new_tti env w).1.current_tti_rx = some (env.get_tti_rx w) ∧
    refresh_count (s.new_tti env w).2 = 1 ∧
    dl_attempts (s.new_tti env w).2 = [] := by
  unfold sched_time_pf.new_tti
  simp only []
  obtain ⟨h1, h2, h3⟩ := new_tti_fold_trace env w (env.ue_db w)
    ({ s with
        current_tti_rx := some (env.get_tti_rx w)
        ue_history_db := fun k => if k ∈ env.ue_db w then s.ue_history_db k else none },
      [sched_event.new_tti (env.get_tti_rx w)])
  rw [h1, h2, h3]
  exact ⟨rfl, rfl, rfl⟩

theorem enter_dl_attempts {W : Type} (env : Env W) (s : sched_time_pf) (w : W) :
    dl_attempts (s.enter env w).2 = [] := by
  unfold sched_time_pf.enter
  split_ifs
  · exact (new_tti_trace env s w).2.2
  · rfl

/-! ## Order of the downlink attempts -/

/-- The attempts of `sched_dl_users` when no queued pointer is stale after the refresh check,
the queue taken by its contract: the call returns, the attempts are sorted, and they are the
queued contexts. -/
theorem sched_dl_users_attempts {W : Type} (env : Env W) (s : sched_time_pf) (w : W)
    (hlive : ∀ p ∈ (s.enter env w).1.dl_queue,
      ((s.enter env w).1.ue_history_db p).isSome = true) :
    ∃ out, s.sched_dl_users env w = some out ∧
      (dl_attempts out.2.2).Pairwise (fun a b => ue_dl_prio_compare a b = false) ∧
      List.Perm ((dl_attempts out.2.2).map (fun c => some (dl_key c)))
        ((s.enter env w).1.dl_queue.map
          (fun p => ((s.enter env w).1.ue_history_db p).map dl_key)) := by
  obtain ⟨out, hout, hs, hp⟩ :=
    sched_dl_loop_sorted env (s.enter env w).1.dl_queue.length (s.enter env w).1 w le_rfl
      (fun p hp => Option.isSome_iff_exists.mp (hlive p hp))
  refine ⟨(out.1, out.2.1, (s.enter env w).2 ++ out.2.2), ?_, ?_, ?_⟩
  · simp [sched_time_pf.sched_dl_users, hout]
  · simpa [dl_attempts_append, enter_dl_attempts] using hs
  · simpa [dl_attempts_append, enter_dl_attempts] using hp

/-- In a sorted list of attempts, a context that outranks another one is attempted before it:
when the lower one is attempted, the higher one has been attempted already. -/
theorem attempts_before (att : List ue_ctxt)
    (hs : att.Pairwise (fun a b => ue_dl_prio_compare a b = false)) (A B : ue_ctxt)
    (hAB : ue_dl_prio_compare B A = true) (hA : ∃ a ∈ att, dl_key a = dl_key A) :
    ∀ pre b post, att = pre ++ b :: post → dl_key b = dl_key B →
      ∃ a ∈ pre, dl_key a = dl_key A := by
  intro pre b post hatt hb
  obtain ⟨a, ha, hak⟩ := hA
  rw [hatt] at ha hs
  have hba : ue_dl_prio_compare b a = true := by
    rw [ue_dl_prio_compare_key b B a A hb hak]; exact hAB
  rcases List.mem_append.mp ha with ha | ha
  · exact ⟨a, ha, hak⟩
  · exfalso
    have hs2 := (List.pairwise_append.mp hs).2.1
    rw [List.pairwise_cons] at hs2
    rcases List.mem_cons.mp ha with rfl | ha
    · rw [ue_dl_prio_compare_irrefl] at hba
      exact Bool.false_ne_true hba
    · rw [hs2.1 a ha] at hba
      exact Bool.false_ne_true hba

/-- The downlink comparator ranks `B` below `A` when `A` has a retransmission and `B` has
none, and when both have the same retransmission status and `A` the higher priority. -/
theorem ue_dl_prio_compare_of_outranks (A B : ue_ctxt)
    (h : (A.dl_retx_h ≠ none ∧ B.dl_retx_h = none) ∨
      ((A.dl_retx_h ≠ none ↔ B.dl_retx_h ≠ none) ∧ B.dl_prio < A.dl_prio)) :
    ue_dl_prio_compare B A = true := by
  simp only [ue_dl_prio_compare, Bool.or_eq_true, Bool.and_eq_true, Bool.not_eq_true',
    decide_eq_false_iff_not, decide_eq_true_eq, beq_iff_eq]
  rcases h with ⟨h1, h2⟩ | ⟨h1, h2⟩
  · left; exact ⟨by simp [h2], h1⟩
  · right
    refine ⟨?_, h2⟩
    by_cases hA : A.dl_retx_h = none <;> by_cases hB : B.dl_retx_h = none <;> simp_all

/-- `sched_time_pf::new_tti` for a database of distinct terminals: the history map holds the
refreshed context of every terminal of the database and nothing else, and the terminals with
an opportunity are pushed behind what the queues already hold. -/
theorem new_tti_spec {W : Type} (env : Env W) (s : sched_time_pf) (w : W)
    (hnd : (env.ue_db w).Nodup) :
    (s.new_tti env w).1.fairness_coeff = s.fairness_coeff ∧
    (s.new_tti env w).1.current_tti_rx = some (env.get_tti_rx w) ∧
    (∀ u ∈ env.ue_db w,
      (s.new_tti env w).1.ue_history_db u = some (refreshed_ctxt env w s u)) ∧
    (∀ u, u ∉ env.ue_db w → (s.new_tti env w).1.ue_history_db u = none) ∧
    (s.new_tti env w).1.dl_queue =
      s.dl_queue ++ (env.ue_db w).filter (fun u => (refreshed_ctxt env w s u).has_dl) ∧
    (s.new_tti env w).1.ul_queue =
      s.ul_queue ++ (env.ue_db w).filter (fun u => (refreshed_ctxt env w s u).has_ul) := by
  obtain ⟨h1, h2, h3, h4, h5, h6⟩ := new_tti_fold_spec env w (env.ue_db w)
    ({ s with
        current_tti_rx := some (env.get_tti_rx w)
        ue_history_db := fun k => if k ∈ env.ue_db w then s.ue_history_db k else none },
      [sched_event.new_tti (env.get_tti_rx w)]) hnd
  have hcongr : ∀ u ∈ env.ue_db w,
      refreshed_ctxt env w
        { s with
          current_tti_rx := some (env.get_tti_rx w)
          ue_history_db := fun k => if k ∈ env.ue_db w then s.ue_history_db k else none } u
        = refreshed_ctxt env w s u := by
    intro u hu
    apply refreshed_ctxt_congr
    · simp [hu]
    · rfl
  have hfilter : ∀ (f : ue_ctxt → Bool),
      (env.ue_db w).filter (fun u => f (refreshed_ctxt env w
        { s with
          current_tti_rx := some (env.get_tti_rx w)
          ue_history_db := fun k => if k ∈ env.ue_db w then s.ue_history_db k else none } u))
        = (env.ue_db w).filter (fun u => f (refreshed_ctxt env w s u)) := by
    intro f
    apply List.filter_congr
    intro u hu
    rw [hcongr u hu]
  unfold sched_time_pf.new_tti
  simp only []
  refine ⟨h1, h2, ?_, ?_, ?_, ?_⟩
  · intro u hu
    rw [h3 u hu, hcongr u hu]
  · intro u hu
    rw [h4 u hu]
    simp [hu]
  · rw [h5, hfilter]
  · rw [h6, hfilter]

theorem enter_of_new_slot {W : Type} (env : Env W) (s : sched_time_pf) (w : W)
    (h : s.current_tti_rx ≠ some (env.get_tti_rx w)) : s.enter env w = s.new_tti env w := by
  simp [sched_time_pf.enter, h]

/-- C9 (what the code does): terminal 70 has an opportunity in both directions in slot 1, is
not active in slot 2 and is gone from the database in slot 3.  In slot 1 only
`sched_ul_users` is called: the refresh pushes 70 into both queues and the downlink queue is
not emptied.  Immediately after the refresh of slot 2 the downlink queue still holds the entry
of slot 1, although the context has no downlink opportunity in slot 2.  After the refresh of
slot 3 instead, the entry points to a context that is no longer in the history map, and
`sched_dl_users` dereferences it. -/
theorem stale_queue_after_refresh :
    ((sched_time_pf.init 1).sched_ul_users
        (example_env (fun w => if w = 1 then [example_newtx_ue 70 32]
          else if w = 2 then [example_inactive_ue 70] else []) .SUCCESS .SUCCESS) 1).map
      (fun o => (o.1.dl_queue, o.1.ul_queue)) = some ([70], []) ∧
    ((sched_time_pf.init 1).sched_ul_users
        (example_env (fun w => if w = 1 then [example_newtx_ue 70 32]
          else if w = 2 then [example_inactive_ue 70] else []) .SUCCESS .SUCCESS) 1).map
      (fun o =>
        ((o.1.new_tti (example_env (fun w => if w = 1 then [example_newtx_ue 70 32]
            else if w = 2 then [example_inactive_ue 70] else []) .SUCCESS .SUCCESS) 2).1.dl_queue,
          ((o.1.new_tti (example_env (fun w => if w = 1 then [example_newtx_ue 70 32]
            else if w = 2 then [example_inactive_ue 70] else []) .SUCCESS .SUCCESS)
            2).1.ue_history_db 70).map ue_ctxt.has_dl))
      = some ([70], some false) ∧
    ((sched_time_pf.init 1).sched_ul_users
        (example_env (fun w => if w = 1 then [example_newtx_ue 70 32]
          else if w = 2 then [example_inactive_ue 70] else []) .SUCCESS .SUCCESS) 1).map
      (fun o =>
        ((o.1.new_tti (example_env (fun w => if w = 1 then [example_newtx_ue 70 32]
            else if w = 2 then [example_inactive_ue 70] else []) .SUCCESS .SUCCESS) 3).1.dl_queue,
          ((o.1.new_tti (example_env (fun w => if w = 1 then [example_newtx_ue 70 32]
            else if w = 2 then [example_inactive_ue 70] else []) .SUCCESS .SUCCESS)
            3).1.ue_history_db 70).isSome,
          (o.1.sched_dl_users (example_env (fun w => if w = 1 then [example_newtx_ue 70 32]
            else if w = 2 then [example_inactive_ue 70] else []) .SUCCESS .SUCCESS) 3).isSome))
      = some ([70], false, false) := by
  refine ⟨?_, ?_, ?_⟩ <;> decide!

end srsenb

namespace srsenb

/-! ## New-transmission attempts -/

theorem try_dl_alloc_end_fst {W : Type} (rnti : Nat) (code : alloc_outcome_t) (w : W)
    (tr : List sched_event) : (try_dl_alloc_end rnti code w tr).1 = 0 := by
  unfold try_dl_alloc_end
  split_ifs <;> rfl

/-- The second half of `try_dl_alloc` returns a non-zero byte count only after a call of
`alloc_dl_user` that returned `SUCCESS`. -/
theorem try_dl_alloc_newtx_nonzero {W : Type} (env : Env W) (c : ue_ctxt)
    (code : alloc_outcome_t) (w : W) (tr : List sched_event)
    (h : (try_dl_alloc_newtx env c code w tr).1 ≠ 0) :
    ∃ hq mask pid, c.dl_newtx_h = some hq ∧
      (env.alloc_dl_user w c.rnti mask pid).1 = alloc_outcome_t.SUCCESS ∧
      (try_dl_alloc_newtx env c code w tr).2.2 = tr ++ [sched_event.alloc_dl_user c.rnti mask pid] ∧
      (try_dl_alloc_newtx env c code w tr).2.1 = (env.alloc_dl_user w c.rnti mask pid).2 := by
  unfold try_dl_alloc_newtx at h ⊢
  cases hn : c.dl_newtx_h with
  | none =>
    simp only [hn] at h
    exact absurd (try_dl_alloc_end_fst _ _ _ _) h
  | some hq =>
    simp only [hn] at h ⊢
    split_ifs at h ⊢ with h1 h2 h3 h4
    · exact absurd rfl h
    · exact ⟨hq, _, _, rfl, h4, rfl, rfl⟩
    · exact absurd (try_dl_alloc_end_fst _ _ _ _) h
    · exact absurd (try_dl_alloc_end_fst _ _ _ _) h
    · exact absurd (try_dl_alloc_end_fst _ _ _ _) h

/-- C16: for a context with only a new-transmission downlink opportunity and required RBG
interval `[min, max]`: if `max = 0`, `try_dl_alloc` returns 0 without any call on the grid;
if the mask found by `find_available_dl_rbgs(max, dl_mask)` has fewer than `min` bits set,
it returns 0, `alloc_dl_user` is not called and the grid is unchanged; and `try_dl_alloc`
(for any context) returns a non-zero byte count only when an allocation call returned
`SUCCESS`. -/
theorem try_dl_alloc_newtx_only {W : Type} (env : Env W) (c : ue_ctxt) (w : W) (h : Nat)
    (hretx : c.dl_retx_h = none) (hnew : c.dl_newtx_h = some h) :
    ((env.get_required_dl_rbgs w c.rnti c.ue_cc_idx).stop = 0 →
      try_dl_alloc env c w = (0, w, [])) ∧
    ((env.get_required_dl_rbgs w c.rnti c.ue_cc_idx).stop ≠ 0 →
      mask_count (env.find_available_dl_rbgs (env.get_required_dl_rbgs w c.rnti c.ue_cc_idx).stop
        (env.get_dl_mask w)) < (env.get_required_dl_rbgs w c.rnti c.ue_cc_idx).start →
      try_dl_alloc env c w = (0, w, [])) ∧
    ((try_dl_alloc env c w).1 ≠ 0 →
      (env.alloc_dl_user w c.rnti
        (env.find_available_dl_rbgs (env.get_required_dl_rbgs w c.rnti c.ue_cc_idx).stop
          (env.get_dl_mask w)) (env.dl_get_id w c.rnti h)).1 = alloc_outcome_t.SUCCESS) ∧
    (∀ (c' : ue_ctxt) (w' : W), (try_dl_alloc env c' w').1 ≠ 0 →
      (∃ hq, c'.dl_retx_h = some hq ∧
        (env.try_dl_retx_alloc w' c'.rnti hq).1 = alloc_outcome_t.SUCCESS) ∨
      (∃ w1 mask pid, (env.alloc_dl_user w1 c'.rnti mask pid).1 = alloc_outcome_t.SUCCESS ∧
        sched_event.alloc_dl_user c'.rnti mask pid ∈ (try_dl_alloc env c' w').2.2 ∧
        (try_dl_alloc env c' w').2.1 = (env.alloc_dl_user w1 c'.rnti mask pid).2)) := by
  refine ⟨?_, ?_, ?_, ?_⟩
  · intro h0
    simp [try_dl_alloc, try_dl_alloc_newtx, hretx, hnew, h0]
  · intro h0 hlt
    simp [try_dl_alloc, try_dl_alloc_newtx, try_dl_alloc_end, hretx, hnew, h0, not_le.mpr hlt]
  · intro hne
    simp only [try_dl_alloc, hretx] at hne
    unfold try_dl_alloc_newtx at hne
    simp only [hnew] at hne
    split_ifs at hne with h1 h2 h3 h4
    · exact absurd rfl hne
    · exact h4
    · exact absurd (try_dl_alloc_end_fst _ _ _ _) hne
    · exact absurd (try_dl_alloc_end_fst _ _ _ _) hne
    · exact absurd (try_dl_alloc_end_fst _ _ _ _) hne
  · intro c' w' hne
    unfold try_dl_alloc at hne ⊢
    cases hr : c'.dl_retx_h with
    | none =>
      simp only [hr] at hne ⊢
      obtain ⟨hq, mask, pid, _, h2, h3, h4⟩ := try_dl_alloc_newtx_nonzero env c' _ _ _ hne
      exact Or.inr ⟨w', mask, pid, h2, by rw [h3]; simp, h4⟩
    | some hq =>
      simp only [hr] at hne ⊢
      by_cases hs : (env.try_dl_retx_alloc w' c'.rnti hq).1 = alloc_outcome_t.SUCCESS
      · exact Or.inl ⟨hq, rfl, hs⟩
      · rw [if_neg hs] at hne ⊢
        obtain ⟨hq', mask, pid, _, h2, h3, h4⟩ := try_dl_alloc_newtx_nonzero env c' _ _ _ hne
        exact Or.inr ⟨_, mask, pid, h2, by rw [h3]; simp, h4⟩

theorem try_dl_alloc_newtx_only_witness :
    -- the search for 4 resource block groups yields 3, the minimum is 4
    try_dl_alloc
        { example_env (fun _ => [example_newtx_ue 70 32]) .SUCCESS .SUCCESS with
          get_required_dl_rbgs := fun _ _ _ => { start := 4, stop := 4 }
          find_available_dl_rbgs := fun _ _ => [true, true, true, false] }
        (example_queued 70 none (some 0) 10) 1 = (0, 1, []) ∧
    -- no data: the maximum is 0
    try_dl_alloc
        { example_env (fun _ => [example_newtx_ue 70 32]) .SUCCESS .SUCCESS with
          get_required_dl_rbgs := fun _ _ _ => { start := 0, stop := 0 } }
        (example_queued 70 none (some 0) 10) 1 = (0, 1, []) :=
  ⟨(try_dl_alloc_newtx_only _ (example_queued 70 none (some 0) 10) 1 0 rfl rfl).2.1
      (by decide) (by decide),
    (try_dl_alloc_newtx_only _ (example_queued 70 none (some 0) 10) 1 0 rfl rfl).1 rfl⟩

/-! ## Uplink allocation attempt -/

/-- C17: `try_ul_alloc` returns the pending data size of the uplink opportunity exactly when
the allocation it attempted returned `SUCCESS` (the retransmission attempt when the
opportunity has a pending retransmission, in which case `alloc_ul_user` is not called and the
result does not depend on the resource search; otherwise `alloc_ul_user` on the interval
found), and 0 on every other path: no opportunity, no pending new data, no interval found,
control-channel exhaustion, error. -/
theorem try_ul_alloc_result {W : Type} (env : Env W) (c : ue_ctxt) (w : W) :
    (c.ul_h = none → try_ul_alloc env c w = (0, w, [])) ∧
    (∀ h, c.ul_h = some h → env.ul_has_pending_retx w c.rnti h = true →
      (try_ul_alloc env c w).1 =
        (if (env.try_ul_retx_alloc w c.rnti h).1 = alloc_outcome_t.SUCCESS then
          env.ul_get_pending_data (env.try_ul_retx_alloc w c.rnti h).2 c.rnti h else 0) ∧
      (try_ul_alloc env c w).2.1 = (env.try_ul_retx_alloc w c.rnti h).2 ∧
      (try_ul_alloc env c w).2.2 =
        (if (env.try_ul_retx_alloc w c.rnti h).1 = alloc_outcome_t.DCI_COLLISION then
          [sched_event.try_ul_retx_alloc c.rnti h, sched_event.log_ul_dci_collision c.rnti]
        else [sched_event.try_ul_retx_alloc c.rnti h])) ∧
    (∀ h, c.ul_h = some h → env.ul_has_pending_retx w c.rnti h = false →
      env.get_pending_ul_new_data w c.rnti (env.get_tti_tx_ul w) c.ue_cc_idx = 0 →
      try_ul_alloc env c w = (0, w, [])) ∧
    (∀ h, c.ul_h = some h → env.ul_has_pending_retx w c.rnti h = false →
      env.get_pending_ul_new_data w c.rnti (env.get_tti_tx_ul w) c.ue_cc_idx ≠ 0 →
      (env.find_contiguous_ul_prbs
        (env.get_required_prb_ul w c.rnti c.ue_cc_idx
          (env.get_pending_ul_new_data w c.rnti (env.get_tti_tx_ul w) c.ue_cc_idx))
        (env.get_ul_mask w)).empty = true →
      try_ul_alloc env c w = (0, w, [])) ∧
    (∀ h alloc, c.ul_h = some h → env.ul_has_pending_retx w c.rnti h = false →
      env.get_pending_ul_new_data w c.rnti (env.get_tti_tx_ul w) c.ue_cc_idx ≠ 0 →
      alloc = env.find_contiguous_ul_prbs
        (env.get_required_prb_ul w c.rnti c.ue_cc_idx
          (env.get_pending_ul_new_data w c.rnti (env.get_tti_tx_ul w) c.ue_cc_idx))
        (env.get_ul_mask w) →
      alloc.empty = false →
      (try_ul_alloc env c w).1 =
        (if (env.alloc_ul_user w c.rnti alloc).1 = alloc_outcome_t.SUCCESS then
          env.ul_get_pending_data (env.alloc_ul_user w c.rnti alloc).2 c.rnti h else 0) ∧
      (try_ul_alloc env c w).2.1 = (env.alloc_ul_user w c.rnti alloc).2 ∧
      (try_ul_alloc env c w).2.2 =
        (if (env.alloc_ul_user w c.rnti alloc).1 = alloc_outcome_t.DCI_COLLISION then
          [sched_event.alloc_ul_user c.rnti alloc, sched_event.log_ul_dci_collision c.rnti]
        else [sched_event.alloc_ul_user c.rnti alloc])) := by
  refine ⟨?_, ?_, ?_, ?_, ?_⟩
  · intro h0
    simp [try_ul_alloc, h0]
  · intro h h0 hr
    simp only [try_ul_alloc, h0, hr, if_true]
    split_ifs <;> simp_all
  · intro h h0 hr hp
    simp [try_ul_alloc, h0, hr, hp]
  · intro h h0 hr hp he
    simp [try_ul_alloc, h0, hr, hp, he]
  · intro h alloc h0 hr hp ha he
    subst ha
    simp only [try_ul_alloc, h0, hr, hp, he, if_false, Bool.false_eq_true]
    split_ifs <;> simp_all

end srsenb

namespace srsenb

theorem try_ul_alloc_result_witness :
    -- a pending retransmission that is allocated: the pending data size, and no other call
    (try_ul_alloc
        (example_env (fun _ => [{ example_newtx_ue 70 32 with ul_retx := some 2 }])
          .SUCCESS .ERROR)
        { example_ctxt 70 1 2 5 with ul_h := some 2 } 1).1 = 100 ∧
    (try_ul_alloc
        (example_env (fun _ => [{ example_newtx_ue 70 32 with ul_retx := some 2 }])
          .SUCCESS .ERROR)
        { example_ctxt 70 1 2 5 with ul_h := some 2 } 1).2.2
      = [sched_event.try_ul_retx_alloc 70 2] ∧
    -- a new transmission that finds no space in the control channel: 0
    (try_ul_alloc (example_env (fun _ => [example_newtx_ue 70 32]) .SUCCESS .DCI_COLLISION)
        { example_ctxt 70 1 2 5 with ul_h := some 0 } 1).1 = 0 := by
  refine ⟨?_, ?_, ?_⟩
  · rw [((try_ul_alloc_result _ { example_ctxt 70 1 2 5 with ul_h := some 2 } 1).2.1 2 rfl
      rfl).1]
    rfl
  · rw [((try_ul_alloc_result _ { example_ctxt 70 1 2 5 with ul_h := some 2 } 1).2.1 2 rfl
      rfl).2.2]
    rfl
  · rw [((try_ul_alloc_result
      (example_env (fun _ => [example_newtx_ue 70 32]) .SUCCESS .DCI_COLLISION)
      { example_ctxt 70 1 2 5 with ul_h := some 0 } 1).2.2.2.2 0 { start := 0, stop := 2 } rfl
      rfl (by decide) rfl rfl).1]
    rfl

/-! ## History map after the refresh -/

theorem ue_ul_prio_compare_irrefl (r : Bool) (a : ue_ctxt) :
    ue_ul_prio_compare r r a a = false := by
  simp [ue_ul_prio_compare]

theorem ue_ul_prio_compare_trans (ra rb rc : Bool) (a b c : ue_ctxt)
    (h1 : ue_ul_prio_compare ra rb a b = true) (h2 : ue_ul_prio_compare rb rc b c = true) :
    ue_ul_prio_compare ra rc a c = true := by
  simp only [ue_ul_prio_compare, Bool.or_eq_true, Bool.and_eq_true, Bool.not_eq_true',
    decide_eq_true_eq, beq_iff_eq] at h1 h2 ⊢
  cases ra <;> cases rb <;> cases rc <;> simp_all <;> exact lt_trans h1 h2

/-- The downlink comparator does not order two contexts exactly when they have the same
retransmission status and the same priority. -/
theorem ue_dl_prio_compare_incomparable (a b : ue_ctxt) :
    (ue_dl_prio_compare a b = false ∧ ue_dl_prio_compare b a = false) ↔
      ((a.dl_retx_h ≠ none ↔ b.dl_retx_h ≠ none) ∧ a.dl_prio = b.dl_prio) := by
  simp only [ue_dl_prio_compare, Bool.or_eq_false_iff, Bool.and_eq_false_imp, Bool.not_eq_true',
    decide_eq_false_iff_not, decide_eq_true_eq, beq_iff_eq, not_lt]
  by_cases ha : a.dl_retx_h = none <;> by_cases hb : b.dl_retx_h = none <;> simp [ha, hb]
  · exact ⟨fun h => le_antisymm h.2 h.1, fun h => ⟨h.ge, h.le⟩⟩
  · exact ⟨fun h => le_antisymm h.2 h.1, fun h => ⟨h.ge, h.le⟩⟩

/-- The uplink comparator does not order two contexts exactly when they have the same
retransmission status and the same priority. -/
theorem ue_ul_prio_compare_incomparable (ra rb : Bool) (a b : ue_ctxt) :
    (ue_ul_prio_compare ra rb a b = false ∧ ue_ul_prio_compare rb ra b a = false) ↔
      (ra = rb ∧ a.ul_prio = b.ul_prio) := by
  simp only [ue_ul_prio_compare, Bool.or_eq_false_iff, Bool.and_eq_false_imp, Bool.not_eq_true',
    decide_eq_false_iff_not, beq_iff_eq, not_lt]
  cases ra <;> cases rb <;> simp
  · exact ⟨fun h => le_antisymm h.2 h.1, fun h => ⟨h.ge, h.le⟩⟩
  · exact ⟨fun h => le_antisymm h.2 h.1, fun h => ⟨h.ge, h.le⟩⟩

end srsenb

namespace srsenb

/-- C20: the downlink comparator, and the uplink comparator for any reading `retx` of the
pending-retransmission flags, are strict weak orderings over contexts with numeric
priorities: irreflexive, asymmetric, transitive, with transitive incomparability; and two
contexts are incomparable exactly when they have the same retransmission status and equal
priority. -/
theorem prio_compare_strict_weak_order (retx : ue_ctxt → Bool) :
    ((∀ a, ue_dl_prio_compare a a = false) ∧
      (∀ a b, ue_dl_prio_compare a b = true → ue_dl_prio_compare b a = false) ∧
      (∀ a b c, ue_dl_prio_compare a b = true → ue_dl_prio_compare b c = true →
        ue_dl_prio_compare a c = true) ∧
      (∀ a b c, (ue_dl_prio_compare a b = false ∧ ue_dl_prio_compare b a = false) →
        (ue_dl_prio_compare b c = false ∧ ue_dl_prio_compare c b = false) →
        (ue_dl_prio_compare a c = false ∧ ue_dl_prio_compare c a = false)) ∧
      (∀ a b, (ue_dl_prio_compare a b = false ∧ ue_dl_prio_compare b a = false) ↔
        ((a.dl_retx_h ≠ none ↔ b.dl_retx_h ≠ none) ∧ a.dl_prio = b.dl_prio))) ∧
    ((∀ a, ue_ul_prio_compare (retx a) (retx a) a a = false) ∧
      (∀ a b, ue_ul_prio_compare (retx a) (retx b) a b = true →
        ue_ul_prio_compare (retx b) (retx a) b a = false) ∧
      (∀ a b c, ue_ul_prio_compare (retx a) (retx b) a b = true →
        ue_ul_prio_compare (retx b) (retx c) b c = true →
        ue_ul_prio_compare (retx a) (retx c) a c = true) ∧
      (∀ a b c,
        (ue_ul_prio_compare (retx a) (retx b) a b = false ∧
          ue_ul_prio_compare (retx b) (retx a) b a = false) →
        (ue_ul_prio_compare (retx b) (retx c) b c = false ∧
          ue_ul_prio_compare (retx c) (retx b) c b = false) →
        (ue_ul_prio_compare (retx a) (retx c) a c = false ∧
          ue_ul_prio_compare (retx c) (retx a) c a = false)) ∧
      (∀ a b,
        (ue_ul_prio_compare (retx a) (retx b) a b = false ∧
          ue_ul_prio_compare (retx b) (retx a) b a = false) ↔
        (retx a = retx b ∧ a.ul_prio = b.ul_prio))) := by
  refine ⟨⟨ue_dl_prio_compare_irrefl, ?_, ue_dl_prio_compare_trans, ?_,
    ue_dl_prio_compare_incomparable⟩,
    ⟨fun a => ue_ul_prio_compare_irrefl _ a, ?_,
      fun a b c => ue_ul_prio_compare_trans _ _ _ a b c, ?_,
      fun a b => ue_ul_prio_compare_incomparable _ _ a b⟩⟩
  · intro a b hab
    by_contra hba
    have := ue_dl_prio_compare_trans a b a hab (by simpa using hba)
    rw [ue_dl_prio_compare_irrefl] at this
    exact Bool.false_ne_true this
  · intro a b c hab hbc
    rw [ue_dl_prio_compare_incomparable] at hab hbc ⊢
    exact ⟨hab.1.trans hbc.1, hab.2.trans hbc.2⟩
  · intro a b hab
    by_contra hba
    have := ue_ul_prio_compare_trans _ _ _ a b a hab (by simpa using hba)
    rw [ue_ul_prio_compare_irrefl] at this
    exact Bool.false_ne_true this
  · intro a b c hab hbc
    rw [ue_ul_prio_compare_incomparable] at hab hbc ⊢
    exact ⟨hab.1.trans hbc.1, hab.2.trans hbc.2⟩

theorem prio_compare_strict_weak_order_witness :
    -- no retransmission and priority 10 is ranked below a retransmission with priority 0.5,
    -- and not the other way round
    ue_dl_prio_compare (example_queued 71 none (some 0) 10)
      (example_queued 70 (some 1) none (1 / 2)) = true ∧
    ue_dl_prio_compare (example_queued 70 (some 1) none (1 / 2))
      (example_queued 71 none (some 0) 10) = false :=
  ⟨by decide,
    (prio_compare_strict_weak_order (fun _ => false)).1.2.1 _ _ (by decide)⟩

/-! ## Construction of the scheduler -/

/-- What the constructor does with its policy argument: an empty string keeps the default
1.0, a string that `std::stof` converts sets the coefficient, and a non-empty string on which
`std::stof` throws makes the constructor throw. -/
theorem sched_time_pf_ctor_cases (stof : String → Option ℚ) (args : String) :
    (args.isEmpty = true →
      (sched_time_pf.ctor stof args).map (fun s => s.fairness_coeff) = some 1) ∧
    (∀ v, args.isEmpty = false → stof args = some v →
      (sched_time_pf.ctor stof args).map (fun s => s.fairness_coeff) = some v) ∧
    (args.isEmpty = false → stof args = none →
      (sched_time_pf.ctor stof args).isNone = true) := by
  refine ⟨?_, ?_, ?_⟩
  · intro h
    simp [sched_time_pf.ctor, h, sched_time_pf.init]
  · intro v h hv
    simp [sched_time_pf.ctor, h, hv, sched_time_pf.init]
  · intro h hv
    simp [sched_time_pf.ctor, h, hv]

/-- C18 (what the code does): the constructor keeps the default 1.0 for the empty string and
takes the value of the string "2", but on the string "abc", which is not empty and which
`std::stof` cannot convert, the exception of `std::stof` leaves the constructor: no scheduler
is constructed. -/
theorem sched_time_pf_ctor_throws :
    (sched_time_pf.ctor example_stof "").map (fun s => s.fairness_coeff) = some 1 ∧
    (sched_time_pf.ctor example_stof "2").map (fun s => s.fairness_coeff) = some 2 ∧
    example_stof "abc" = none ∧
    (sched_time_pf.ctor example_stof "abc").isNone = true := by
  have h3 : example_stof "abc" = none := by decide
  refine ⟨(sched_time_pf_ctor_cases example_stof "").1 (by decide), ?_, h3,
    (sched_time_pf_ctor_cases example_stof "abc").2.2 (by decide) h3⟩
  have h2 : example_stof "2" = some 2 := by
    simp [example_stof, example_digits]
  exact (sched_time_pf_ctor_cases example_stof "2").2.1 2 (by decide) h2

end srsenb

namespace srsenb

namespace sched_nr_impl

/-! ## Transmission count of system information messages -/

/-- What the window update does to one message. -/
theorem update_si_window_cases {G S : Type} (env : NrEnv G S) (N : Nat) (sl_pdcch : S)
    (si si' : si_msg_ctxt_t S) (h : update_si_window env N sl_pdcch si = some si') :
    (si.win_start = none ∧ si' = { si with win_start := some sl_pdcch, n_tx := 0 }) ∨
    (si' = si) ∨
    (si.win_start ≠ none ∧ si' = { si with win_start := none }) := by
  unfold update_si_window at h
  cases hw : si.win_start with
  | none =>
    simp only [hw] at h
    obtain ⟨b, _, hb⟩ := Option.map_eq_some'.mp h
    cases b
    · right; left
      simpa using hb.symm
    · left
      exact ⟨rfl, by simpa using hb.symm⟩
  | some ws =>
    simp only [hw] at h
    split_ifs at h
    · right; right
      exact ⟨by simp, by simpa using h.symm⟩
    · right; left
      simpa using h.symm

/-- What the scheduling pass does to one message: it attempts a grant only for a message with
an open window and a transmission count below the maximum, and it raises the count by one
exactly on success. -/
theorem sched_pending_si_cases {G S : Type} (env : NrEnv G S) (g : G) (si : si_msg_ctxt_t S) :
    ((sched_pending_si env g si).1.n_tx = si.n_tx ∨
      ((sched_pending_si env g si).1.n_tx = si.n_tx + 1 ∧ si.n_tx < MAX_SIB_TX ∧
        si.win_start.isSome = true)) ∧
    (∀ call ∈ (sched_pending_si env g si).2.2,
      call.si_idx = si.n ∧ call.si_ntx = si.n_tx ∧ si.n_tx < MAX_SIB_TX ∧
        si.win_start.isSome = true) ∧
    (si.win_start.isNone = true ∨ si.n_tx ≥ MAX_SIB_TX →
      sched_pending_si env g si = (si, g, [])) := by
  unfold sched_pending_si
  by_cases h : si.win_start.isNone = true ∨ si.n_tx ≥ MAX_SIB_TX
  · rw [if_pos h]
    exact ⟨Or.inl rfl, by simp, fun _ => rfl⟩
  · rw [if_neg h]
    rw [not_or] at h
    have h1 : si.win_start.isSome = true := by
      cases hw : si.win_start with
      | none => rw [hw] at h; simp at h
      | some ws => rfl
    have h2 : si.n_tx < MAX_SIB_TX := not_le.mp h.2
    refine ⟨?_, ?_, fun h' => absurd h' (not_or.mpr h)⟩
    · simp only []
      split_ifs
      · exact Or.inr ⟨rfl, h2, h1⟩
      · exact Or.inl rfl
      · exact Or.inl rfl
    · simp only []
      split_ifs <;> simp [h1, h2]

theorem update_si_windows_n_tx {G S : Type} (env : NrEnv G S) (N : Nat) (sl_pdcch : S) :
    ∀ (sis sis' : List (si_msg_ctxt_t S)), update_si_windows env N sl_pdcch sis = some sis' →
      (∀ si ∈ sis, si.n_tx ≤ MAX_SIB_TX) → ∀ si ∈ sis', si.n_tx ≤ MAX_SIB_TX := by
  intro sis
  induction sis with
  | nil =>
    intro sis' h _ si hsi
    simp only [update_si_windows, Option.some.injEq] at h
    rw [← h] at hsi
    exact absurd hsi (List.not_mem_nil _)
  | cons x xs ih =>
    intro sis' h hall si hsi
    cases hx : update_si_window env N sl_pdcch x with
    | none => simp [update_si_windows, hx] at h
    | some x' =>
      cases hxs : update_si_windows env N sl_pdcch xs with
      | none => simp [update_si_windows, hx, hxs] at h
      | some xs' =>
        simp only [update_si_windows, hx, hxs, Option.some.injEq] at h
        rw [← h] at hsi
        rcases List.mem_cons.mp hsi with rfl | hsi
        · have hxn := hall x (List.mem_cons_self _ _)
          rcases update_si_window_cases env N sl_pdcch x si hx with ⟨_, h1⟩ | h1 | ⟨_, h1⟩
          · rw [h1]; exact Nat.zero_le _
          · rw [h1]; exact hxn
          · rw [h1]; exact hxn
        · exact ih xs' hxs (fun y hy => hall y (List.mem_cons_of_mem _ hy)) si hsi

theorem sched_pending_sis_n_tx {G S : Type} (env : NrEnv G S) :
    ∀ (sis : List (si_msg_ctxt_t S)) (g : G), (∀ si ∈ sis, si.n_tx ≤ MAX_SIB_TX) →
      (∀ si ∈ (sched_pending_sis env g sis).1, si.n_tx ≤ MAX_SIB_TX) ∧
      (∀ call ∈ (sched_pending_sis env g sis).2.2, call.si_ntx < MAX_SIB_TX) := by
  intro sis
  induction sis with
  | nil => intro g _; simp [sched_pending_sis]
  | cons x xs ih =>
    intro g hall
    obtain ⟨h1, h2⟩ := ih (sched_pending_si env g x).2.1
      (fun y hy => hall y (List.mem_cons_of_mem _ hy))
    obtain ⟨c1, c2, _⟩ := sched_pending_si_cases env g x
    have hx := hall x (List.mem_cons_self _ _)
    simp only [sched_pending_sis]
    constructor
    · intro si hsi
      rcases List.mem_cons.mp hsi with rfl | hsi
      · rcases c1 with c1 | ⟨c1, c3, _⟩
        · rw [c1]; exact hx
        · rw [c1]; exact c3
      · exact h1 si hsi
    · intro call hcall
      rcases List.mem_append.mp hcall with hc | hc
      · obtain ⟨_, e2, e3, _⟩ := c2 call hc
        rw [e2]; exact e3
      · exact h2 call hc

/-- The paths of `run_slot`. -/
theorem run_slot_paths {G S : Type} (env : NrEnv G S) (s : si_sched S) (g : G) :
    (env.coreset0_present g = false → s.run_slot env g = some (s, g, [])) ∧
    (∀ sis, env.coreset0_present g = true →
      update_si_windows env s.slots.length (env.get_pdcch_tti g) s.pending_sis = some sis →
      s.slots[env.slot_idx (env.get_pdcch_tti g)]? = some false →
      s.run_slot env g = some ({ s with pending_sis := sis }, g, [])) ∧
    (∀ sis, env.coreset0_present g = true →
      update_si_windows env s.slots.length (env.get_pdcch_tti g) s.pending_sis = some sis →
      s.slots[env.slot_idx (env.get_pdcch_tti g)]? = some true →
      s.run_slot env g =
        some ({ s with pending_sis := (sched_pending_sis env g sis).1 },
          (sched_pending_sis env g sis).2.1, (sched_pending_sis env g sis).2.2)) ∧
    (env.coreset0_present g = true →
      update_si_windows env s.slots.length (env.get_pdcch_tti g) s.pending_sis = none →
      s.run_slot env g = none) ∧
    (env.coreset0_present g = true →
      s.slots[env.slot_idx (env.get_pdcch_tti g)]? = none → s.run_slot env g = none) := by
  refine ⟨?_, ?_, ?_, ?_, ?_⟩
  · intro hc
    simp [si_sched.run_slot, hc]
  · intro sis hc hu hd
    simp [si_sched.run_slot, hc, hu, hd]
  · intro sis hc hu hd
    simp [si_sched.run_slot, hc, hu, hd]
  · intro hc hu
    simp [si_sched.run_slot, hc, hu]
  · intro hc hd
    simp only [si_sched.run_slot, hc, hd]
    cases update_si_windows env s.slots.length (env.get_pdcch_tti g) s.pending_sis <;> simp

/-- The result of a `run_slot` that returns: nothing changed without CORESET 0; otherwise the
windows were updated and, in a downlink slot, the scheduling pass ran. -/
theorem run_slot_some {G S : Type} (env : NrEnv G S) (s : si_sched S) (g : G)
    (out : si_sched S × G × List si_alloc_call) (h : s.run_slot env g = some out) :
    (env.coreset0_present g = false ∧ out = (s, g, [])) ∨
    (∃ sis, env.coreset0_present g = true ∧
      update_si_windows env s.slots.length (env.get_pdcch_tti g) s.pending_sis = some sis ∧
      ((s.slots[env.slot_idx (env.get_pdcch_tti g)]? = some false ∧
          out = ({ s with pending_sis := sis }, g, [])) ∨
        (s.slots[env.slot_idx (env.get_pdcch_tti g)]? = some true ∧
          out = ({ s with pending_sis := (sched_pending_sis env g sis).1 },
            (sched_pending_sis env g sis).2.1, (sched_pending_sis env g sis).2.2)))) := by
  obtain ⟨p1, p2, p3, p4, p5⟩ := run_slot_paths env s g
  cases hc : env.coreset0_present g with
  | false =>
    rw [p1 hc] at h
    exact Or.inl ⟨rfl, (Option.some.inj h).symm⟩
  | true =>
    right
    cases hu : update_si_windows env s.slots.length (env.get_pdcch_tti g) s.pending_sis with
    | none => rw [p4 hc hu] at h; exact absurd h (by simp)
    | some sis =>
      cases hd : s.slots[env.slot_idx (env.get_pdcch_tti g)]? with
      | none => rw [p5 hc hd] at h; exact absurd h (by simp)
      | some is_dl =>
        cases is_dl with
        | false =>
          rw [p2 sis hc hu hd] at h
          exact ⟨sis, rfl, rfl, Or.inl ⟨rfl, (Option.some.inj h).symm⟩⟩
        | true =>
          rw [p3 sis hc hu hd] at h
          exact ⟨sis, rfl, rfl, Or.inr ⟨rfl, (Option.some.inj h).symm⟩⟩

theorem run_slot_n_tx {G S : Type} (env : NrEnv G S) (s : si_sched S) (g : G)
    (out : si_sched S × G × List si_alloc_call) (h : s.run_slot env g = some out)
    (hall : ∀ si ∈ s.pending_sis, si.n_tx ≤ MAX_SIB_TX) :
    (∀ si ∈ out.1.pending_sis, si.n_tx ≤ MAX_SIB_TX) ∧
    (∀ call ∈ out.2.2, call.si_ntx < MAX_SIB_TX) := by
  rcases run_slot_some env s g out h with ⟨_, rfl⟩ | ⟨sis, _, hu, ⟨_, rfl⟩ | ⟨_, rfl⟩⟩
  · exact ⟨hall, by simp⟩
  · exact ⟨update_si_windows_n_tx env _ _ _ sis hu hall, by simp⟩
  · exact sched_pending_sis_n_tx env sis g (update_si_windows_n_tx env _ _ _ sis hu hall)

theorem run_slots_n_tx {G S : Type} (env : NrEnv G S) :
    ∀ (gs : List G) (s : si_sched S) (r : si_sched S × List si_alloc_call),
      run_slots env s gs = some r → (∀ si ∈ s.pending_sis, si.n_tx ≤ MAX_SIB_TX) →
      (∀ si ∈ r.1.pending_sis, si.n_tx ≤ MAX_SIB_TX) ∧
      (∀ call ∈ r.2, call.si_ntx < MAX_SIB_TX) := by
  intro gs
  induction gs with
  | nil =>
    intro s r h hall
    simp only [run_slots, Option.some.injEq] at h
    rw [← h]
    exact ⟨hall, by simp⟩
  | cons g gs ih =>
    intro s r h hall
    cases hout : s.run_slot env g with
    | none => simp [run_slots, hout] at h
    | some out =>
      simp only [run_slots, hout] at h
      obtain ⟨r1, hr1, hr⟩ := Option.map_eq_some'.mp h
      obtain ⟨h1, h2⟩ := run_slot_n_tx env s g out hout hall
      obtain ⟨h3, h4⟩ := ih out.1 r1 hr1 h1
      rw [← hr]
      refine ⟨h3, ?_⟩
      intro call hcall
      rcases List.mem_append.mp hcall with hc | hc
      · exact h2 call hc
      · exact h4 call hc

theorem si_sched_contexts_n_tx {S : Type} :
    ∀ (sibs : List sib_cfg) (i : Nat),
      ∀ si ∈ (si_sched_contexts i sibs : List (si_msg_ctxt_t S)),
        si.n_tx = 0 ∧ si.win_start = none := by
  intro sibs
  induction sibs with
  | nil => intro i si hsi; simp [si_sched_contexts] at hsi
  | cons c cs ih =>
    intro i si hsi
    simp only [si_sched_contexts] at hsi
    rcases List.mem_cons.mp hsi with rfl | hsi
    · exact ⟨rfl, rfl⟩
    · exact ih (i + 1) si hsi

/-- C12: from the constructed scheduler (every transmission count 0, no window open) and for
every sequence of `run_slot` calls, the transmission count of every message is at most
`MAX_SIB_TX = 8`, every grant was attempted with a count below the maximum, and no grant is
attempted for a message whose count has reached the maximum. -/
theorem n_tx_bounded {G S : Type} (env : NrEnv G S) (slots : List Bool) (sibs : List sib_cfg)
    (gs : List G) (r : si_sched S × List si_alloc_call)
    (h : run_slots env (si_sched.init slots sibs) gs = some r) :
    MAX_SIB_TX = 8 ∧
    (∀ si ∈ (si_sched.init slots sibs : si_sched S).pending_sis,
      si.n_tx = 0 ∧ si.win_start = none) ∧
    (∀ si ∈ r.1.pending_sis, si.n_tx ≤ MAX_SIB_TX) ∧
    (∀ call ∈ r.2, call.si_ntx < MAX_SIB_TX) ∧
    (∀ (g : G) (si : si_msg_ctxt_t S), si.n_tx ≥ MAX_SIB_TX →
      sched_pending_si env g si = (si, g, [])) := by
  have hinit := si_sched_contexts_n_tx (S := S) sibs 0
  obtain ⟨h1, h2⟩ := run_slots_n_tx env gs _ r h
    (fun si hsi => by rw [(hinit si hsi).1]; exact Nat.zero_le _)
  exact ⟨rfl, hinit, h1, h2, fun g si hsi => (sched_pending_si_cases env g si).2.2 (Or.inr hsi)⟩

theorem n_tx_bounded_witness :
    ∃ r, run_slots (example_nr_env .success) example_si_sched
        [(10, 0), (10, 1), (11, 0), (12, 0), (12, 1)] = some r ∧
      (∀ si ∈ r.1.pending_sis, si.n_tx ≤ MAX_SIB_TX) ∧
      (∀ call ∈ r.2, call.si_ntx < MAX_SIB_TX) := by
  have h : (run_slots (example_nr_env .success) example_si_sched
      [(10, 0), (10, 1), (11, 0), (12, 0), (12, 1)]).isSome = true := by decide
  obtain ⟨r, hr⟩ := Option.isSome_iff_exists.mp h
  obtain ⟨_, _, h1, h2, _⟩ := n_tx_bounded (example_nr_env .success)
    (List.replicate 10 true)
    [{ len := 20, period_rf := 2, si_window_slots := 5 },
     { len := 30, period_rf := 8, si_window_slots := 5 }]
    [(10, 0), (10, 1), (11, 0), (12, 0), (12, 1)] r hr
  exact ⟨r, hr, h1, h2⟩

end sched_nr_impl

end srsenb

namespace srsenb

namespace sched_nr_impl

/-! ## Retention of system information windows -/

/-- The window update on an open window: cleared when `win_start + win_len_slots >= sl_pdcch`,
kept otherwise. -/
theorem update_si_window_open {G S : Type} (env : NrEnv G S) (N : Nat) (sl_pdcch win_start : S)
    (si : si_msg_ctxt_t S) (h : si.win_start = some win_start) :
    (env.ge (env.add win_start si.win_len_slots) sl_pdcch = true →
      update_si_window env N sl_pdcch si = some { si with win_start := none }) ∧
    (env.ge (env.add win_start si.win_len_slots) sl_pdcch = false →
      update_si_window env N sl_pdcch si = some si) := by
  constructor <;> intro hge <;> simp [update_si_window, h, hge]

/-- C11 (what the code does): the window of message 0 (length 5 slots) opens in slot 0 of
frame 10 and the grant attempted there fails, so the window is open after that slot.  In
slot 1 of frame 10, a downlink slot inside the window, the window update finds
`win_start + win_len_slots >= sl_pdcch` true and clears the window before the scheduling
pass: no grant is attempted.  Once the span has elapsed (slot 0 of frame 11) that test is
false, and an open window is kept. -/
theorem si_window_cleared_early :
    (example_si_sched.run_slot (example_nr_env .no_cch_space) (10, 0)).map
      (fun o => (o.1.pending_sis.map (fun si => (si.n, si.win_start, si.n_tx, si.result)),
        o.2.2.map (fun c => c.si_idx)))
      = some ([(0, some (10, 0), 0, .no_cch_space), (1, none, 0, .invalid_coderate)], [0]) ∧
    ((example_si_sched.run_slot (example_nr_env .no_cch_space) (10, 0)).bind
        (fun o => o.1.run_slot (example_nr_env .no_cch_space) (10, 1))).map
      (fun o => (o.1.pending_sis.map (fun si => (si.n, si.win_start, si.n_tx, si.result)),
        o.2.2.map (fun c => c.si_idx)))
      = some ([(0, none, 0, .no_cch_space), (1, none, 0, .invalid_coderate)], []) ∧
    (update_si_window (example_nr_env .no_cch_space) 10 (11, 0)
        (example_si 0 (some (10, 0)) 0)).map (fun si => si.win_start)
      = some (some (10, 0)) := by
  refine ⟨?_, ?_, ?_⟩ <;> rfl

/-! ## Reset of the transmission count -/

/-- C13 as stated fails: `alloc_si` succeeds in frame 10 and finds no space from frame 12 on.
After `run_slot` in slot 0 of frame 10 message 0 has been granted once (`n_tx = 1`, window
closed); `run_slot` in slot 0 of frame 12 opens its next window, which sets `n_tx = 0`, and
the grant fails: `n_tx` is 0 after the call and was 1 before. -/
theorem n_tx_reset_at_window_start :
    (example_si_sched.run_slot (example_nr_env_until 12) (10, 0)).map
      (fun o => o.1.pending_sis.map (fun si => (si.n, si.win_start, si.n_tx)))
      = some [(0, none, 1), (1, none, 0)] ∧
    ((example_si_sched.run_slot (example_nr_env_until 12) (10, 0)).bind
        (fun o => o.1.run_slot (example_nr_env_until 12) (12, 0))).map
      (fun o => o.1.pending_sis.map (fun si => (si.n, si.win_start, si.n_tx)))
      = some [(0, some (12, 0), 0), (1, none, 0)] := by
  refine ⟨?_, ?_⟩ <;> decide

theorem sched_pending_si_success {G S : Type} (env : NrEnv G S) (g : G)
    (si : si_msg_ctxt_t S) (h : (sched_pending_si env g si).1.n_tx = si.n_tx + 1) :
    (sched_pending_si env g si).1.result = alloc_result.success := by
  unfold sched_pending_si at h ⊢
  by_cases h1 : si.win_start.isNone = true ∨ si.n_tx ≥ MAX_SIB_TX
  · rw [if_pos h1] at h
    simp at h
  · rw [if_neg h1] at h ⊢
    simp only [] at h ⊢
    split_ifs at h ⊢ with h2 h3
    · exact h3
    · simp at h
    · simp at h

/-- One message through the window update and, in a downlink slot, the scheduling pass. -/
theorem n_tx_step_message {G S : Type} (env : NrEnv G S) (N : Nat) (sl_pdcch : S)
    (si si1 : si_msg_ctxt_t S) (hu : update_si_window env N sl_pdcch si = some si1) :
    n_tx_step env N sl_pdcch true si si1 ∧
    ∀ g, n_tx_step env N sl_pdcch true si (sched_pending_si env g si1).1 := by
  have hopens : si_window_opens env N sl_pdcch si = (si.win_start.isNone && si1.win_start.isSome) := by
    simp [si_window_opens, hu]
  unfold n_tx_step
  rcases update_si_window_cases env N sl_pdcch si si1 hu with ⟨hw, h1⟩ | h1 | ⟨hw, h1⟩
  · have ho : si_window_opens env N sl_pdcch si = true := by
      rw [hopens, hw, h1]; rfl
    have hn : si1.n_tx = 0 := by rw [h1]
    simp only [ho, and_self, if_true]
    refine ⟨Or.inl hn, fun g => ?_⟩
    rcases (sched_pending_si_cases env g si1).1 with h2 | ⟨h2, _, _⟩
    · left; rw [h2, hn]
    · right
      exact ⟨by rw [h2, hn], sched_pending_si_success env g si1 h2⟩
  · have ho : si_window_opens env N sl_pdcch si = false := by
      rw [hopens, h1]
      cases si.win_start <;> rfl
    simp only [ho, Bool.false_eq_true, and_false, if_false]
    rw [h1]
    refine ⟨Or.inl rfl, fun g => ?_⟩
    rcases (sched_pending_si_cases env g si).1 with h2 | ⟨h2, _, _⟩
    · exact Or.inl h2
    · exact Or.inr ⟨h2, sched_pending_si_success env g si h2⟩
  · have ho : si_window_opens env N sl_pdcch si = false := by
      rw [hopens]
      cases hs : si.win_start with
      | none => exact absurd hs hw
      | some ws => rfl
    simp only [ho, Bool.false_eq_true, and_false, if_false]
    have hn : si1.n_tx = si.n_tx := by rw [h1]
    refine ⟨Or.inl hn, fun g => ?_⟩
    have hskip := (sched_pending_si_cases env g si1).2.2 (Or.inl (by rw [h1]; rfl))
    rw [hskip]
    exact Or.inl hn

theorem n_tx_step_messages {G S : Type} (env : NrEnv G S) (N : Nat) (sl_pdcch : S) :
    ∀ (sis sis1 : List (si_msg_ctxt_t S)),
      update_si_windows env N sl_pdcch sis = some sis1 →
      List.Forall₂ (n_tx_step env N sl_pdcch true) sis sis1 ∧
      ∀ g, List.Forall₂ (n_tx_step env N sl_pdcch true) sis (sched_pending_sis env g sis1).1 := by
  intro sis
  induction sis with
  | nil =>
    intro sis1 h
    simp only [update_si_windows, Option.some.injEq] at h
    rw [← h]
    exact ⟨List.Forall₂.nil, fun g => List.Forall₂.nil⟩
  | cons x xs ih =>
    intro sis1 h
    cases hx : update_si_window env N sl_pdcch x with
    | none => simp [update_si_windows, hx] at h
    | some x' =>
      cases hxs : update_si_windows env N sl_pdcch xs with
      | none => simp [update_si_windows, hx, hxs] at h
      | some xs' =>
        simp only [update_si_windows, hx, hxs, Option.some.injEq] at h
        rw [← h]
        obtain ⟨a1, a2⟩ := n_tx_step_message env N sl_pdcch x x' hx
        obtain ⟨b1, b2⟩ := ih xs' hxs
        exact ⟨List.Forall₂.cons a1 b1, fun g => List.Forall₂.cons (a2 g) (b2 _)⟩

theorem n_tx_step_refl {G S : Type} (env : NrEnv G S) (N : Nat) (sl_pdcch : S) :
    ∀ sis : List (si_msg_ctxt_t S), List.Forall₂ (n_tx_step env N sl_pdcch false) sis sis := by
  intro sis
  induction sis with
  | nil => exact List.Forall₂.nil
  | cons x xs ih =>
    refine List.Forall₂.cons ?_ ih
    unfold n_tx_step
    simp

/-- The window update of one message: the count restarts exactly when a window opens. -/
theorem update_si_window_n_tx {G S : Type} (env : NrEnv G S) (N : Nat) (sl_pdcch : S)
    (si si1 : si_msg_ctxt_t S) (hu : update_si_window env N sl_pdcch si = some si1) :
    si1.n_tx = (if si_window_opens env N sl_pdcch si = true then 0 else si.n_tx) ∧
    si1.n = si.n ∧ si1.win_start.isSome = si_window_open_after env N sl_pdcch si := by
  have hopens : si_window_opens env N sl_pdcch si =
      (si.win_start.isNone && si1.win_start.isSome) := by
    simp [si_window_opens, hu]
  have hafter : si_window_open_after env N sl_pdcch si = si1.win_start.isSome := by
    simp [si_window_open_after, hu]
  rw [hopens, hafter]
  rcases update_si_window_cases env N sl_pdcch si si1 hu with ⟨hw, h1⟩ | h1 | ⟨hw, h1⟩
  · rw [h1, hw]
    exact ⟨rfl, rfl, rfl⟩
  · rw [h1]
    refine ⟨?_, rfl, rfl⟩
    cases si.win_start <;> rfl
  · rw [h1]
    refine ⟨?_, rfl, rfl⟩
    cases hs : si.win_start with
    | none => exact absurd hs hw
    | some ws => rfl

/-- The scheduling pass on one message: the count grows by one exactly when a grant is
attempted and `alloc_si` returns success, and an attempt hands on the grid it leaves. -/
theorem sched_pending_si_n_tx {G S : Type} (env : NrEnv G S) (g : G) (si : si_msg_ctxt_t S) :
    (si.win_start.isSome = true ∧ si.n_tx < MAX_SIB_TX ∧
        (env.find_empty_interval_of_length (env.dl_prbs g) 8 0).stop -
          (env.find_empty_interval_of_length (env.dl_prbs g) 8 0).start ≥ 8 →
      (sched_pending_si env g si).1.n_tx =
        (if (env.alloc_si g 2 si.n si.n_tx
            (env.find_empty_interval_of_length (env.dl_prbs g) 8 0)).1 = alloc_result.success
          then si.n_tx + 1 else si.n_tx) ∧
      (sched_pending_si env g si).2.1 =
        (env.alloc_si g 2 si.n si.n_tx
          (env.find_empty_interval_of_length (env.dl_prbs g) 8 0)).2) ∧
    (¬ (si.win_start.isSome = true ∧ si.n_tx < MAX_SIB_TX ∧
        (env.find_empty_interval_of_length (env.dl_prbs g) 8 0).stop -
          (env.find_empty_interval_of_length (env.dl_prbs g) 8 0).start ≥ 8) →
      (sched_pending_si env g si).1.n_tx = si.n_tx ∧ (sched_pending_si env g si).2.1 = g) := by
  unfold sched_pending_si
  by_cases h1 : si.win_start.isNone = true ∨ si.n_tx ≥ MAX_SIB_TX
  · rw [if_pos h1]
    constructor
    · rintro ⟨ha, hb, _⟩
      rcases h1 with h1 | h1
      · cases hs : si.win_start with
        | none => rw [hs] at ha; simp at ha
        | some ws => rw [hs] at h1; simp at h1
      · omega
    · intro _; exact ⟨rfl, rfl⟩
  · rw [if_neg h1]
    simp only []
    rw [not_or] at h1
    have ha : si.win_start.isSome = true := by
      cases hs : si.win_start with
      | none => rw [hs] at h1; simp at h1
      | some ws => rfl
    have hb : si.n_tx < MAX_SIB_TX := not_le.mp h1.2
    by_cases h2 : (env.find_empty_interval_of_length (env.dl_prbs g) 8 0).stop -
        (env.find_empty_interval_of_length (env.dl_prbs g) 8 0).start ≥ 8
    · rw [if_pos h2]
      constructor
      · intro _
        by_cases h3 : (env.alloc_si g 2 si.n si.n_tx
            (env.find_empty_interval_of_length (env.dl_prbs g) 8 0)).1 = alloc_result.success
        · rw [if_pos h3, if_pos h3]; exact ⟨rfl, rfl⟩
        · rw [if_neg h3, if_neg h3]; exact ⟨rfl, rfl⟩
      · intro hn; exact absurd ⟨ha, hb, h2⟩ hn
    · rw [if_neg h2]
      constructor
      · rintro ⟨_, _, hc⟩; exact absurd hc h2
      · intro _; exact ⟨rfl, rfl⟩

/-- The two loops of `run_slot` against the counts of `n_tx_after`. -/
theorem n_tx_after_loops {G S : Type} (env : NrEnv G S) (N : Nat) (sl_pdcch : S) :
    ∀ (sis sis1 : List (si_msg_ctxt_t S)),
      update_si_windows env N sl_pdcch sis = some sis1 →
      ∀ g, sis1.map (fun si => si.n_tx) = n_tx_after env N sl_pdcch false g sis ∧
        (sched_pending_sis env g sis1).1.map (fun si => si.n_tx) =
          n_tx_after env N sl_pdcch true g sis := by
  intro sis
  induction sis with
  | nil =>
    intro sis1 h g
    simp only [update_si_windows, Option.some.injEq] at h
    rw [← h]
    exact ⟨rfl, rfl⟩
  | cons x xs ih =>
    intro sis1 h g
    cases hx : update_si_window env N sl_pdcch x with
    | none => simp [update_si_windows, hx] at h
    | some x' =>
      cases hxs : update_si_windows env N sl_pdcch xs with
      | none => simp [update_si_windows, hx, hxs] at h
      | some xs' =>
        simp only [update_si_windows, hx, hxs, Option.some.injEq] at h
        rw [← h]
        obtain ⟨a1, a2, a3⟩ := update_si_window_n_tx env N sl_pdcch x x' hx
        obtain ⟨b1, b2⟩ := sched_pending_si_n_tx env g x'
        constructor
        · rw [List.map_cons, (ih xs' hxs g).1, a1]
          simp [n_tx_after]
        · simp only [sched_pending_sis, List.map_cons, n_tx_after]
          rw [← a1, ← a3, ← a2]
          by_cases hatt : x'.win_start.isSome = true ∧ x'.n_tx < MAX_SIB_TX ∧
              (env.find_empty_interval_of_length (env.dl_prbs g) 8 0).stop -
                (env.find_empty_interval_of_length (env.dl_prbs g) 8 0).start ≥ 8
          · obtain ⟨c1, c2⟩ := b1 hatt
            rw [if_pos ⟨trivial, hatt⟩, c1, c2, (ih xs' hxs _).2]
          · obtain ⟨c1, c2⟩ := b2 hatt
            rw [if_neg (fun hh => hatt hh.2), c1, c2, (ih xs' hxs _).2]

/-- C13, amended: `run_slot` resets the transmission count of a message exactly when it opens
a window for it; apart from that the count only grows, by one, and it does grow on every
successful grant.  For every state and slot in which `run_slot` returns: without CORESET 0
the counts are unchanged; otherwise they are the counts of `n_tx_after`: 0 for a message
whose window the call opens and the count of before for the others, plus one exactly for the
messages for which a grant was attempted and `alloc_si` returned success.  Message by message
this is `n_tx_step`: after a window start the count is 0 or 1, otherwise it is the count of
before or that count plus one, the latter with the result `success`. -/
theorem n_tx_reset_only_at_window_start {G S : Type} (env : NrEnv G S) (s : si_sched S) (g : G)
    (out : si_sched S × G × List si_alloc_call) (h : s.run_slot env g = some out) :
    out.1.pending_sis.map (fun si => si.n_tx) =
      (if env.coreset0_present g = true then
        n_tx_after env s.slots.length (env.get_pdcch_tti g)
          ((s.slots[env.slot_idx (env.get_pdcch_tti g)]?).getD false) g s.pending_sis
      else s.pending_sis.map (fun si => si.n_tx)) ∧
    List.Forall₂
      (n_tx_step env s.slots.length (env.get_pdcch_tti g) (env.coreset0_present g))
      s.pending_sis out.1.pending_sis := by
  rcases run_slot_some env s g out h with ⟨hc, rfl⟩ | ⟨sis, hc, hu, ⟨hd, rfl⟩ | ⟨hd, rfl⟩⟩
  · rw [hc]; exact ⟨by simp, n_tx_step_refl env _ _ _⟩
  · rw [hc, hd]
    exact ⟨by rw [if_pos rfl]; exact (n_tx_after_loops env _ _ _ sis hu g).1,
      (n_tx_step_messages env _ _ _ sis hu).1⟩
  · rw [hc, hd]
    exact ⟨by rw [if_pos rfl]; exact (n_tx_after_loops env _ _ _ sis hu g).2,
      (n_tx_step_messages env _ _ _ sis hu).2 g⟩

theorem n_tx_reset_only_at_window_start_witness :
    ∃ out, (example_si_sched.run_slot (example_nr_env .success) (16, 0)) = some out ∧
      out.1.pending_sis.map (fun si => si.n_tx) = [1, 1] ∧
      List.Forall₂ (n_tx_step (example_nr_env .success) 10 (16, 0) true)
        example_si_sched.pending_sis out.1.pending_sis := by
  have h : (example_si_sched.run_slot (example_nr_env .success) (16, 0)).isSome = true := by
    decide
  obtain ⟨out, hout⟩ := Option.isSome_iff_exists.mp h
  have hw := n_tx_reset_only_at_window_start _ _ _ out hout
  exact ⟨out, hout, by rw [hw.1]; decide, hw.2⟩

end sched_nr_impl

end srsenb

namespace srsenb

namespace sched_nr_impl

/-! ## NZP-CSI-RS occasions: first fit until the list is full -/

/-- One resource set: the list after it, and whether the function returned on a full list. -/
theorem sched_nzp_csi_rs_set_spec {G S : Type} (env : NrEnv G S) (capacity slot_cfg : Nat) :
    ∀ (set l : List srsran_csi_rs_nzp_resource_t), l.length ≤ capacity →
      sched_nzp_csi_rs_set env capacity slot_cfg set l =
        some ((l ++ set.filter (fun r => env.csi_rs_send r.periodicity slot_cfg)).take capacity,
          decide (capacity <
            l.length + (set.filter (fun r => env.csi_rs_send r.periodicity slot_cfg)).length)) := by
  intro set
  induction set with
  | nil =>
    intro l hl
    simp only [sched_nzp_csi_rs_set, List.filter_nil, List.append_nil, List.length_nil,
      Nat.add_zero, List.take_of_length_le hl]
    rw [decide_eq_false (Nat.not_lt.mpr hl)]
  | cons r rest ih =>
    intro l hl
    unfold sched_nzp_csi_rs_set
    by_cases hf : env.csi_rs_send r.periodicity slot_cfg = true
    · have hfc : (r :: rest).filter (fun r => env.csi_rs_send r.periodicity slot_cfg) =
          r :: rest.filter (fun r => env.csi_rs_send r.periodicity slot_cfg) := by
        simp [List.filter_cons, hf]
      rw [if_pos hf, hfc]
      by_cases hfull : bounded_full capacity l = true
      · rw [if_pos hfull]
        have hcap : l.length = capacity := by
          simp only [bounded_full, decide_eq_true_eq] at hfull
          omega
        have h1 : (l ++ r :: rest.filter (fun r => env.csi_rs_send r.periodicity slot_cfg)).take
            capacity = l := by
          rw [← hcap]; exact List.take_left _ _
        rw [h1]
        simp [hcap]
      · rw [if_neg hfull]
        have hlt : l.length < capacity := by
          simp only [bounded_full, decide_eq_true_eq, not_le] at hfull
          exact hfull
        simp only [bounded_push_back, if_pos hlt]
        rw [ih (l ++ [r]) (by simp; omega)]
        simp [Nat.add_assoc, Nat.add_comm 1]
    · have hfc : (r :: rest).filter (fun r => env.csi_rs_send r.periodicity slot_cfg) =
          rest.filter (fun r => env.csi_rs_send r.periodicity slot_cfg) := by
        simp [List.filter_cons, hf]
      rw [if_neg hf, hfc]
      exact ih l hl

theorem sched_nzp_csi_rs_spec {G S : Type} (env : NrEnv G S) (capacity slot_cfg : Nat) :
    ∀ (sets : List (List srsran_csi_rs_nzp_resource_t)) (l : List srsran_csi_rs_nzp_resource_t),
      l.length ≤ capacity →
      sched_nzp_csi_rs env capacity slot_cfg sets l =
        some ((l ++ sets.flatten.filter (fun r => env.csi_rs_send r.periodicity slot_cfg)).take
          capacity) := by
  intro sets
  induction sets with
  | nil =>
    intro l hl
    simp only [sched_nzp_csi_rs, List.flatten_nil, List.filter_nil, List.append_nil,
      List.take_of_length_le hl]
  | cons set sets ih =>
    intro l hl
    unfold sched_nzp_csi_rs
    rw [sched_nzp_csi_rs_set_spec env capacity slot_cfg set l hl]
    by_cases hb : capacity <
        l.length + (set.filter (fun r => env.csi_rs_send r.periodicity slot_cfg)).length
    · have h2 : (l ++ set.filter (fun r => env.csi_rs_send r.periodicity slot_cfg) ++
          sets.flatten.filter (fun r => env.csi_rs_send r.periodicity slot_cfg)).take capacity =
          (l ++ set.filter (fun r => env.csi_rs_send r.periodicity slot_cfg)).take capacity :=
        List.take_append_of_le_length (by rw [List.length_append]; omega)
      simp only [hb, decide_True, List.flatten_cons, List.filter_append]
      rw [← List.append_assoc, h2]
    · have h2 : (l ++ set.filter (fun r => env.csi_rs_send r.periodicity slot_cfg)).take capacity =
          l ++ set.filter (fun r => env.csi_rs_send r.periodicity slot_cfg) :=
        List.take_of_length_le (by rw [List.length_append]; omega)
      simp only [hb, decide_False, List.flatten_cons, List.filter_append]
      rw [h2, ih _ (by rw [List.length_append]; omega), List.append_assoc]

/-- C15: for every configuration of resource sets, every slot and every initial list within
capacity, `sched_nzp_csi_rs` returns (it never pushes onto a full list), the list after it is
the initial list followed by the resources whose periodicity predicate fires for the slot, in
configuration order, cut off at capacity, and its length is at most the capacity. -/
theorem sched_nzp_csi_rs_first_fit {G S : Type} (env : NrEnv G S) (capacity slot_cfg : Nat)
    (sets : List (List srsran_csi_rs_nzp_resource_t)) (l : List srsran_csi_rs_nzp_resource_t)
    (hl : l.length ≤ capacity) :
    ∃ l', sched_nzp_csi_rs env capacity slot_cfg sets l = some l' ∧
      l' = (l ++ sets.flatten.filter (fun r => env.csi_rs_send r.periodicity slot_cfg)).take
        capacity ∧
      l'.length ≤ capacity := by
  refine ⟨_, sched_nzp_csi_rs_spec env capacity slot_cfg sets l hl, rfl, ?_⟩
  rw [List.length_take]
  exact Nat.min_le_left _ _

theorem sched_nzp_csi_rs_first_fit_witness :
    ∃ l', sched_nzp_csi_rs (example_nr_env .success) 2 4
        [[example_csi_rs 0 0, example_csi_rs 1 1], [example_csi_rs 2 0, example_csi_rs 3 0]]
        [example_csi_rs 9 0] = some l' ∧
      l' = ([example_csi_rs 9 0] ++
        ([[example_csi_rs 0 0, example_csi_rs 1 1],
          [example_csi_rs 2 0, example_csi_rs 3 0]].flatten.filter
            (fun r => (example_nr_env .success).csi_rs_send r.periodicity 4))).take 2 ∧
      l'.length ≤ 2 :=
  sched_nzp_csi_rs_first_fit (example_nr_env .success) 2 4 _ _ (by decide)

/-! ## SSB occasions -/

/-- The periodicity 0 is replaced by the default before anything depends on it. -/
theorem sched_ssb_basic_default {G S : Type} (env : NrEnv G S) (capacity : Nat) (sl_point : S)
    (mib : srsran_mib_nr_t) (ssb_list : List ssb_t) :
    sched_ssb_basic env capacity sl_point 0 mib ssb_list =
      sched_ssb_basic env capacity sl_point 5 mib ssb_list := by
  simp [sched_ssb_basic, DEFAULT_SSB_PERIODICITY]

/-- C14: for every slot, every MIB and every burst list that is not full on entry, with `p`
the given periodicity, or 5 when it is 0, and the product `p * slots_per_subframe` a nonzero
32-bit value (and the packing of the MIB succeeding, which the code asserts):
`sched_ssb_basic` appends exactly one burst, the packed MIB of the slot, when
`slot_count mod (p * slots_per_subframe) = 0`, and leaves the list unchanged otherwise; the
result for periodicity 0 equals the result for periodicity 5. -/
theorem sched_ssb_basic_occasion {G S : Type} (env : NrEnv G S) (capacity : Nat) (sl_point : S)
    (ssb_periodicity : Nat) (mib : srsran_mib_nr_t) (ssb_list : List ssb_t)
    (hnf : bounded_full capacity ssb_list = false)
    (hpack : ∀ m, (env.pbch_msg_nr_mib_pack m).1 = SRSRAN_SUCCESS)
    (hne : (if ssb_periodicity = 0 then 5 else ssb_periodicity) *
      env.nof_slots_per_subframe sl_point ≠ 0)
    (hfit : (if ssb_periodicity = 0 then 5 else ssb_periodicity) *
      env.nof_slots_per_subframe sl_point < 2 ^ 32) :
    (env.to_uint sl_point % ((if ssb_periodicity = 0 then 5 else ssb_periodicity) *
        env.nof_slots_per_subframe sl_point) = 0 →
      sched_ssb_basic env capacity sl_point ssb_periodicity mib ssb_list =
        some (ssb_list ++ [{ pbch_msg := (env.pbch_msg_nr_mib_pack
          { mib with
            sfn := env.sfn sl_point
            hrf := decide (env.slot_idx sl_point % env.nslots_per_frame_15kHz ≥
              env.nslots_per_frame_15kHz / 2)
            ssb_idx := 0 }).2 }])) ∧
    (env.to_uint sl_point % ((if ssb_periodicity = 0 then 5 else ssb_periodicity) *
        env.nof_slots_per_subframe sl_point) ≠ 0 →
      sched_ssb_basic env capacity sl_point ssb_periodicity mib ssb_list = some ssb_list) ∧
    sched_ssb_basic env capacity sl_point 0 mib ssb_list =
      sched_ssb_basic env capacity sl_point 5 mib ssb_list := by
  have hlt : ssb_list.length < capacity := by
    simp only [bounded_full, decide_eq_false_iff_not, not_le] at hnf
    exact hnf
  have hmod : ((if ssb_periodicity = 0 then 5 else ssb_periodicity) *
      env.nof_slots_per_subframe sl_point) % 2 ^ 32 =
      (if ssb_periodicity = 0 then 5 else ssb_periodicity) *
        env.nof_slots_per_subframe sl_point := Nat.mod_eq_of_lt hfit
  refine ⟨fun h => ?_, fun h => ?_, sched_ssb_basic_default env capacity sl_point mib ssb_list⟩
  · simp only [sched_ssb_basic, hnf, Bool.false_eq_true, if_false, DEFAULT_SSB_PERIODICITY,
      hmod, if_neg hne, h, if_true, hpack, bounded_push_back, if_pos hlt]
  · simp only [sched_ssb_basic, hnf, Bool.false_eq_true, if_false, DEFAULT_SSB_PERIODICITY,
      hmod, if_neg hne, if_neg h]

theorem sched_ssb_basic_occasion_witness :
    sched_ssb_basic (example_nr_env .success) 4 (1, 0) 0 { sfn := 0, ssb_idx := 3, hrf := true, rest := 7 } []
      = some [{ pbch_msg := [false, true] }] ∧
    sched_ssb_basic (example_nr_env .success) 4 (1, 1) 0 { sfn := 0, ssb_idx := 3, hrf := true, rest := 7 } []
      = some [] :=
  ⟨(sched_ssb_basic_occasion (example_nr_env .success) 4 (1, 0) 0
      { sfn := 0, ssb_idx := 3, hrf := true, rest := 7 } [] rfl (fun _ => rfl) (by decide)
      (by decide)).1 (by decide),
   (sched_ssb_basic_occasion (example_nr_env .success) 4 (1, 1) 0
      { sfn := 0, ssb_idx := 3, hrf := true, rest := 7 } [] rfl (fun _ => rfl) (by decide)
      (by decide)).2.1 (by decide)⟩

end sched_nr_impl

end srsenb

namespace srsenb

/-! ## Order of the downlink attempts across slots -/

/-- In a slot at whose refresh the downlink queue holds nothing from an earlier slot, the
contexts queued for the slot are all handed to `try_dl_alloc`, in descending order of the key
(has a retransmission opportunity, `dl_prio`): no context is ranked below a later one, and a
queued context that outranks another one is attempted before it. -/
theorem sched_dl_users_clean_order {W : Type} (env : Env W) (s : sched_time_pf) (w : W)
    (hslot : s.current_tti_rx ≠ some (env.get_tti_rx w)) (hq : s.dl_queue = [])
    (hnd : (env.ue_db w).Nodup) :
    ∃ out, s.sched_dl_users env w = some out ∧
      (dl_attempts out.2.2).Pairwise (fun a b => ue_dl_prio_compare a b = false) ∧
      (dl_attempts out.2.2).length = (s.enter env w).1.dl_queue.length ∧
      ∀ (pA pB : Nat) (A B : ue_ctxt),
        pA ∈ (s.enter env w).1.dl_queue → pB ∈ (s.enter env w).1.dl_queue →
        (s.enter env w).1.ue_history_db pA = some A →
        (s.enter env w).1.ue_history_db pB = some B →
        ((A.dl_retx_h ≠ none ∧ B.dl_retx_h = none) ∨
          ((A.dl_retx_h ≠ none ↔ B.dl_retx_h ≠ none) ∧ B.dl_prio < A.dl_prio)) →
        (∃ a ∈ dl_attempts out.2.2, dl_key a = dl_key A) ∧
        (∃ b ∈ dl_attempts out.2.2, dl_key b = dl_key B) ∧
        ∀ pre b post, dl_attempts out.2.2 = pre ++ b :: post → dl_key b = dl_key B →
          ∃ a ∈ pre, dl_key a = dl_key A := by
  have hlive : ∀ p ∈ (s.enter env w).1.dl_queue,
      ((s.enter env w).1.ue_history_db p).isSome = true := by
    rw [enter_of_new_slot env s w hslot]
    obtain ⟨_, _, hdb, _, hdlq, _⟩ := new_tti_spec env s w hnd
    intro p hp
    rw [hdlq, hq, List.nil_append] at hp
    rw [hdb p (List.mem_filter.mp hp).1]
    rfl
  obtain ⟨out, hout, hs, hp⟩ := sched_dl_users_attempts env s w hlive
  refine ⟨out, hout, hs, ?_, ?_⟩
  · simpa using hp.length_eq
  · intro pA pB A B hpA hpB hA hB hrank
    have hmem : ∀ (p : Nat) (C : ue_ctxt), p ∈ (s.enter env w).1.dl_queue →
        (s.enter env w).1.ue_history_db p = some C →
        ∃ c ∈ dl_attempts out.2.2, dl_key c = dl_key C := by
      intro p C hpq hC
      have h1 : some (dl_key C) ∈ (s.enter env w).1.dl_queue.map
          (fun p => ((s.enter env w).1.ue_history_db p).map dl_key) :=
        List.mem_map.mpr ⟨p, hpq, by rw [hC]; rfl⟩
      obtain ⟨c, hc, hck⟩ := List.mem_map.mp (hp.symm.subset h1)
      exact ⟨c, hc, by simpa using hck⟩
    exact ⟨hmem pA A hpA hA, hmem pB B hpB hB,
      attempts_before _ hs A B (ue_dl_prio_compare_of_outranks A B hrank) (hmem pA A hpA hA)⟩

/-- C1 (what the code does): the terminals 70 and 71 have no delivery history and a downlink
and an uplink opportunity in the slots 1 and 2; the expected downlink bitrate of 70 is 32 in
slot 1 and 0 in slot 2, that of 71 is 32 in both.  In slot 1 the refresh pushes 70 and 71 (both
with `dl_prio = FLT_MAX`, the vector under the downlink queue is 70, 71) and only
`sched_ul_users` is called, which does not pop the downlink queue.  The refresh of slot 2
rewrites the priorities of the two queued contexts, 0 for terminal 70 and `FLT_MAX` for 71, and
pushes both again: each push compares the new entry with its parent in the vector, which points
to the same context, and moves nothing.  The vector is 70, 71, 70, 71, so the first context that
`sched_dl_users` takes from `dl_queue.top()` and hands to `try_dl_alloc` is that of terminal 70,
with `dl_prio = 0`, before terminal 71, which is queued with the same retransmission status and
`dl_prio = FLT_MAX`; the attempts of the call are 70, 71, 71, 70. -/
theorem stale_heap_order :
    ((sched_time_pf.init 1).new_tti_heap example_two_slots 1).map (fun s => s.dl_queue)
      = some [70, 71] ∧
    ((sched_time_pf.init 1).new_tti_heap example_two_slots 1).map
      (fun s => (s.ue_history_db 70).map dl_key) = some (some (70, false, FLT_MAX)) ∧
    ((sched_time_pf.init 1).new_tti_heap example_two_slots 1).map
      (fun s => (s.ue_history_db 71).map dl_key) = some (some (71, false, FLT_MAX)) ∧
    ((sched_time_pf.init 1).sched_ul_users example_two_slots 1).map
      (fun o => (o.1.current_tti_rx, o.1.dl_queue, o.1.ul_queue)) = some (some 1, [70, 71], []) ∧
    (((sched_time_pf.init 1).sched_ul_users example_two_slots 1).bind
      (fun o => o.1.new_tti_heap example_two_slots 2)).map (fun s => s.dl_queue)
      = some [70, 71, 70, 71] ∧
    (((sched_time_pf.init 1).sched_ul_users example_two_slots 1).bind
      (fun o => o.1.new_tti_heap example_two_slots 2)).map
        (fun s => (dl_queue_front s).map dl_key) = some (some (70, false, 0)) ∧
    (((sched_time_pf.init 1).sched_ul_users example_two_slots 1).bind
      (fun o => o.1.new_tti_heap example_two_slots 2)).map
        (fun s => (s.ue_history_db 71).map dl_key) = some (some (71, false, FLT_MAX)) ∧
    (((sched_time_pf.init 1).sched_ul_users example_two_slots 1).bind
      (fun o => o.1.new_tti_heap example_two_slots 2)).map
        (fun s => (s.ue_history_db 71).map
          (fun c71 => (dl_queue_front s).map (fun front => ue_dl_prio_compare front c71)))
      = some (some (some true)) ∧
    (((sched_time_pf.init 1).sched_ul_users example_two_slots 1).bind
      (fun o => o.1.sched_dl_users_heap example_two_slots 2)).map
        (fun attempts => attempts.map dl_key)
      = some [(70, false, 0), (71, false, FLT_MAX), (71, false, FLT_MAX), (70, false, 0)] := by
  refine ⟨?_, ?_, ?_, ?_, ?_, ?_, ?_, ?_, ?_⟩ <;> decide!

end srsenb
